import Mathlib

/-!
# modern-mcs: authentication and session management

A shallow embedding of `internal/auth` (service.go, store.go, store_file.go,
types.go, session_store_postgres.go), of `extractBearerToken` of
`internal/httpserver` (server.go) and of `internal/sqlprofile` (service.go,
types.go), and theorems about them.

Conventions of the embedding

* A Go `string` is a Lean `String`; `[]byte(s)` keeps the contents of `s`.
* `time.Time` is an instant on the integer time line (`Int`, nanoseconds),
  `time.Duration` is an `Int`; `t.Add(d)` is `t + d` and `t.After(u)` is `u < t`.
* A Go `map[string]V` is an association list with pairwise distinct keys
  (`AList`); the order of the entries is the order in which `range` visits them.
* Mutexes are not modelled: every operation is one atomic step
  `state → result × state`.
* What the environment decides (the clock, the random source, the storage
  backends) is an explicit argument or a field that scripts the backend.
-/

namespace Auth

/-! ## Errors -/

/-- Error values of package `auth`. `wrapped msg e` is `fmt.Errorf(msg + ": %w", e)`,
`other msg` is an error produced outside the package (storage, random source). -/
inductive Error where
  | ErrInvalidCredentials
  | ErrInvalidToken
  | ErrWeakPassword
  | ErrUserNotFound
  | other (msg : String)
  | wrapped (msg : String) (e : Error)
  deriving DecidableEq, Repr

deriving instance DecidableEq for Except

/-! ## types.go -/

abbrev Time := Int
abbrev Duration := Int

/-- A Go `byte`. -/
abbrev Byte := Fin 256

/-- Go `type User struct`. -/
structure User where
  ID : String
  Username : String
  PasswordHash : String
  Roles : List String
  deriving DecidableEq, Repr

/-- Go `type Session struct`. -/
structure Session where
  ID : String
  Token : String
  UserID : String
  Username : String
  Roles : List String
  CreatedAt : Time
  ExpiresAt : Time
  deriving DecidableEq, Repr

/-- Go `map[string]Session`: the session table, keyed by token. -/
abbrev SessionMap := AList (fun _ : String => Session)

/-! ## store.go -/

/-- Go `type UserStore interface`: an object with hidden state and the two
methods `GetByUsername` and `Put`. `put` returns the error (if any) together
with the state the object is left in. -/
structure UserStore where
  State : Type
  state : State
  getByUsername : State → String → Except Error User
  put : State → User → Option Error × State

/-- Method call `store.GetByUsername(username)`. -/
def UserStore.GetByUsername (st : UserStore) (username : String) : Except Error User :=
  st.getByUsername st.state username

/-- Go `InMemoryUserStore`: `users map[string]User`. -/
abbrev InMemoryUserStore := AList (fun _ : String => User)

/-- Go `(*InMemoryUserStore).GetByUsername`. -/
def InMemoryUserStore.GetByUsername (s : InMemoryUserStore) (username : String) :
    Except Error User :=
  match s.lookup username with
  | none => .error .ErrUserNotFound
  | some u => .ok u

/-- Go `(*InMemoryUserStore).Put`. -/
def InMemoryUserStore.Put (s : InMemoryUserStore) (user : User) :
    Option Error × InMemoryUserStore :=
  (none, s.insert user.Username user)

/-- An `InMemoryUserStore` used through the `UserStore` interface. -/
def InMemoryUserStore.toUserStore (s : InMemoryUserStore) : UserStore :=
  { State := InMemoryUserStore, state := s,
    getByUsername := InMemoryUserStore.GetByUsername,
    put := InMemoryUserStore.Put }

/-! ## session_store_postgres.go: the `SessionStore` interface -/

/-- A backend behind Go `type SessionStore interface`, after
`PostgresSessionStore`. `rows` is the table `auth_sessions` as `Load` scans it
(what `Load` returns), `column t` is what a `TIMESTAMPTZ` column keeps of the
instant `t` (the database stores microseconds), `saveErr` and `loadErr` script
the failures of the backend (`saveErr t = some e`: `Save(t)` fails with `e`),
`saves` records the snapshots handed to `Save`, most recent first. -/
structure SessionStore where
  rows : SessionMap
  column : Time → Time
  saveErr : SessionMap → Option Error
  loadErr : Option Error
  saves : List SessionMap

/-- The row that `Save` inserts for the session `sess` kept under `token`, as
`Load` scans it back: the column `token` is the map key, `created_at` and
`expires_at` are what the columns keep of the two instants. -/
def SessionStore.row (st : SessionStore) (token : String) (sess : Session) : Session :=
  { sess with
    Token := token
    CreatedAt := st.column sess.CreatedAt
    ExpiresAt := st.column sess.ExpiresAt }

/-- The table `auth_sessions` after `Save(sessions)` committed, read as `Load`
reads it: one row per entry, `out[sess.Token] = sess`. -/
def SessionStore.stored (st : SessionStore) (sessions : SessionMap) : SessionMap :=
  sessions.entries.foldr (fun e out => out.insert e.1 (st.row e.1 e.2)) ∅

/-- Method call `store.Save(sessions)`: on success the backend holds the rows of
the snapshot; on failure it keeps what it held (the transaction is rolled back). -/
def SessionStore.Save (st : SessionStore) (sessions : SessionMap) :
    Option Error × SessionStore :=
  match st.saveErr sessions with
  | some e => (some e, { st with saves := sessions :: st.saves })
  | none => (none, { st with rows := st.stored sessions, saves := sessions :: st.saves })

/-- Method call `store.Load()`. -/
def SessionStore.Load (st : SessionStore) : Except Error SessionMap :=
  match st.loadErr with
  | some e => .error e
  | none => .ok st.rows

/-- Contents of the session state file as `json.Unmarshal` sees them. -/
inductive FileData where
  | empty
  | json (state : SessionMap)
  | malformed
  deriving DecidableEq

/-- The part of the file system reached through `stateFile`: the state file
(`none`: it does not exist) and the scripted failures of `os.MkdirAll`,
`json.MarshalIndent`, `os.WriteFile` and `os.ReadFile`. -/
structure Disk where
  file : Option FileData
  mkdirErr : Option Error
  encodeErr : SessionMap → Option Error
  writeErr : Option Error
  readErr : Option Error

/-! ## service.go -/

/-- Go `type Service struct`. `nowFunc` is passed to each operation as the
instant it returns; `disk` is the file system behind `stateFile`, carried with
the service because state is passed explicitly. -/
structure Service where
  users : UserStore
  pepper : String
  ttl : Duration
  stateFile : String
  sessionStore : Option SessionStore
  sessions : SessionMap
  disk : Disk

/-- Assignment to the field `s.sessions` (also through `delete` and map
assignment, which replace the table by the updated one). -/
def Service.setSessions (s : Service) (m : SessionMap) : Service :=
  { s with sessions := m }

/-- Go `hex.EncodeToString`: the table of lowercase digits. -/
def hextable : List Char := "0123456789abcdef".toList

/-- One digit of the table: `hextable[i]`. -/
def hexDigit (i : Nat) : Char := hextable.getD i '0'

/-- Go `hex.EncodeToString(src)`: two digits per byte, `hextable[v>>4]` then
`hextable[v&0x0f]`. -/
def EncodeToString (src : List Byte) : String :=
  String.mk (src.flatMap fun v => [hexDigit (v.val / 16), hexDigit (v.val % 16)])

/-- Go `subtle.ConstantTimeCompare([]byte(x), []byte(y))`: 1 when the two byte
strings have the same length and contents, 0 otherwise. -/
def ConstantTimeCompare (x y : String) : Nat :=
  if x = y then 1 else 0

/-- The bytes that `HashPassword` feeds to SHA-256: `s.pepper + ":" + password`. -/
def hashInput (pepper password : String) : String :=
  pepper ++ ":" ++ password

/-- Go `(*Service).HashPassword`. `Sum256` is `crypto/sha256.Sum256` on the bytes
of its argument. -/
def HashPassword (Sum256 : String → List Byte) (s : Service) (password : String) : String :=
  let sum := Sum256 (hashInput s.pepper password)
  EncodeToString sum

/-- Go `(*Service).VerifyPassword`. -/
def VerifyPassword (Sum256 : String → List Byte) (s : Service)
    (password storedHash : String) : Bool :=
  let candidate := HashPassword Sum256 s password
  ConstantTimeCompare candidate storedHash == 1

/-- Go `(*Service).persistSessionsLocked`: hand the table to the session store if
there is one, else write it to the state file if one is configured. Returns the
error (if any) and the service with the backend in its new state. -/
def persistSessionsLocked (s : Service) : Option Error × Service :=
  match s.sessionStore with
  | some store =>
    match store.Save s.sessions with
    | (some err, store1) =>
      (some (.wrapped "save session state" err), { s with sessionStore := some store1 })
    | (none, store1) => (none, { s with sessionStore := some store1 })
  | none =>
    if s.stateFile = "" then (none, s)
    else
      match s.disk.mkdirErr with
      | some err => (some (.wrapped "mkdir session state dir" err), s)
      | none =>
        match s.disk.encodeErr s.sessions with
        | some err => (some (.wrapped "encode session state" err), s)
        | none =>
          match s.disk.writeErr with
          | some err => (some (.wrapped "write session state" err), s)
          | none => (none, { s with disk := { s.disk with file := some (.json s.sessions) } })

/-- Outcome of one `rand.Read(b)`: an error, or the bytes the buffer was filled
with (`f i` is byte `i` of the buffer). -/
abbrev RandRead := Except Error (Nat → Byte)

/-- Go `generateToken(n)`. -/
def generateToken (n : Int) (rd : RandRead) : Except Error String :=
  if n < 16 then .error (.other "token length too short")
  else
    match rd with
    | .error err => .error err
    | .ok f => .ok (EncodeToString ((List.range n.toNat).map f))

/-- Go `mustID(n)`; `unixNano` is `time.Now().UnixNano()` at the fallback. -/
def mustID (n : Int) (rd : RandRead) (unixNano : Int) : String :=
  match generateToken n rd with
  | .error _ => "sid-" ++ toString unixNano
  | .ok id => id

/-- The `Session{...}` literal built by `Login` (service.go lines 98-106) for the
user `u`, the generated `token` and session `id`, at the instant `now`. -/
def loginSession (s : Service) (u : User) (token id : String) (now : Time) : Session :=
  { ID := id
    Token := token
    UserID := u.ID
    Username := u.Username
    Roles := u.Roles
    CreatedAt := now
    ExpiresAt := now + s.ttl }

/-- Go `(*Service).Login`. `now` is the value of `s.nowFunc()`, `rdToken` and
`rdID` are the outcomes of the two reads of the random source. -/
def Login (Sum256 : String → List Byte) (s : Service) (username password : String)
    (now : Time) (rdToken rdID : RandRead) (unixNano : Int) : Except Error Session × Service :=
  match s.users.GetByUsername username with
  | .error _ => (.error .ErrInvalidCredentials, s)
  | .ok u =>
    if !VerifyPassword Sum256 s password u.PasswordHash then
      (.error .ErrInvalidCredentials, s)
    else
      match generateToken 32 rdToken with
      | .error err => (.error (.wrapped "generate token" err), s)
      | .ok token =>
        let session := loginSession s u token (mustID 16 rdID unixNano) now
        let s1 := s.setSessions (s.sessions.insert token session)
        match persistSessionsLocked s1 with
        | (some err, s2) => (.error err, s2.setSessions (s2.sessions.erase token))
        | (none, s2) => (.ok session, s2)

/-- Go `(*Service).ValidateToken`. -/
def ValidateToken (s : Service) (token : String) (now : Time) :
    Except Error Session × Service :=
  match s.sessions.lookup token with
  | none => (.error .ErrInvalidToken, s)
  | some session =>
    if session.ExpiresAt < now then
      let s1 := s.setSessions (s.sessions.erase token)
      (.error .ErrInvalidToken, (persistSessionsLocked s1).2)
    else
      (.ok session, s)

/-- Go `(*Service).Logout`. -/
def Logout (s : Service) (token : String) : Option Error × Service :=
  match s.sessions.lookup token with
  | none => (some .ErrInvalidToken, s)
  | some _ =>
    let s1 := s.setSessions (s.sessions.erase token)
    match persistSessionsLocked s1 with
    | (some err, s2) => (some err, s2)
    | (none, s2) => (none, s2)

/-- Go `(*Service).RevokeToken`. -/
def RevokeToken (s : Service) (token : String) : Option Error × Service :=
  match s.sessions.lookup token with
  | none => (some .ErrInvalidToken, s)
  | some _ =>
    let s1 := s.setSessions (s.sessions.erase token)
    match persistSessionsLocked s1 with
    | (some err, s2) => (some err, s2)
    | (none, s2) => (none, s2)

/-- The scan of `RevokeSessionByID`: the token of the first visited entry whose
session has the given ID, `""` when there is none. -/
def findTokenByID (entries : List (Σ _ : String, Session)) (sessionID : String) : String :=
  match entries with
  | [] => ""
  | e :: rest => if e.2.ID = sessionID then e.1 else findTokenByID rest sessionID

/-- Go `(*Service).RevokeSessionByID`. -/
def RevokeSessionByID (s : Service) (sessionID : String) : Option Error × Service :=
  let foundToken := findTokenByID s.sessions.entries sessionID
  if foundToken = "" then (some .ErrInvalidToken, s)
  else
    let s1 := s.setSessions (s.sessions.erase foundToken)
    match persistSessionsLocked s1 with
    | (some err, s2) => (some err, s2)
    | (none, s2) => (none, s2)

/-- The loop of `ListSessions` over the entries still to visit: an expired entry
is deleted from the table and sets `dirty`, any other is appended to `out`. -/
def listLoop (now : Time) :
    List (Σ _ : String, Session) → SessionMap × List Session × Bool →
      SessionMap × List Session × Bool
  | [], acc => acc
  | e :: rest, (m, out, dirty) =>
    if e.2.ExpiresAt < now then listLoop now rest (m.erase e.1, out, true)
    else listLoop now rest (m, out ++ [e.2], dirty)

/-- Go `(*Service).ListSessions`. -/
def ListSessions (s : Service) (now : Time) : List Session × Service :=
  match listLoop now s.sessions.entries (s.sessions, [], false) with
  | (m, out, dirty) =>
    let s1 := s.setSessions m
    if dirty then (out, (persistSessionsLocked s1).2) else (out, s1)

/-- Go `type SessionView struct`. -/
structure SessionView where
  ID : String
  UserID : String
  Username : String
  Roles : List String
  CreatedAt : Time
  ExpiresAt : Time
  deriving DecidableEq, Repr

/-- The `SessionView{...}` literal built by `ListSessionViews` for one session. -/
def sessionView (sess : Session) : SessionView :=
  { ID := sess.ID
    UserID := sess.UserID
    Username := sess.Username
    Roles := sess.Roles
    CreatedAt := sess.CreatedAt
    ExpiresAt := sess.ExpiresAt }

/-- Go `(*Service).ListSessionViews`. -/
def ListSessionViews (s : Service) (now : Time) : List SessionView × Service :=
  match ListSessions s now with
  | (sessions, s1) => (sessions.map sessionView, s1)

/-- The general category of a code point, as far as package `unicode` is asked
about it: `Lu` (upper), `Ll` (lower), `Nd` (digit), `P` (punctuation), `S` (symbol). -/
inductive Category where
  | Lu
  | Ll
  | Nd
  | P
  | S
  | other
  deriving DecidableEq, Repr

/-- The tables of Go package `unicode`: the general category of every code point
and the `White_Space` property. -/
structure Unicode where
  category : Char → Category
  IsSpace : Char → Bool

/-- Go `unicode.IsUpper`: membership in `Lu`. -/
def Unicode.IsUpper (U : Unicode) (r : Char) : Bool := U.category r == .Lu

/-- Go `unicode.IsLower`: membership in `Ll`. -/
def Unicode.IsLower (U : Unicode) (r : Char) : Bool := U.category r == .Ll

/-- Go `unicode.IsDigit`: membership in `Nd`. -/
def Unicode.IsDigit (U : Unicode) (r : Char) : Bool := U.category r == .Nd

/-- Go `unicode.IsPunct`: membership in `P`. -/
def Unicode.IsPunct (U : Unicode) (r : Char) : Bool := U.category r == .P

/-- Go `unicode.IsSymbol`: membership in `S`. -/
def Unicode.IsSymbol (U : Unicode) (r : Char) : Bool := U.category r == .S

/-- Go `strings.TrimSpace`: the string without its leading and its trailing
white space. -/
def TrimSpace (U : Unicode) (s : String) : String :=
  String.mk ((s.data.dropWhile U.IsSpace).rdropWhile U.IsSpace)

def minPasswordLength : Nat := 12

def maxPasswordLength : Nat := 128

/-- The `for _, r := range password` loop of `validatePasswordPolicy` with its
`switch`: the flags `hasUpper, hasLower, hasDigit, hasSpecial`. -/
def policyLoop (U : Unicode) :
    List Char → Bool × Bool × Bool × Bool → Bool × Bool × Bool × Bool
  | [], acc => acc
  | r :: rest, (hasUpper, hasLower, hasDigit, hasSpecial) =>
    if U.IsUpper r then policyLoop U rest (true, hasLower, hasDigit, hasSpecial)
    else if U.IsLower r then policyLoop U rest (hasUpper, true, hasDigit, hasSpecial)
    else if U.IsDigit r then policyLoop U rest (hasUpper, hasLower, true, hasSpecial)
    else if U.IsPunct r || U.IsSymbol r then
      policyLoop U rest (hasUpper, hasLower, hasDigit, true)
    else policyLoop U rest (hasUpper, hasLower, hasDigit, hasSpecial)

/-- Go `validatePasswordPolicy`; `len(password)` is the number of bytes of the
UTF-8 encoding. `none` is the `nil` error. -/
def validatePasswordPolicy (U : Unicode) (password : String) : Option Error :=
  if TrimSpace U password ≠ password then some .ErrWeakPassword
  else if password.utf8ByteSize < minPasswordLength ∨
      password.utf8ByteSize > maxPasswordLength then some .ErrWeakPassword
  else
    match policyLoop U password.data (false, false, false, false) with
    | (hasUpper, hasLower, hasDigit, hasSpecial) =>
      if !hasUpper || !hasLower || !hasDigit || !hasSpecial then some .ErrWeakPassword
      else none

/-- Method call `store.Put(user)`: the error (if any) and the store afterwards. -/
def UserStore.Put (st : UserStore) (user : User) : Option Error × UserStore :=
  match st.put st.state user with
  | (err, state1) => (err, { st with state := state1 })

/-- Assignment through the `users` field: the service with its user store in a
new state. -/
def Service.setUsers (s : Service) (st : UserStore) : Service :=
  { s with users := st }

/-- Go `(*Service).ChangePassword`. `now` is the value of `s.nowFunc()` inside
`ValidateToken`. -/
def ChangePassword (U : Unicode) (Sum256 : String → List Byte) (s : Service)
    (token currentPassword newPassword : String) (now : Time) : Option Error × Service :=
  match validatePasswordPolicy U newPassword with
  | some _ => (some .ErrWeakPassword, s)
  | none =>
    match ValidateToken s token now with
    | (.error err, s1) => (some err, s1)
    | (.ok session, s1) =>
      match s1.users.GetByUsername session.Username with
      | .error _ => (some .ErrInvalidCredentials, s1)
      | .ok user =>
        if !VerifyPassword Sum256 s1 currentPassword user.PasswordHash then
          (some .ErrInvalidCredentials, s1)
        else
          let user1 := { user with PasswordHash := HashPassword Sum256 s1 newPassword }
          match s1.users.Put user1 with
          | (some err, st) => (some (.wrapped "store updated password" err), s1.setUsers st)
          | (none, st) => (none, s1.setUsers st)

/-- Go `type ServiceConfig struct`. -/
structure ServiceConfig where
  PasswordPepper : String
  SessionTTL : Duration
  SessionStateFile : String
  SessionStore : Option SessionStore

/-- Go `NewService`; `userStore = none` is the nil interface, `disk` is the file
system the new service will see. -/
def NewService (userStore : Option UserStore) (cfg : ServiceConfig) (disk : Disk) :
    Except Error Service :=
  match userStore with
  | none => .error (.other "user store is required")
  | some st =>
    if cfg.PasswordPepper = "" then .error (.other "password pepper is required")
    else if cfg.SessionTTL ≤ 0 then .error (.other "session TTL must be > 0")
    else
      .ok { users := st
            pepper := cfg.PasswordPepper
            ttl := cfg.SessionTTL
            stateFile := cfg.SessionStateFile
            sessionStore := cfg.SessionStore
            sessions := ∅
            disk := disk }

/-- Go `(*Service).LoadSessionState`. A missing file is `disk.file = none`
(`os.IsNotExist`), any other failure of `os.ReadFile` is `disk.readErr`. -/
def LoadSessionState (s : Service) : Option Error × Service :=
  match s.sessionStore with
  | some store =>
    match store.Load with
    | .error err => (some (.wrapped "load session state" err), s)
    | .ok state => (none, s.setSessions state)
  | none =>
    if s.stateFile = "" then (none, s)
    else
      match s.disk.file with
      | none => (none, s)
      | some data =>
        match s.disk.readErr with
        | some err => (some (.wrapped "read session state" err), s)
        | none =>
          match data with
          | .empty => (none, s)
          | .malformed => (some (.wrapped "decode session state" (.other "json")), s)
          | .json state => (none, s.setSessions state)

/-- The persisted state mirrors the table: the snapshot most recently handed to
`Save` of the session store is the in-memory table and the store holds its rows;
without a session store, the state file (if one is configured) holds the
in-memory table. -/
def Mirrored (s : Service) : Prop :=
  match s.sessionStore with
  | some store =>
    store.saves.head? = some s.sessions ∧ store.rows = store.stored s.sessions
  | none => s.stateFile ≠ "" → s.disk.file = some (.json s.sessions)

/-- What the persistence backend of the service keeps of an instant: the value of
the timestamp column with a session store, the instant itself in the state file
(`encoding/json` writes a `time.Time` with its nanoseconds). -/
def Service.kept (s : Service) (t : Time) : Time :=
  match s.sessionStore with
  | some store => store.column t
  | none => t

/-- Two sessions differ at most in their token: every other field is equal. -/
def sameButToken (a b : Session) : Prop :=
  a.ID = b.ID ∧ a.UserID = b.UserID ∧ a.Username = b.Username ∧ a.Roles = b.Roles ∧
    a.CreatedAt = b.CreatedAt ∧ a.ExpiresAt = b.ExpiresAt

/-- The contract shared by the user stores: `Put` is an upsert keyed by the
username, so after a successful `Put(u)` the store returns `u` for `u.Username`. -/
def UserStore.Upserts (st : UserStore) : Prop :=
  ∀ u : User, (st.Put u).1 = none → (st.Put u).2.GetByUsername u.Username = .ok u

/-! ## store_file.go -/

/-- What `encoding/json` keeps of a `User`: the field `PasswordHash` carries the tag
`json:"-"` (types.go line 8), so it is neither written nor read and decodes to
the zero value. -/
def jsonUser (u : User) : User :=
  { u with PasswordHash := "" }

/-- Contents of the user store file as `json.Unmarshal` sees them. -/
inductive UserFileData where
  | empty
  | json (users : List User)
  | malformed
  deriving DecidableEq

/-- The part of the file system reached through the path of a `FileUserStore`:
the file (`none`: it does not exist) and the scripted failures of `os.ReadFile`,
`json.MarshalIndent`, `os.MkdirAll` and `os.WriteFile`. -/
structure UserDisk where
  file : Option UserFileData
  readErr : Option Error
  encodeErr : List User → Option Error
  mkdirErr : Option Error
  writeErr : Option Error

/-- Go `type FileUserStore struct`, with the file system behind `path`. -/
structure FileUserStore where
  path : String
  users : AList (fun _ : String => User)
  disk : UserDisk

/-- Go `(*FileUserStore).GetByUsername`. -/
def FileUserStore.GetByUsername (s : FileUserStore) (username : String) : Except Error User :=
  match s.users.lookup username with
  | none => .error .ErrUserNotFound
  | some u => .ok u

/-- Go `(*FileUserStore).persistLocked`: the users of the map, in the order of the
scan, are encoded and written to the file. -/
def FileUserStore.persistLocked (s : FileUserStore) : Option Error × FileUserStore :=
  let out := s.users.entries.map fun e => e.2
  match s.disk.encodeErr out with
  | some err => (some (.wrapped "encode user store file" err), s)
  | none =>
    match s.disk.mkdirErr with
    | some err => (some (.wrapped "mkdir user store dir" err), s)
    | none =>
      match s.disk.writeErr with
      | some err => (some (.wrapped "write user store file" err), s)
      | none =>
        (none, { s with disk := { s.disk with file := some (.json (out.map jsonUser)) } })

/-- Go `(*FileUserStore).Put`. -/
def FileUserStore.Put (s : FileUserStore) (user : User) : Option Error × FileUserStore :=
  FileUserStore.persistLocked { s with users := s.users.insert user.Username user }

/-- The loop of `(*FileUserStore).load` over the decoded users: a user with a
blank username is skipped, any other is stored under its username. -/
def FileUserStore.loadUsers (U : Unicode) :
    List User → AList (fun _ : String => User) → AList (fun _ : String => User)
  | [], m => m
  | u :: rest, m =>
    if TrimSpace U u.Username = "" then FileUserStore.loadUsers U rest m
    else FileUserStore.loadUsers U rest (m.insert u.Username u)

/-- Go `(*FileUserStore).load`. -/
def FileUserStore.load (U : Unicode) (s : FileUserStore) : Option Error × FileUserStore :=
  match s.disk.file with
  | none => (none, s)
  | some data =>
    match s.disk.readErr with
    | some err => (some (.wrapped "read user store file" err), s)
    | none =>
      match data with
      | .empty => (none, s)
      | .malformed => (some (.wrapped "decode user store file" (.other "json")), s)
      | .json decoded =>
        (none, { s with users := FileUserStore.loadUsers U (decoded.map jsonUser) s.users })

/-- Go `NewFileUserStore`; `disk` is the file system the store will see. -/
def NewFileUserStore (U : Unicode) (path : String) (disk : UserDisk) :
    Except Error FileUserStore :=
  let path1 := TrimSpace U path
  if path1 = "" then .error (.other "user state file path is required")
  else
    match FileUserStore.load U { path := path1, users := ∅, disk := disk } with
    | (some err, _) => .error err
    | (none, s) => .ok s

/-! ## Reachable states of the session table -/

/-- One operation of the service on the session table: `Step U H s s1` when `s1` is
the state after a `Login` (generating a token that is not yet a key of the
table), `ValidateToken`, `Logout`, `RevokeToken`, `RevokeSessionByID`,
`ListSessions` or `ChangePassword` in state `s`. -/
inductive Step (U : Unicode) (Sum256 : String → List Byte) : Service → Service → Prop where
  | login (s : Service) (n p : String) (now : Time) (rdToken rdID : RandRead)
      (unixNano : Int)
      (fresh : ∀ token, generateToken 32 rdToken = .ok token → token ∉ s.sessions) :
      Step U Sum256 s (Login Sum256 s n p now rdToken rdID unixNano).2
  | validateToken (s : Service) (t : String) (now : Time) :
      Step U Sum256 s (ValidateToken s t now).2
  | logout (s : Service) (t : String) : Step U Sum256 s (Logout s t).2
  | revokeToken (s : Service) (t : String) : Step U Sum256 s (RevokeToken s t).2
  | revokeSessionByID (s : Service) (id : String) :
      Step U Sum256 s (RevokeSessionByID s id).2
  | listSessions (s : Service) (now : Time) : Step U Sum256 s (ListSessions s now).2
  | changePassword (s : Service) (token cur new : String) (now : Time) :
      Step U Sum256 s (ChangePassword U Sum256 s token cur new now).2

/-- The states reachable from a service with an empty session table through the
operations of `Step`. -/
inductive Reachable (U : Unicode) (Sum256 : String → List Byte) : Service → Prop where
  | init (s : Service) (h : s.sessions = ∅) : Reachable U Sum256 s
  | step (s s1 : Service) (h : Reachable U Sum256 s) (st : Step U Sum256 s s1) :
      Reachable U Sum256 s1

/-- Hash as the specification words it: the hex encoding of
`H(pepper || ":" || password)`, a function of the pepper and the password. -/
def hashSpec (H : String → List Byte) (pepper password : String) : String :=
  EncodeToString (H (pepper ++ ":" ++ password))

/-! ## Sample data for concrete instances -/

/-- A stand-in for SHA-256 at concrete inputs: the code points of the input,
reduced to bytes. -/
def sampleSum256 (x : String) : List Byte :=
  x.toList.map fun c => Fin.ofNat c.toNat

/-- A backend that never fails and holds nothing yet. -/
def sampleStore : SessionStore :=
  { rows := ∅, column := fun t => t, saveErr := fun _ => none, loadErr := none, saves := [] }

/-- A backend whose every `Save` fails. -/
def failingStore : SessionStore :=
  { rows := ∅, column := fun t => t, saveErr := fun _ => some (.other "disk full"),
    loadErr := none, saves := [] }

/-- A file system without a state file and without failures. -/
def sampleDisk : Disk :=
  { file := none, mkdirErr := none, encodeErr := fun _ => none, writeErr := none,
    readErr := none }

/-- The user of the tests: `admin` with password `secret123` under pepper `pepper`. -/
def sampleAdmin : User :=
  { ID := "u-1", Username := "admin",
    PasswordHash := EncodeToString (sampleSum256 "pepper:secret123"), Roles := ["admin"] }

/-- A session of `admin` expiring at instant 10. -/
def sampleSession (id token : String) : Session :=
  { ID := id, Token := token, UserID := "u-1", Username := "admin", Roles := ["admin"],
    CreatedAt := 0, ExpiresAt := 10 }

/-- A table of two sessions of `admin`, under the tokens `t1` and `t2`. -/
def sampleTable : SessionMap :=
  (AList.insert "t1" (sampleSession "s1" "t1")
    (AList.insert "t2" (sampleSession "s2" "t2") ∅))

/-- A service over the in-memory user store holding `admin`, with the given
session store and session table, pepper `pepper` and a TTL of 10. -/
def sampleService (store : Option SessionStore) (table : SessionMap) : Service :=
  { users := InMemoryUserStore.toUserStore (AList.insert "admin" sampleAdmin ∅)
    pepper := "pepper"
    ttl := 10
    stateFile := ""
    sessionStore := store
    sessions := table
    disk := sampleDisk }

/-- The random source delivering the bytes 0, 1, 2, ... -/
def sampleRead : RandRead := .ok fun i => Fin.ofNat i

/-- The categories of the ASCII code points as package `unicode` has them; every
other code point is classed `other` in this sample. -/
def asciiCategory (r : Char) : Category :=
  if 'A' ≤ r ∧ r ≤ 'Z' then .Lu
  else if 'a' ≤ r ∧ r ≤ 'z' then .Ll
  else if '0' ≤ r ∧ r ≤ '9' then .Nd
  else if r ∈ "!\x22#%&\x27()*,-./:;?@[\x5c]_\x7b\x7d".toList then .P
  else if r ∈ "$+<=>^\x60|~".toList then .S
  else .other

/-- The sample tables: ASCII categories and the ASCII white space. -/
def asciiUnicode : Unicode :=
  { category := asciiCategory
    IsSpace := fun r => r ∈ " \t\n\r\x0b\x0c".toList }

/-- The sample table with other tokens: the same two sessions under `x1`, `x2`. -/
def sampleTableB : SessionMap :=
  (AList.insert "x1" (sampleSession "s1" "x1")
    (AList.insert "x2" (sampleSession "s2" "x2") ∅))

/-- A user store holding `admin` whose every `Put` fails and changes nothing. -/
def failingUsers : UserStore :=
  { State := InMemoryUserStore
    state := AList.insert "admin" sampleAdmin ∅
    getByUsername := InMemoryUserStore.GetByUsername
    put := fun m _ => (some (.other "disk full"), m) }

/-- A backend whose timestamp columns hold microseconds: an instant in
nanoseconds is kept as the nearest multiple of 1000, as PostgreSQL keeps a
`TIMESTAMPTZ` value. -/
def microStore : SessionStore :=
  { rows := ∅, column := fun t => (t + 500) / 1000 * 1000, saveErr := fun _ => none,
    loadErr := none, saves := [] }

/-- The sample service on `microStore`, with a TTL of 5000. -/
def microService : Service :=
  { users := InMemoryUserStore.toUserStore (AList.insert "admin" sampleAdmin ∅)
    pepper := "pepper"
    ttl := 5000
    stateFile := ""
    sessionStore := some microStore
    sessions := ∅
    disk := sampleDisk }

/-- The sample service without a session store but with a state file. -/
def fileService : Service :=
  { sampleService none ∅ with stateFile := "auth_sessions.json" }

/-- A fresh service on the backend of `s1`: what `NewService` returns for an
empty in-memory user store, pepper `pepper2`, a TTL of 5 and the session store,
state file and file system of `s1`. -/
def freshService (s1 : Service) : Service :=
  { users := InMemoryUserStore.toUserStore ∅
    pepper := "pepper2"
    ttl := 5
    stateFile := s1.stateFile
    sessionStore := s1.sessionStore
    sessions := ∅
    disk := s1.disk }

/-- A password of 68 characters and 132 bytes: `Aa1!` followed by 64 times `é`. -/
def longPassword : String :=
  "Aa1!" ++ String.mk (List.replicate 64 'é')

/-- A file system without a user store file and without failures. -/
def sampleUserDisk : UserDisk :=
  { file := none, readErr := none, encodeErr := fun _ => none, mkdirErr := none,
    writeErr := none }

/-- A file system without a user store file on which every write fails. -/
def failingUserDisk : UserDisk :=
  { file := none, readErr := none, encodeErr := fun _ => none, mkdirErr := none,
    writeErr := some (.other "disk full") }

/-- The file-backed user store that `NewFileUserStore` returns for the path
`users.json` on the given file system when no file exists yet. -/
def sampleFileStore (disk : UserDisk) : FileUserStore :=
  { path := "users.json", users := ∅, disk := disk }

end Auth

/-! # internal/httpserver: the bearer token of a request -/

namespace HttpServer

/-- Go `strings.SplitN(s, " ", 2)`: `[s]` when `s` has no space, else the part
before the first space and the part after it. -/
def SplitN2 (s : String) : List String :=
  match s.data.dropWhile (fun c => c != ' ') with
  | [] => [s]
  | _ :: rest => [String.mk (s.data.takeWhile fun c => c != ' '), String.mk rest]

/-- Go `extractBearerToken`. `EqualFold` is `strings.EqualFold`. -/
def extractBearerToken (U : Auth.Unicode) (EqualFold : String → String → Bool)
    (authHeader : String) : Except String String :=
  match SplitN2 authHeader with
  | [scheme, rest] =>
    if !EqualFold scheme "Bearer" || Auth.TrimSpace U rest == "" then
      .error "invalid authorization header"
    else .ok (Auth.TrimSpace U rest)
  | _ => .error "invalid authorization header"

/-- Equality ignoring the case of ASCII letters, a sample for `strings.EqualFold`. -/
def asciiEqualFold (a b : String) : Bool :=
  a.data.map Char.toLower == b.data.map Char.toLower

end HttpServer

/-! # internal/sqlprofile: stored SQL profiles -/

namespace SqlProfile

/-- Error values of package `sqlprofile`. `detail e msg` is
`fmt.Errorf("%w: " + msg, e)`, `wrapped msg e` is `fmt.Errorf(msg + ": %w", e)`,
`other msg` is an error produced outside the package. -/
inductive Error where
  | ErrNotFound
  | ErrInvalidInput
  | other (msg : String)
  | detail (e : Error) (msg : String)
  | wrapped (msg : String) (e : Error)
  deriving DecidableEq, Repr

/-- Go `errors.Is(err, target)` for these errors: `err` or an error it wraps
equals `target`. -/
def Error.Is : Error → Error → Bool
  | .detail e msg, target => decide (Error.detail e msg = target) || e.Is target
  | .wrapped msg e, target => decide (Error.wrapped msg e = target) || e.Is target
  | e, target => decide (e = target)

/-- Go `type Profile struct`. -/
structure Profile where
  ID : String
  Name : String
  DBType : String
  Host : String
  Port : Int
  Username : String
  Database : String
  Commands : String
  UseSSL : Bool
  CreatedAt : Auth.Time
  ModifiedAt : Auth.Time
  deriving DecidableEq, Repr

/-- Go `map[string]Profile`, keyed by profile ID. -/
abbrev ProfileMap := AList (fun _ : String => Profile)

/-- The file system behind `stateFile`: the encoded profiles it holds (`none`: no
file) and the scripted failures of `json.MarshalIndent`, `os.MkdirAll` and
`os.WriteFile`, each given by the message of the outside error. -/
structure Disk where
  file : Option (List Profile)
  encodeErr : List Profile → Option String
  mkdirErr : Option String
  writeErr : Option String

/-- Go `type Service struct`; `nowFunc` is passed to each operation as the instant
it returns, `disk` is the file system behind `stateFile`. -/
structure Service where
  stateFile : String
  profiles : ProfileMap
  disk : Disk

/-- Go `NewService`. -/
def NewService (disk : Disk) : Service :=
  { stateFile := "", profiles := ∅, disk := disk }

/-- Go `allowedDBTypes`. -/
def allowedDBTypes : List String := ["mysql", "mssql", "pgsql"]

/-- Go `validate`. `ToLower` is `strings.ToLower`. -/
def validate (U : Auth.Unicode) (ToLower : String → String) (p : Profile) : Option Error :=
  if Auth.TrimSpace U p.Name = "" then some (.detail .ErrInvalidInput "name is required")
  else
    let dbType := ToLower (Auth.TrimSpace U p.DBType)
    if dbType ∉ allowedDBTypes then
      some (.detail .ErrInvalidInput "db_type must be mysql, mssql, or pgsql")
    else if Auth.TrimSpace U p.Host = "" then
      some (.detail .ErrInvalidInput "host is required")
    else if p.Port ≤ 0 ∨ p.Port > 65535 then
      some (.detail .ErrInvalidInput "port must be between 1 and 65535")
    else if Auth.TrimSpace U p.Database = "" then
      some (.detail .ErrInvalidInput "database is required")
    else if Auth.TrimSpace U p.Commands = "" then
      some (.detail .ErrInvalidInput "commands is required")
    else none

/-- Outcome of one `rand.Read(b)`: the message of its error, or the bytes the
buffer was filled with. -/
abbrev RandRead := Except String (Nat → Auth.Byte)

/-- Go `generateID(n)`. -/
def generateID (n : Int) (rd : RandRead) : Except Error String :=
  if n < 8 then .error (.other "id length too short")
  else
    match rd with
    | .error msg => .error (.other msg)
    | .ok f => .ok (Auth.EncodeToString ((List.range n.toNat).map f))

/-- Go `(*Service).persistLocked`: without a state file nothing is written; else
the profiles, sorted by creation time, are encoded and written. `sort.Slice` does
not fix the order of profiles created at the same instant; the insertion sort
here keeps them in map order. -/
def persistLocked (s : Service) : Option Error × Service :=
  if s.stateFile = "" then (none, s)
  else
    let out := (s.profiles.entries.map fun e => e.2).insertionSort
      fun a b => a.CreatedAt ≤ b.CreatedAt
    match s.disk.encodeErr out with
    | some msg => (some (.wrapped "encode sql profile state" (.other msg)), s)
    | none =>
      match s.disk.mkdirErr with
      | some msg => (some (.wrapped "mkdir sql profile state dir" (.other msg)), s)
      | none =>
        match s.disk.writeErr with
        | some msg => (some (.wrapped "write sql profile state" (.other msg)), s)
        | none => (none, { s with disk := { s.disk with file := some out } })

/-- Assignment to the field `s.profiles`. -/
def Service.setProfiles (s : Service) (m : ProfileMap) : Service :=
  { s with profiles := m }

/-- The profile that `Create` stores for the input `p`, the generated `id` and the
instant `now` (service.go lines 65-69). -/
def createdProfile (U : Auth.Unicode) (ToLower : String → String) (p : Profile)
    (id : String) (now : Auth.Time) : Profile :=
  { p with
    ID := id
    CreatedAt := now
    ModifiedAt := now
    Name := Auth.TrimSpace U p.Name
    DBType := ToLower (Auth.TrimSpace U p.DBType) }

/-- Go `(*Service).Create`. -/
def Create (U : Auth.Unicode) (ToLower : String → String) (s : Service) (p : Profile)
    (rd : RandRead) (now : Auth.Time) : Except Error Profile × Service :=
  match validate U ToLower p with
  | some err => (.error err, s)
  | none =>
    match generateID 12 rd with
    | .error err => (.error (.wrapped "generate id" err), s)
    | .ok id =>
      let p1 := createdProfile U ToLower p id now
      let prev := s.profiles
      match persistLocked (s.setProfiles (s.profiles.insert p1.ID p1)) with
      | (some err, s2) => (.error err, s2.setProfiles prev)
      | (none, s2) => (.ok p1, s2)

/-- Go `(*Service).Get`. -/
def Get (s : Service) (id : String) : Except Error Profile :=
  match s.profiles.lookup id with
  | none => .error .ErrNotFound
  | some p => .ok p

/-- The profile that `Update` stores: `existing` with the editable fields taken
from `p` and `ModifiedAt` set to `now` (service.go lines 120-128). -/
def updatedProfile (U : Auth.Unicode) (ToLower : String → String) (existing p : Profile)
    (now : Auth.Time) : Profile :=
  { existing with
    Name := Auth.TrimSpace U p.Name
    DBType := ToLower (Auth.TrimSpace U p.DBType)
    Host := p.Host
    Port := p.Port
    Username := p.Username
    Database := p.Database
    Commands := p.Commands
    UseSSL := p.UseSSL
    ModifiedAt := now }

/-- Go `(*Service).Update`. -/
def Update (U : Auth.Unicode) (ToLower : String → String) (s : Service) (id : String)
    (p : Profile) (now : Auth.Time) : Except Error Profile × Service :=
  match validate U ToLower p with
  | some err => (.error err, s)
  | none =>
    let prev := s.profiles
    match s.profiles.lookup id with
    | none => (.error .ErrNotFound, s)
    | some existing =>
      let existing1 := updatedProfile U ToLower existing p now
      match persistLocked (s.setProfiles (s.profiles.insert id existing1)) with
      | (some err, s2) => (.error err, s2.setProfiles prev)
      | (none, s2) => (.ok existing1, s2)

/-- Go `(*Service).Delete`. -/
def Delete (s : Service) (id : String) : Option Error × Service :=
  let prev := s.profiles
  match s.profiles.lookup id with
  | none => (some .ErrNotFound, s)
  | some _ =>
    match persistLocked (s.setProfiles (s.profiles.erase id)) with
    | (some err, s2) => (some err, s2.setProfiles prev)
    | (none, s2) => (none, s2)

/-- The profile is refused by the validation: its name is blank after trimming,
or its trimmed lower-cased db_type is not one of mysql, mssql, pgsql, or its host
is blank, or its port is outside 1..65535, or its database is blank, or its
commands are blank. -/
def Invalid (U : Auth.Unicode) (ToLower : String → String) (p : Profile) : Prop :=
  Auth.TrimSpace U p.Name = "" ∨ ToLower (Auth.TrimSpace U p.DBType) ∉ allowedDBTypes ∨
    Auth.TrimSpace U p.Host = "" ∨ ¬ (1 ≤ p.Port ∧ p.Port ≤ 65535) ∨
    Auth.TrimSpace U p.Database = "" ∨ Auth.TrimSpace U p.Commands = ""

instance (U : Auth.Unicode) (ToLower : String → String) (p : Profile) :
    Decidable (Invalid U ToLower p) := by
  unfold Invalid
  infer_instance

/-- Lower-casing of the ASCII letters, a sample for `strings.ToLower`. -/
def asciiToLower (s : String) : String :=
  String.mk (s.data.map Char.toLower)

/-- A file system without a state file and without failures. -/
def sampleDisk : Disk :=
  { file := none, encodeErr := fun _ => none, mkdirErr := none, writeErr := none }

/-- The profile of the CRUD test, with blanks around the name and the type in
capitals. -/
def sampleProfile : Profile :=
  { ID := "", Name := " Primary Export ", DBType := "MySQL", Host := "db.local", Port := 3306,
    Username := "mcs", Database := "mcsdb", Commands := "INSERT INTO t VALUES (%RECORDID%)",
    UseSSL := true, CreatedAt := 0, ModifiedAt := 0 }

/-- The second profile of the CRUD test. -/
def sampleProfileV2 : Profile :=
  { ID := "", Name := "Primary Export V2", DBType := "mysql", Host := "db.local",
    Port := 3306, Username := "mcs", Database := "mcsdb", Commands := "UPDATE t SET c=1",
    UseSSL := false, CreatedAt := 0, ModifiedAt := 0 }

/-- The random source delivering the bytes 0, 1, 2, ... -/
def sampleRead : RandRead := .ok fun i => Fin.ofNat i

end SqlProfile

namespace Auth

/-! ## Lemmas on the building blocks -/

theorem hexDigit_inj_fin : ∀ i j : Fin 16, hexDigit i.val = hexDigit j.val → i = j := by
  decide

theorem hexDigit_inj {i j : Nat} (hi : i < 16) (hj : j < 16) (h : hexDigit i = hexDigit j) :
    i = j := by
  have := hexDigit_inj_fin ⟨i, hi⟩ ⟨j, hj⟩ h
  exact Fin.mk.inj_iff.mp this

theorem byte_digits_inj {v w : Byte}
    (h1 : hexDigit (v.val / 16) = hexDigit (w.val / 16))
    (h2 : hexDigit (v.val % 16) = hexDigit (w.val % 16)) : v = w := by
  have hv : v.val < 256 := v.isLt
  have hw : w.val < 256 := w.isLt
  have q := hexDigit_inj (by omega) (by omega) h1
  have r := hexDigit_inj (Nat.mod_lt _ (by decide)) (Nat.mod_lt _ (by decide)) h2
  exact Fin.ext (by omega)

theorem EncodeToString_inj {a b : List Byte} (h : EncodeToString a = EncodeToString b) :
    a = b := by
  unfold EncodeToString at h
  have h2 := String.ext_iff.mp h
  simp only at h2
  clear h
  induction a generalizing b with
  | nil =>
    cases b with
    | nil => rfl
    | cons y ys => simp [List.flatMap] at h2
  | cons x xs ih =>
    cases b with
    | nil => simp [List.flatMap] at h2
    | cons y ys =>
      simp only [List.flatMap_cons, List.cons_append, List.nil_append, List.cons.injEq] at h2
      obtain ⟨h1, h3, h4⟩ := h2
      rw [byte_digits_inj h1 h3, ih h4]

theorem hashInput_inj {pepper p q : String} (h : hashInput pepper p = hashInput pepper q) :
    p = q := by
  unfold hashInput at h
  have h2 := String.ext_iff.mp h
  simp only [String.data_append, List.append_assoc] at h2
  have h3 := List.append_cancel_left (List.append_cancel_left h2)
  exact String.ext_iff.mpr h3

theorem VerifyPassword_iff (Sum256 : String → List Byte) (s : Service) (p h : String) :
    VerifyPassword Sum256 s p h = true ↔ HashPassword Sum256 s p = h := by
  unfold VerifyPassword ConstantTimeCompare
  by_cases e : HashPassword Sum256 s p = h <;> simp [e]

/-! ## Password hashing -/

/-- C3: for every pepper and every password `P` (whether or not it meets the
policy), `VerifyPassword(P, HashPassword(P))` is true, and `HashPassword` is the
function of (pepper, password) of the specification: the hex encoding of
`H(pepper + ":" + password)`. -/
theorem VerifyPassword_HashPassword (Sum256 : String → List Byte) (s : Service) (P : String) :
    VerifyPassword Sum256 s P (HashPassword Sum256 s P) = true ∧
      HashPassword Sum256 s P = hashSpec Sum256 s.pepper P := by
  refine ⟨(VerifyPassword_iff Sum256 s P _).mpr rfl, rfl⟩

/-- C4: for a fixed pepper and passwords `P2 ≠ P`, the hash inputs
`pepper + ":" + P2` and `pepper + ":" + P` differ, and
`VerifyPassword(P2, HashPassword(P))` is false exactly when `H` does not collide
on these two inputs. -/
theorem VerifyPassword_other_password (Sum256 : String → List Byte) (s : Service)
    (P P2 : String) (hne : P2 ≠ P) :
    hashInput s.pepper P2 ≠ hashInput s.pepper P ∧
      (VerifyPassword Sum256 s P2 (HashPassword Sum256 s P) = false ↔
        Sum256 (hashInput s.pepper P2) ≠ Sum256 (hashInput s.pepper P)) := by
  refine ⟨fun h => hne (hashInput_inj h), ?_⟩
  rw [← Bool.not_eq_true, VerifyPassword_iff]
  unfold HashPassword
  constructor
  · intro h e
    exact h (by simp only [e])
  · intro h e
    exact h (EncodeToString_inj e)

/-- C4 at a concrete input: under the stand-in hash, `badpass` does not verify
against the hash of `secret123`. -/
theorem VerifyPassword_other_password_witness :
    "badpass" ≠ "secret123" ∧
      VerifyPassword sampleSum256 (sampleService none ∅) "badpass"
        (HashPassword sampleSum256 (sampleService none ∅) "secret123") = false :=
  ⟨by decide,
    (VerifyPassword_other_password sampleSum256 (sampleService none ∅) "secret123" "badpass"
      (by decide)).2.mpr (by decide)⟩


theorem persist_sessions (s : Service) : (persistSessionsLocked s).2.sessions = s.sessions := by
  unfold persistSessionsLocked
  repeat' split
  all_goals rfl

theorem ValidateToken_active (s : Service) (t : String) (sess : Session) (now : Time)
    (h : s.sessions.lookup t = some sess) (hn : ¬ sess.ExpiresAt < now) :
    ValidateToken s t now = (.ok sess, s) := by
  unfold ValidateToken
  rw [h]
  simp only [if_neg hn]

theorem ValidateToken_expired (s : Service) (t : String) (sess : Session) (now : Time)
    (h : s.sessions.lookup t = some sess) (hn : sess.ExpiresAt < now) :
    ValidateToken s t now =
      (.error .ErrInvalidToken,
        (persistSessionsLocked (s.setSessions (s.sessions.erase t))).2) := by
  unfold ValidateToken
  rw [h]
  simp only [if_pos hn]

theorem ValidateToken_absent (s : Service) (t : String) (now : Time)
    (h : s.sessions.lookup t = none) :
    ValidateToken s t now = (.error .ErrInvalidToken, s) := by
  unfold ValidateToken
  rw [h]

theorem Login_ok (Sum256 : String → List Byte) (s : Service) (n p : String) (u : User)
    (now : Time) (rdToken rdID : RandRead) (unixNano : Int) (token : String)
    (hu : s.users.GetByUsername n = .ok u)
    (hp : VerifyPassword Sum256 s p u.PasswordHash = true)
    (htok : generateToken 32 rdToken = .ok token) :
    Login Sum256 s n p now rdToken rdID unixNano =
      match persistSessionsLocked (s.setSessions (s.sessions.insert token
            (loginSession s u token (mustID 16 rdID unixNano) now))) with
      | (some err, s2) => (.error err, s2.setSessions (s2.sessions.erase token))
      | (none, s2) => (.ok (loginSession s u token (mustID 16 rdID unixNano) now), s2) := by
  unfold Login
  rw [hu]
  simp only [hp, Bool.not_true, Bool.false_eq_true, if_false, htok]

/-- C1: for every user store holding `u` under username `n` with
`u.PasswordHash = HashPassword(p)` (no policy check on `p`), every instant `now`
and every TTL > 0, a `Login(n, p)` whose token generation yields `token` and whose
persistence succeeds returns a Session with that token, `CreatedAt = now`,
`ExpiresAt = now + TTL`, and the user's ID, username and roles; the table after
the call is the old one with that Session inserted under its token, and
`ValidateToken` of the token at the same instant returns that same Session. -/
theorem Login_returns_session (Sum256 : String → List Byte) (s : Service) (n p : String)
    (u : User) (now : Time) (rdToken rdID : RandRead) (unixNano : Int) (token : String)
    (hu : s.users.GetByUsername n = .ok u)
    (hp : u.PasswordHash = HashPassword Sum256 s p)
    (httl : 0 < s.ttl)
    (htok : generateToken 32 rdToken = .ok token)
    (hsave : (persistSessionsLocked (s.setSessions (s.sessions.insert token
          (loginSession s u token (mustID 16 rdID unixNano) now)))).1 = none) :
    ∃ session : Session,
      (Login Sum256 s n p now rdToken rdID unixNano).1 = .ok session ∧
      session.Token = token ∧
      session.CreatedAt = now ∧ session.ExpiresAt = now + s.ttl ∧
      session.UserID = u.ID ∧ session.Username = u.Username ∧ session.Roles = u.Roles ∧
      (Login Sum256 s n p now rdToken rdID unixNano).2.sessions =
        s.sessions.insert session.Token session ∧
      (Login Sum256 s n p now rdToken rdID unixNano).2.sessions.lookup session.Token =
        some session ∧
      ValidateToken (Login Sum256 s n p now rdToken rdID unixNano).2 session.Token now =
        (.ok session, (Login Sum256 s n p now rdToken rdID unixNano).2) := by
  have hv : VerifyPassword Sum256 s p u.PasswordHash = true :=
    (VerifyPassword_iff Sum256 s p _).mpr hp.symm
  have hL := Login_ok Sum256 s n p u now rdToken rdID unixNano token hu hv htok
  have hs := persist_sessions (s.setSessions (s.sessions.insert token
      (loginSession s u token (mustID 16 rdID unixNano) now)))
  rcases hr : persistSessionsLocked (s.setSessions (s.sessions.insert token
      (loginSession s u token (mustID 16 rdID unixNano) now))) with ⟨e, s2⟩
  rw [hr] at hL hs hsave
  simp only at hsave hs
  subst hsave
  simp only at hL
  refine ⟨loginSession s u token (mustID 16 rdID unixNano) now, ?_⟩
  rw [hL]
  have hl : s2.sessions.lookup token =
      some (loginSession s u token (mustID 16 rdID unixNano) now) := by
    rw [hs]; exact AList.lookup_insert _
  have hs2 : s2.sessions = s.sessions.insert token
      (loginSession s u token (mustID 16 rdID unixNano) now) := hs
  refine ⟨rfl, rfl, rfl, rfl, rfl, rfl, rfl, hs2, hl, ?_⟩
  apply ValidateToken_active _ _ _ _ hl
  exact not_lt.mpr (le_add_of_nonneg_right httl.le)


/-- C1 at the sample service: `admin` logs in with `secret123` at instant 100. -/
theorem Login_returns_session_witness :
    ∃ session : Session,
      (Login sampleSum256 (sampleService (some sampleStore) ∅) "admin" "secret123" 100
        sampleRead sampleRead 0).1 = .ok session ∧
      session.Token = "000102030405060708090a0b0c0d0e0f101112131415161718191a1b1c1d1e1f" ∧
      session.CreatedAt = 100 ∧ session.ExpiresAt = 100 + 10 ∧
      session.UserID = "u-1" ∧ session.Username = "admin" ∧ session.Roles = ["admin"] ∧
      (Login sampleSum256 (sampleService (some sampleStore) ∅) "admin" "secret123" 100
        sampleRead sampleRead 0).2.sessions = AList.insert session.Token session ∅ ∧
      (Login sampleSum256 (sampleService (some sampleStore) ∅) "admin" "secret123" 100
        sampleRead sampleRead 0).2.sessions.lookup session.Token = some session ∧
      ValidateToken (Login sampleSum256 (sampleService (some sampleStore) ∅) "admin"
        "secret123" 100 sampleRead sampleRead 0).2 session.Token 100 =
        (.ok session, (Login sampleSum256 (sampleService (some sampleStore) ∅) "admin"
          "secret123" 100 sampleRead sampleRead 0).2) :=
  Login_returns_session sampleSum256 (sampleService (some sampleStore) ∅) "admin" "secret123"
    sampleAdmin 100 sampleRead sampleRead 0
    "000102030405060708090a0b0c0d0e0f101112131415161718191a1b1c1d1e1f"
    (by decide) (by decide) (by decide) (by decide) (by rfl)

/-- C2 as stated fails: at the instant `now = ExpiresAt` the stored session is
still returned (`now.After(ExpiresAt)` is strict), so "ErrInvalidToken when
now >= E" does not hold for every stored session and instant. -/
theorem ValidateToken_at_expiry_counterexample :
    ¬ (∀ (s : Service) (t : String) (sess : Session) (now : Time),
        s.sessions.lookup t = some sess →
          (now < sess.ExpiresAt → (ValidateToken s t now).1 = .ok sess) ∧
          (sess.ExpiresAt ≤ now → (ValidateToken s t now).1 = .error .ErrInvalidToken)) := by
  intro h
  have h1 := (h (sampleService none sampleTable) "t1" (sampleSession "s1" "t1") 10
    (by decide)).2 (by decide)
  revert h1
  decide

/-- C2, amended: for every session stored under token `t` with expiry `E` and
every instant `now`, `ValidateToken(t)` returns the stored Session (and leaves the
service as it was) when `now <= E`, and returns `ErrInvalidToken` when `now > E`. -/
theorem ValidateToken_expiry (s : Service) (t : String) (sess : Session) (now : Time)
    (h : s.sessions.lookup t = some sess) :
    (now ≤ sess.ExpiresAt → ValidateToken s t now = (.ok sess, s)) ∧
      (sess.ExpiresAt < now → (ValidateToken s t now).1 = .error .ErrInvalidToken) := by
  constructor
  · intro hn
    exact ValidateToken_active s t sess now h (not_lt.mpr hn)
  · intro hn
    rw [ValidateToken_expired s t sess now h hn]

/-- C2, amended, at the sample table: the session expiring at 10 validates at
instant 10 and is refused at instant 11. -/
theorem ValidateToken_expiry_witness :
    (ValidateToken (sampleService none sampleTable) "t1" 10).1 = .ok (sampleSession "s1" "t1") ∧
      (ValidateToken (sampleService none sampleTable) "t1" 11).1 = .error .ErrInvalidToken :=
  ⟨congrArg Prod.fst
      ((ValidateToken_expiry (sampleService none sampleTable) "t1" (sampleSession "s1" "t1") 10
        (by decide)).1 (by decide)),
    (ValidateToken_expiry (sampleService none sampleTable) "t1" (sampleSession "s1" "t1") 11
      (by decide)).2 (by decide)⟩

/-- C5: `Login` returns `ErrInvalidCredentials` and no Session both when the user
store does not return a user for the username and when it does but the password
does not verify; in both cases the result is the same value and the service
(session table, session store with its record of saves, state file) is exactly
as before. -/
theorem Login_invalid_credentials (Sum256 : String → List Byte) (s : Service) (n p : String)
    (now : Time) (rdToken rdID : RandRead) (unixNano : Int) :
    (∀ e, s.users.GetByUsername n = .error e →
        Login Sum256 s n p now rdToken rdID unixNano = (.error .ErrInvalidCredentials, s)) ∧
      (∀ u, s.users.GetByUsername n = .ok u →
        VerifyPassword Sum256 s p u.PasswordHash = false →
        Login Sum256 s n p now rdToken rdID unixNano = (.error .ErrInvalidCredentials, s)) := by
  constructor
  · intro e he
    unfold Login
    rw [he]
  · intro u hu hv
    unfold Login
    rw [hu]
    simp only [hv, Bool.not_false, if_true]

/-- C5 at the sample service: an unknown user and a wrong password give the same
result and leave the service as it was. -/
theorem Login_invalid_credentials_witness :
    Login sampleSum256 (sampleService (some sampleStore) sampleTable) "nobody" "secret123" 5
        sampleRead sampleRead 0 =
        (.error .ErrInvalidCredentials, sampleService (some sampleStore) sampleTable) ∧
      Login sampleSum256 (sampleService (some sampleStore) sampleTable) "admin" "badpass" 5
        sampleRead sampleRead 0 =
        (.error .ErrInvalidCredentials, sampleService (some sampleStore) sampleTable) :=
  ⟨(Login_invalid_credentials sampleSum256 (sampleService (some sampleStore) sampleTable)
      "nobody" "secret123" 5 sampleRead sampleRead 0).1 .ErrUserNotFound (by decide),
    (Login_invalid_credentials sampleSum256 (sampleService (some sampleStore) sampleTable)
      "admin" "badpass" 5 sampleRead sampleRead 0).2 sampleAdmin (by decide) (by decide)⟩


/-! ## Session table operations -/

theorem listLoop_out (now : Time) (entries : List (Σ _ : String, Session))
    (acc : SessionMap × List Session × Bool) (x : Session)
    (hx : x ∈ (listLoop now entries acc).2.1) :
    x ∈ acc.2.1 ∨ ∃ e ∈ entries, e.2 = x := by
  induction entries generalizing acc with
  | nil => exact Or.inl hx
  | cons e rest ih =>
    obtain ⟨m, out, dirty⟩ := acc
    unfold listLoop at hx
    split at hx
    · rcases ih _ hx with h | ⟨e2, he2, hx2⟩
      · exact Or.inl h
      · exact Or.inr ⟨e2, List.mem_cons_of_mem _ he2, hx2⟩
    · rcases ih _ hx with h | ⟨e2, he2, hx2⟩
      · simp only [List.mem_append, List.mem_singleton] at h
        rcases h with h | h
        · exact Or.inl h
        · exact Or.inr ⟨e, List.mem_cons_self _ _, h.symm⟩
      · exact Or.inr ⟨e2, List.mem_cons_of_mem _ he2, hx2⟩

theorem ListSessions_out (s : Service) (now : Time) (x : Session)
    (hx : x ∈ (ListSessions s now).1) : ∃ k, s.sessions.lookup k = some x := by
  have key : (ListSessions s now).1 = (listLoop now s.sessions.entries (s.sessions, [], false)).2.1 := by
    unfold ListSessions
    rcases listLoop now s.sessions.entries (s.sessions, [], false) with ⟨m, out, dirty⟩
    simp only
    split <;> rfl
  rw [key] at hx
  rcases listLoop_out now _ _ x hx with h | ⟨e, he, hxe⟩
  · simp at h
  · refine ⟨e.1, ?_⟩
    rw [← hxe]
    exact AList.mem_lookup_iff.mpr he

/-- C6: when `ValidateToken(t)` fails although a session is stored under `t`
(the stored session is expired), the error is `ErrInvalidToken`, the table after
the call is the old one without `t`: `t` is absent, every other entry is
unchanged, and every session that a subsequent `ListSessions` returns (on any
state holding the resulting table, at any instant) is one the old table stored
under another token. When `t` is absent to begin with, the call
returns `ErrInvalidToken` and the service is unchanged. -/
theorem ValidateToken_evicts_expired (s : Service) (t : String) (now : Time) :
    (∀ sess e, s.sessions.lookup t = some sess → (ValidateToken s t now).1 = .error e →
        e = .ErrInvalidToken ∧
        (ValidateToken s t now).2.sessions = s.sessions.erase t ∧
        (ValidateToken s t now).2.sessions.lookup t = none ∧
        (∀ k, k ≠ t → (ValidateToken s t now).2.sessions.lookup k = s.sessions.lookup k) ∧
        (∀ (s2 : Service) (now2 : Time) (x : Session),
          (∀ k, s2.sessions.lookup k = (ValidateToken s t now).2.sessions.lookup k) →
          x ∈ (ListSessions s2 now2).1 → ∃ k, k ≠ t ∧ s.sessions.lookup k = some x)) ∧
      (s.sessions.lookup t = none → ValidateToken s t now = (.error .ErrInvalidToken, s)) := by
  refine ⟨?_, ValidateToken_absent s t now⟩
  intro sess e h hfail
  by_cases hn : sess.ExpiresAt < now
  · rw [ValidateToken_expired s t sess now h hn] at hfail ⊢
    have hs : (persistSessionsLocked (s.setSessions (s.sessions.erase t))).2.sessions =
        s.sessions.erase t := persist_sessions _
    simp only at hfail ⊢
    refine ⟨(Except.error.inj hfail).symm, hs, ?_, ?_, ?_⟩
    · rw [hs]; exact AList.lookup_erase t _
    · intro k hk
      rw [hs]; exact AList.lookup_erase_ne hk
    · intro s2 now2 x hs2 hx
      obtain ⟨k, hk⟩ := ListSessions_out _ now2 x hx
      rw [hs2 k, hs] at hk
      have hkt : k ≠ t := by
        rintro rfl
        rw [AList.lookup_erase] at hk
        exact Option.noConfusion hk
      exact ⟨k, hkt, by rw [← hk]; exact (AList.lookup_erase_ne hkt).symm⟩
  · rw [ValidateToken_active s t sess now h hn] at hfail
    exact Except.noConfusion hfail

/-- C6 at the sample table, instant 11, with a backend whose save fails: `t1` is
evicted, `t2` stays, and the absent `t3` changes nothing. -/
theorem ValidateToken_evicts_expired_witness :
    (ValidateToken (sampleService (some failingStore) sampleTable) "t1" 11).2.sessions.lookup "t1"
        = none ∧
      (ValidateToken (sampleService (some failingStore) sampleTable) "t1" 11).2.sessions.lookup
        "t2" = some (sampleSession "s2" "t2") ∧
      ValidateToken (sampleService none sampleTable) "t3" 11 =
        (.error .ErrInvalidToken, sampleService none sampleTable) :=
  have h := (ValidateToken_evicts_expired (sampleService (some failingStore) sampleTable)
    "t1" 11).1 (sampleSession "s1" "t1") .ErrInvalidToken (by decide) (by decide)
  ⟨h.2.2.1, (h.2.2.2.1 "t2" (by decide)).trans (by decide),
    (ValidateToken_evicts_expired (sampleService none sampleTable) "t3" 11).2 (by decide)⟩

theorem Logout_absent (s : Service) (t : String) (h : s.sessions.lookup t = none) :
    Logout s t = (some .ErrInvalidToken, s) := by
  unfold Logout
  rw [h]

theorem Logout_present (s : Service) (t : String) (sess : Session)
    (h : s.sessions.lookup t = some sess) :
    Logout s t = persistSessionsLocked (s.setSessions (s.sessions.erase t)) := by
  unfold Logout
  rw [h]
  simp only
  rcases persistSessionsLocked (s.setSessions (s.sessions.erase t)) with ⟨e, s2⟩
  cases e <;> rfl

/-- C7: for every table holding a session under `t`, `Logout(t)` with succeeding
persistence returns success, the table after it is the old one without `t` (`t`
absent, every other entry unchanged), `ValidateToken(t)` afterwards returns
`ErrInvalidToken` at every instant, a second `Logout(t)` returns `ErrInvalidToken`
and changes nothing; and `RevokeToken` equals `Logout` on every state and
token. -/
theorem Logout_removes_token (s : Service) (t : String) (sess : Session)
    (h : s.sessions.lookup t = some sess)
    (hsave : (persistSessionsLocked (s.setSessions (s.sessions.erase t))).1 = none) :
    (Logout s t).1 = none ∧
      (Logout s t).2.sessions = s.sessions.erase t ∧
      (Logout s t).2.sessions.lookup t = none ∧
      (∀ k, k ≠ t → (Logout s t).2.sessions.lookup k = s.sessions.lookup k) ∧
      (∀ now, ValidateToken (Logout s t).2 t now = (.error .ErrInvalidToken, (Logout s t).2)) ∧
      Logout (Logout s t).2 t = (some .ErrInvalidToken, (Logout s t).2) ∧
      (∀ (s0 : Service) (t0 : String), RevokeToken s0 t0 = Logout s0 t0) := by
  rw [Logout_present s t sess h]
  have hs : (persistSessionsLocked (s.setSessions (s.sessions.erase t))).2.sessions =
      s.sessions.erase t := persist_sessions _
  have hl : (persistSessionsLocked (s.setSessions (s.sessions.erase t))).2.sessions.lookup t =
      none := by
    rw [hs]; exact AList.lookup_erase t _
  refine ⟨hsave, hs, hl, ?_, ?_, Logout_absent _ _ hl, fun _ _ => rfl⟩
  · intro k hk
    rw [hs]; exact AList.lookup_erase_ne hk
  · intro now
    exact ValidateToken_absent _ _ _ hl

/-- C7 at the sample table: logging out `t1` keeps `t2`, and a second logout of
`t1` is refused. -/
theorem Logout_removes_token_witness :
    (Logout (sampleService (some sampleStore) sampleTable) "t1").1 = none ∧
      (Logout (sampleService (some sampleStore) sampleTable) "t1").2.sessions.lookup "t1" = none ∧
      (Logout (sampleService (some sampleStore) sampleTable) "t1").2.sessions.lookup "t2" =
        some (sampleSession "s2" "t2") ∧
      (Logout (Logout (sampleService (some sampleStore) sampleTable) "t1").2 "t1").1 =
        some .ErrInvalidToken :=
  have h := Logout_removes_token (sampleService (some sampleStore) sampleTable) "t1"
    (sampleSession "s1" "t1") (by decide) (by decide)
  ⟨h.1, h.2.2.1, (h.2.2.2.1 "t2" (by decide)).trans (by decide),
    congrArg Prod.fst h.2.2.2.2.2.1⟩


theorem ValidateToken_fst_congr (s1 s2 : Service) (t : String) (now : Time)
    (h : s1.sessions.lookup t = s2.sessions.lookup t) :
    (ValidateToken s1 t now).1 = (ValidateToken s2 t now).1 := by
  unfold ValidateToken
  rw [h]
  cases s2.sessions.lookup t with
  | none => rfl
  | some sess =>
    simp only
    split <;> rfl

theorem findTokenByID_none (entries : List (Σ _ : String, Session)) (id : String)
    (h : ∀ e ∈ entries, e.2.ID ≠ id) : findTokenByID entries id = "" := by
  induction entries with
  | nil => rfl
  | cons e rest ih =>
    unfold findTokenByID
    rw [if_neg (h e (List.mem_cons_self _ _))]
    exact ih fun e2 he2 => h e2 (List.mem_cons_of_mem _ he2)

theorem findTokenByID_mem (entries : List (Σ _ : String, Session)) (id : String)
    (hids : (entries.map fun e => e.2.ID).Nodup) (e : Σ _ : String, Session)
    (he : e ∈ entries) (hid : e.2.ID = id) : findTokenByID entries id = e.1 := by
  induction entries with
  | nil => cases he
  | cons e0 rest ih =>
    unfold findTokenByID
    rw [List.map_cons, List.nodup_cons] at hids
    rcases List.mem_cons.mp he with h0 | hr
    · subst h0
      rw [if_pos hid]
    · have hne : e0.2.ID ≠ id := by
        intro h0
        apply hids.1
        rw [h0, ← hid]
        exact List.mem_map_of_mem (fun e => e.2.ID) hr
      rw [if_neg hne]
      exact ih hids.2 hr

theorem RevokeSessionByID_none (s : Service) (id : String)
    (h : ∀ k sess, s.sessions.lookup k = some sess → sess.ID ≠ id) :
    RevokeSessionByID s id = (some .ErrInvalidToken, s) := by
  have hf : findTokenByID s.sessions.entries id = "" := by
    apply findTokenByID_none
    intro e he
    exact h e.1 e.2 (AList.mem_lookup_iff.mpr he)
  unfold RevokeSessionByID
  simp only [hf, if_true]

theorem RevokeSessionByID_found (s : Service) (id k : String)
    (hf : findTokenByID s.sessions.entries id = k) (hk : k ≠ "") :
    RevokeSessionByID s id = persistSessionsLocked (s.setSessions (s.sessions.erase k)) := by
  unfold RevokeSessionByID
  simp only [hf, if_neg hk]
  rcases persistSessionsLocked (s.setSessions (s.sessions.erase k)) with ⟨e, s2⟩
  cases e <;> rfl

/-- C8: for every table whose sessions have pairwise distinct session IDs and
whose tokens (keys) are non-empty, if a session with ID `id` is stored under `k`
then `RevokeSessionByID(id)` with succeeding persistence returns success and
leaves the old table without `k` (`k` absent, every other entry unchanged, every
other token validates as before), and on every state holding that resulting
table a further `RevokeSessionByID(id)` returns `ErrInvalidToken` and changes
nothing. If no session has ID `id`, the call returns `ErrInvalidToken` and the
service is unchanged. -/
theorem RevokeSessionByID_removes_session (s : Service) (id : String) :
    (∀ k sess, (s.sessions.entries.map fun e => e.2.ID).Nodup → "" ∉ s.sessions →
        s.sessions.lookup k = some sess → sess.ID = id →
        (persistSessionsLocked (s.setSessions (s.sessions.erase k))).1 = none →
        (RevokeSessionByID s id).1 = none ∧
        (RevokeSessionByID s id).2.sessions = s.sessions.erase k ∧
        (RevokeSessionByID s id).2.sessions.lookup k = none ∧
        (∀ k2, k2 ≠ k →
          (RevokeSessionByID s id).2.sessions.lookup k2 = s.sessions.lookup k2) ∧
        (∀ k2 now, k2 ≠ k →
          (ValidateToken (RevokeSessionByID s id).2 k2 now).1 = (ValidateToken s k2 now).1) ∧
        (∀ s2 : Service,
          (∀ k2, s2.sessions.lookup k2 = (RevokeSessionByID s id).2.sessions.lookup k2) →
          RevokeSessionByID s2 id = (some .ErrInvalidToken, s2))) ∧
      ((∀ e ∈ s.sessions.entries, e.2.ID ≠ id) →
        RevokeSessionByID s id = (some .ErrInvalidToken, s)) := by
  refine ⟨?_, fun h => RevokeSessionByID_none s id
    fun k sess hl => h ⟨k, sess⟩ (AList.mem_lookup_iff.mp hl)⟩
  intro k sess hids hkeys hlook hid hsave
  have hmem : (⟨k, sess⟩ : Σ _ : String, Session) ∈ s.sessions.entries :=
    AList.mem_lookup_iff.mp hlook
  have hf : findTokenByID s.sessions.entries id = k :=
    findTokenByID_mem _ id hids ⟨k, sess⟩ hmem hid
  have hk : k ≠ "" := by
    rintro rfl
    apply hkeys
    rw [← AList.lookup_isSome, hlook]
    rfl
  rw [RevokeSessionByID_found s id k hf hk]
  have hs : (persistSessionsLocked (s.setSessions (s.sessions.erase k))).2.sessions =
      s.sessions.erase k := persist_sessions _
  have hne : ∀ k2, k2 ≠ k →
      (persistSessionsLocked (s.setSessions (s.sessions.erase k))).2.sessions.lookup k2 =
        s.sessions.lookup k2 := by
    intro k2 hk2
    rw [hs]; exact AList.lookup_erase_ne hk2
  refine ⟨hsave, hs, ?_, hne, ?_, ?_⟩
  · rw [hs]; exact AList.lookup_erase k _
  · intro k2 now hk2
    exact ValidateToken_fst_congr _ _ k2 now (hne k2 hk2)
  · intro s2 hs2
    apply RevokeSessionByID_none
    intro k2 sess2 hl2 hid2
    rw [hs2 k2, hs] at hl2
    have hk2 : k2 ≠ k := by
      rintro rfl
      rw [AList.lookup_erase] at hl2
      exact Option.noConfusion hl2
    rw [AList.lookup_erase_ne hk2] at hl2
    have hmem2 : (⟨k2, sess2⟩ : Σ _ : String, Session) ∈ s.sessions.entries :=
      AList.mem_lookup_iff.mp hl2
    have := List.inj_on_of_nodup_map hids hmem2 hmem (hid2.trans hid.symm)
    exact hk2 (congrArg Sigma.fst this)

/-- C8 at the sample table: revoking session `s1` removes `t1`, `t2` still
validates, a second revocation of `s1` and a revocation of the unknown `s3` are
refused. -/
theorem RevokeSessionByID_removes_session_witness :
    (RevokeSessionByID (sampleService (some sampleStore) sampleTable) "s1").1 = none ∧
      (RevokeSessionByID (sampleService (some sampleStore) sampleTable) "s1").2.sessions.lookup
        "t1" = none ∧
      (ValidateToken (RevokeSessionByID (sampleService (some sampleStore) sampleTable) "s1").2
        "t2" 5).1 = .ok (sampleSession "s2" "t2") ∧
      (RevokeSessionByID (RevokeSessionByID (sampleService (some sampleStore) sampleTable)
        "s1").2 "s1").1 = some .ErrInvalidToken ∧
      RevokeSessionByID (sampleService (some sampleStore) sampleTable) "s3" =
        (some .ErrInvalidToken, sampleService (some sampleStore) sampleTable) :=
  have h := (RevokeSessionByID_removes_session (sampleService (some sampleStore) sampleTable)
    "s1").1 "t1" (sampleSession "s1" "t1") (by decide) (by decide) (by decide) (by decide)
    (by decide)
  ⟨h.1, h.2.2.1, (h.2.2.2.2.1 "t2" 5 (by decide)).trans (by decide),
    congrArg Prod.fst (h.2.2.2.2.2 _ fun _ => rfl),
    (RevokeSessionByID_removes_session (sampleService (some sampleStore) sampleTable) "s3").2
      (by decide)⟩


theorem erase_insert_fresh (m : SessionMap) (k : String) (v : Session) (h : k ∉ m) :
    (m.insert k v).erase k = m := by
  apply AList.ext
  show List.kerase k (m.insert k v).entries = m.entries
  rw [AList.insert_entries_of_neg h]
  exact List.kerase_cons_eq rfl

/-- C9: if persistence fails with `err` during a `Login` with valid credentials
and a generated `token`, `Login` returns the error `err` and no Session; after
the call `token` is not a key of the table and every other key maps to what it
did before; and when the freshly generated token was not a key of the table,
the table after the call equals the table before the call. -/
theorem Login_save_failure_rolls_back (Sum256 : String → List Byte) (s : Service)
    (n p : String) (u : User) (now : Time) (rdToken rdID : RandRead) (unixNano : Int)
    (token : String) (err : Error)
    (hu : s.users.GetByUsername n = .ok u)
    (hp : u.PasswordHash = HashPassword Sum256 s p)
    (htok : generateToken 32 rdToken = .ok token)
    (hfail : (persistSessionsLocked (s.setSessions (s.sessions.insert token
          (loginSession s u token (mustID 16 rdID unixNano) now)))).1 = some err) :
    (Login Sum256 s n p now rdToken rdID unixNano).1 = .error err ∧
      (Login Sum256 s n p now rdToken rdID unixNano).2.sessions.lookup token = none ∧
      (∀ k, k ≠ token →
        (Login Sum256 s n p now rdToken rdID unixNano).2.sessions.lookup k =
          s.sessions.lookup k) ∧
      (token ∉ s.sessions →
        (Login Sum256 s n p now rdToken rdID unixNano).2.sessions = s.sessions) := by
  have hv : VerifyPassword Sum256 s p u.PasswordHash = true :=
    (VerifyPassword_iff Sum256 s p _).mpr hp.symm
  have hL := Login_ok Sum256 s n p u now rdToken rdID unixNano token hu hv htok
  have hs := persist_sessions (s.setSessions (s.sessions.insert token
      (loginSession s u token (mustID 16 rdID unixNano) now)))
  rcases hr : persistSessionsLocked (s.setSessions (s.sessions.insert token
      (loginSession s u token (mustID 16 rdID unixNano) now))) with ⟨e, s2⟩
  rw [hr] at hL hs hfail
  simp only at hfail hs
  subst hfail
  simp only at hL
  rw [hL]
  have hs2 : s2.sessions = s.sessions.insert token
      (loginSession s u token (mustID 16 rdID unixNano) now) := hs
  refine ⟨rfl, ?_, ?_, ?_⟩
  · exact AList.lookup_erase token _
  · intro k hk
    show (s2.sessions.erase token).lookup k = _
    rw [AList.lookup_erase_ne hk, hs2, AList.lookup_insert_ne hk]
  · intro hfresh
    show s2.sessions.erase token = _
    rw [hs2]
    exact erase_insert_fresh _ _ _ hfresh

/-- C9 at the sample service with a backend whose save fails: the login of
`admin` returns the storage error and the table is the sample table again. -/
theorem Login_save_failure_rolls_back_witness :
    (Login sampleSum256 (sampleService (some failingStore) sampleTable) "admin" "secret123" 5
        sampleRead sampleRead 0).1 = .error (.wrapped "save session state" (.other "disk full")) ∧
      (Login sampleSum256 (sampleService (some failingStore) sampleTable) "admin" "secret123" 5
        sampleRead sampleRead 0).2.sessions = sampleTable :=
  have h := Login_save_failure_rolls_back sampleSum256
    (sampleService (some failingStore) sampleTable) "admin" "secret123" sampleAdmin 5
    sampleRead sampleRead 0 "000102030405060708090a0b0c0d0e0f101112131415161718191a1b1c1d1e1f"
    (.wrapped "save session state" (.other "disk full"))
    (by decide) (by decide) (by decide) (by decide)
  ⟨h.1, h.2.2.2 (by decide)⟩

/-- C10 fails on the code: on the sample table with a backend whose `Save`
fails, `t1` validates before the call; `Logout("t1")`, `RevokeToken("t1")` and
`RevokeSessionByID("s1")` each return the storage error, but the table they
leave no longer holds `t1` and `ValidateToken("t1")` returns `ErrInvalidToken`:
the deletion is not rolled back. -/
theorem revocation_save_failure_not_rolled_back :
    (sampleService (some failingStore) sampleTable).sessions.lookup "t1" =
        some (sampleSession "s1" "t1") ∧
      (ValidateToken (sampleService (some failingStore) sampleTable) "t1" 5).1 =
        .ok (sampleSession "s1" "t1") ∧
      (Logout (sampleService (some failingStore) sampleTable) "t1").1 =
        some (.wrapped "save session state" (.other "disk full")) ∧
      (Logout (sampleService (some failingStore) sampleTable) "t1").2.sessions.lookup "t1" =
        none ∧
      (ValidateToken (Logout (sampleService (some failingStore) sampleTable) "t1").2 "t1" 5).1 =
        .error .ErrInvalidToken ∧
      (RevokeToken (sampleService (some failingStore) sampleTable) "t1").1 =
        some (.wrapped "save session state" (.other "disk full")) ∧
      (RevokeToken (sampleService (some failingStore) sampleTable) "t1").2.sessions.lookup "t1" =
        none ∧
      (RevokeSessionByID (sampleService (some failingStore) sampleTable) "s1").1 =
        some (.wrapped "save session state" (.other "disk full")) ∧
      (RevokeSessionByID (sampleService (some failingStore) sampleTable) "s1").2.sessions.lookup
        "t1" = none ∧
      (ValidateToken (RevokeSessionByID (sampleService (some failingStore) sampleTable) "s1").2
        "t1" 5).1 = .error .ErrInvalidToken := by
  decide


/-! ## Persistence mirrors the table -/

theorem persist_mirrored (s : Service) (h : (persistSessionsLocked s).1 = none) :
    Mirrored (persistSessionsLocked s).2 := by
  unfold persistSessionsLocked at h ⊢
  unfold Mirrored
  cases hst : s.sessionStore with
  | some store =>
    simp only [hst] at h ⊢
    unfold SessionStore.Save at h ⊢
    cases hse : store.saveErr s.sessions with
    | some e => simp [hse] at h
    | none =>
      simp only [hse]
      exact ⟨rfl, rfl⟩
  | none =>
    simp only [hst] at h ⊢
    by_cases hf : s.stateFile = ""
    · simp [hf, hst]
    · simp only [hf, if_false] at h ⊢
      cases h1 : s.disk.mkdirErr with
      | some e => simp [h1] at h
      | none =>
        simp only [h1] at h ⊢
        cases h2 : s.disk.encodeErr s.sessions with
        | some e => simp [h2] at h
        | none =>
          simp only [h2] at h ⊢
          cases h3 : s.disk.writeErr with
          | some e => simp [h3] at h
          | none => simp [h3, hst]

theorem Login_success_persisted (Sum256 : String → List Byte) (s : Service) (n p : String)
    (now : Time) (rdToken rdID : RandRead) (unixNano : Int) (sess : Session)
    (h : (Login Sum256 s n p now rdToken rdID unixNano).1 = .ok sess) :
    ∃ s1 : Service, s1.sessions = (Login Sum256 s n p now rdToken rdID unixNano).2.sessions ∧
      (persistSessionsLocked s1).1 = none ∧
      (Login Sum256 s n p now rdToken rdID unixNano).2 = (persistSessionsLocked s1).2 := by
  unfold Login at h ⊢
  cases hu : s.users.GetByUsername n with
  | error e => simp [hu] at h
  | ok u =>
    simp only [hu] at h ⊢
    by_cases hv : VerifyPassword Sum256 s p u.PasswordHash = true
    · simp only [hv, Bool.not_true, Bool.false_eq_true, if_false] at h ⊢
      cases ht : generateToken 32 rdToken with
      | error e => simp [ht] at h
      | ok token =>
        simp only [ht] at h ⊢
        rcases hr : persistSessionsLocked (s.setSessions (s.sessions.insert token
          (loginSession s u token (mustID 16 rdID unixNano) now))) with ⟨e, s2⟩
        rw [hr] at h
        cases e with
        | some err => simp at h
        | none =>
          refine ⟨_, ?_, by rw [hr], by rw [hr]⟩
          have := persist_sessions (s.setSessions (s.sessions.insert token
            (loginSession s u token (mustID 16 rdID unixNano) now)))
          rw [hr] at this
          exact this.symm
    · simp [hv] at h

/-- C11: persistence mirrors the table after every committed mutation. For every
state, after a successful `Login`, `Logout`, `RevokeToken` or `RevokeSessionByID`
the snapshot most recently handed to `Save` of the session store equals the
in-memory session table at return, and the store holds the rows of that
snapshot; without a session store, what the configured state file holds equals
the in-memory session table at return. -/
theorem successful_mutation_is_mirrored (Sum256 : String → List Byte) (s : Service) :
    (∀ n p now rdToken rdID unixNano sess,
        (Login Sum256 s n p now rdToken rdID unixNano).1 = .ok sess →
        Mirrored (Login Sum256 s n p now rdToken rdID unixNano).2) ∧
      (∀ t, (Logout s t).1 = none → Mirrored (Logout s t).2) ∧
      (∀ t, (RevokeToken s t).1 = none → Mirrored (RevokeToken s t).2) ∧
      (∀ id, (RevokeSessionByID s id).1 = none → Mirrored (RevokeSessionByID s id).2) := by
  have hlogout : ∀ t, (Logout s t).1 = none → Mirrored (Logout s t).2 := by
    intro t h
    cases hl : s.sessions.lookup t with
    | none => rw [Logout_absent s t hl] at h; exact absurd h (by simp)
    | some sess =>
      rw [Logout_present s t sess hl] at h ⊢
      exact persist_mirrored _ h
  refine ⟨?_, hlogout, hlogout, ?_⟩
  · intro n p now rdToken rdID unixNano sess h
    obtain ⟨s1, _, h1, h2⟩ := Login_success_persisted Sum256 s n p now rdToken rdID unixNano sess h
    rw [h2]
    exact persist_mirrored s1 h1
  · intro id h
    by_cases hf : findTokenByID s.sessions.entries id = ""
    · have : RevokeSessionByID s id = (some .ErrInvalidToken, s) := by
        unfold RevokeSessionByID
        simp only [hf, if_true]
      rw [this] at h
      exact absurd h (by simp)
    · rw [RevokeSessionByID_found s id _ rfl hf] at h ⊢
      exact persist_mirrored _ h

/-- C11 at the sample service with a session store: after a login, a logout and
both revocations the store mirrors the table. -/
theorem successful_mutation_is_mirrored_witness :
    Mirrored (Login sampleSum256 (sampleService (some sampleStore) sampleTable) "admin"
        "secret123" 5 sampleRead sampleRead 0).2 ∧
      Mirrored (Logout (sampleService (some sampleStore) sampleTable) "t1").2 ∧
      Mirrored (RevokeToken (sampleService (some sampleStore) sampleTable) "t2").2 ∧
      Mirrored (RevokeSessionByID (sampleService (some sampleStore) sampleTable) "s2").2 :=
  have h := successful_mutation_is_mirrored sampleSum256
    (sampleService (some sampleStore) sampleTable)
  ⟨h.1 "admin" "secret123" 5 sampleRead sampleRead 0
      (loginSession (sampleService (some sampleStore) sampleTable) sampleAdmin
        "000102030405060708090a0b0c0d0e0f101112131415161718191a1b1c1d1e1f"
        "000102030405060708090a0b0c0d0e0f" 5) (by decide),
    h.2.1 "t1" (by decide), h.2.2.1 "t2" (by decide), h.2.2.2 "s2" (by decide)⟩


/-! ## Listing sessions -/

theorem listLoop_out_eq (now : Time) (l : List (Σ _ : String, Session))
    (acc : SessionMap × List Session × Bool) :
    (listLoop now l acc).2.1 =
      acc.2.1 ++ (l.filter fun e => decide (¬ e.2.ExpiresAt < now)).map (fun e => e.2) := by
  induction l generalizing acc with
  | nil => obtain ⟨m, out, dirty⟩ := acc; simp [listLoop]
  | cons e rest ih =>
    obtain ⟨m, out, dirty⟩ := acc
    unfold listLoop
    by_cases he : e.2.ExpiresAt < now
    · simp only [he, if_true, ih, not_true_eq_false, decide_False, List.filter_cons_of_neg,
        Bool.false_eq_true, not_false_eq_true]
    · simp only [he, if_false, ih, not_false_eq_true, decide_True, List.filter_cons_of_pos,
        List.map_cons, List.append_assoc, List.singleton_append]

theorem listLoop_dirty_eq (now : Time) (l : List (Σ _ : String, Session))
    (acc : SessionMap × List Session × Bool) :
    (listLoop now l acc).2.2 = (acc.2.2 || l.any fun e => decide (e.2.ExpiresAt < now)) := by
  induction l generalizing acc with
  | nil => obtain ⟨m, out, dirty⟩ := acc; simp [listLoop]
  | cons e rest ih =>
    obtain ⟨m, out, dirty⟩ := acc
    unfold listLoop
    by_cases he : e.2.ExpiresAt < now
    · simp [he, ih]
    · simp [he, ih]

theorem listLoop_lookup (now : Time) (k : String) (l : List (Σ _ : String, Session))
    (acc : SessionMap × List Session × Bool) :
    (listLoop now l acc).1.lookup k =
      if (∃ e ∈ l, e.1 = k ∧ e.2.ExpiresAt < now) then none else acc.1.lookup k := by
  induction l generalizing acc with
  | nil => obtain ⟨m, out, dirty⟩ := acc; simp [listLoop]
  | cons e rest ih =>
    obtain ⟨m, out, dirty⟩ := acc
    unfold listLoop
    by_cases he : e.2.ExpiresAt < now
    · simp only [he, if_true, ih]
      by_cases hr : ∃ e2 ∈ rest, e2.1 = k ∧ e2.2.ExpiresAt < now
      · have hc : ∃ e2 ∈ e :: rest, e2.1 = k ∧ e2.2.ExpiresAt < now := by
          obtain ⟨e2, h1, h2⟩ := hr
          exact ⟨e2, List.mem_cons_of_mem _ h1, h2⟩
        rw [if_pos hr, if_pos hc]
      · rw [if_neg hr]
        by_cases hk : e.1 = k
        · have hc : ∃ e2 ∈ e :: rest, e2.1 = k ∧ e2.2.ExpiresAt < now :=
            ⟨e, List.mem_cons_self _ _, hk, he⟩
          rw [if_pos hc, ← hk]
          exact AList.lookup_erase _ _
        · have hc : ¬ ∃ e2 ∈ e :: rest, e2.1 = k ∧ e2.2.ExpiresAt < now := by
            rintro ⟨e2, h1, h2⟩
            rcases List.mem_cons.mp h1 with h3 | h3
            · exact hk (h3 ▸ h2.1)
            · exact hr ⟨e2, h3, h2⟩
          rw [if_neg hc]
          exact AList.lookup_erase_ne (Ne.symm hk)
    · simp only [he, if_false, ih]
      have hiff : (∃ e2 ∈ e :: rest, e2.1 = k ∧ e2.2.ExpiresAt < now) ↔
          ∃ e2 ∈ rest, e2.1 = k ∧ e2.2.ExpiresAt < now := by
        constructor
        · rintro ⟨e2, h1, h2⟩
          rcases List.mem_cons.mp h1 with h3 | h3
          · exact absurd (h3 ▸ h2.2) he
          · exact ⟨e2, h3, h2⟩
        · rintro ⟨e2, h1, h2⟩
          exact ⟨e2, List.mem_cons_of_mem _ h1, h2⟩
      simp only [hiff]

theorem ListSessions_fst (s : Service) (now : Time) :
    (ListSessions s now).1 =
      (s.sessions.entries.filter fun e => decide (¬ e.2.ExpiresAt < now)).map
        (fun e => e.2) := by
  have h := listLoop_out_eq now s.sessions.entries (s.sessions, [], false)
  unfold ListSessions
  rcases hl : listLoop now s.sessions.entries (s.sessions, [], false) with ⟨m, out, dirty⟩
  rw [hl] at h
  simp only [List.nil_append] at h
  simp only
  split <;> exact h

theorem ListSessions_snd (s : Service) (now : Time) :
    (ListSessions s now).2 =
      if (s.sessions.entries.any fun e => decide (e.2.ExpiresAt < now)) = true then
        (persistSessionsLocked (s.setSessions
          (listLoop now s.sessions.entries (s.sessions, [], false)).1)).2
      else s.setSessions (listLoop now s.sessions.entries (s.sessions, [], false)).1 := by
  have h := listLoop_dirty_eq now s.sessions.entries (s.sessions, [], false)
  unfold ListSessions
  rcases hl : listLoop now s.sessions.entries (s.sessions, [], false) with ⟨m, out, dirty⟩
  rw [hl] at h
  simp only [Bool.false_or] at h
  simp only
  rw [← h]
  split <;> rfl

theorem ListSessions_sessions (s : Service) (now : Time) :
    (ListSessions s now).2.sessions =
      (listLoop now s.sessions.entries (s.sessions, [], false)).1 := by
  rw [ListSessions_snd]
  split
  · exact persist_sessions _
  · rfl

theorem ListSessions_lookup (s : Service) (now : Time) (k : String) (x : Session) :
    (ListSessions s now).2.sessions.lookup k = some x ↔
      s.sessions.lookup k = some x ∧ ¬ x.ExpiresAt < now := by
  rw [ListSessions_sessions, listLoop_lookup]
  simp only
  cases hl : s.sessions.lookup k with
  | none =>
    have hc : ¬ ∃ e ∈ s.sessions.entries, e.1 = k ∧ e.2.ExpiresAt < now := by
      rintro ⟨e, h1, h2, _⟩
      have := AList.mem_lookup_iff.mpr h1
      rw [h2, hl] at this
      exact Option.noConfusion this
    rw [if_neg hc]
    simp
  | some v =>
    have hm : (⟨k, v⟩ : Σ _ : String, Session) ∈ s.sessions.entries :=
      AList.mem_lookup_iff.mp hl
    by_cases hv : v.ExpiresAt < now
    · rw [if_pos ⟨⟨k, v⟩, hm, rfl, hv⟩]
      constructor
      · intro h; exact Option.noConfusion h
      · rintro ⟨h1, h2⟩
        exact absurd (Option.some.inj h1 ▸ hv) h2
    · have hc : ¬ ∃ e ∈ s.sessions.entries, e.1 = k ∧ e.2.ExpiresAt < now := by
        rintro ⟨e, h1, h2, h3⟩
        have := AList.mem_lookup_iff.mpr h1
        rw [h2, hl] at this
        exact hv (Option.some.inj this ▸ h3)
      rw [if_neg hc]
      constructor
      · intro h; exact ⟨h, Option.some.inj h ▸ hv⟩
      · rintro ⟨h1, _⟩; exact h1


theorem persist_saves (s : Service) (store : SessionStore) (h : s.sessionStore = some store) :
    ∃ store1, (persistSessionsLocked s).2.sessionStore = some store1 ∧
      store1.saves = s.sessions :: store.saves := by
  unfold persistSessionsLocked
  simp only [h]
  unfold SessionStore.Save
  cases store.saveErr s.sessions with
  | some e => exact ⟨_, rfl, rfl⟩
  | none => exact ⟨_, rfl, rfl⟩

/-- C12: read paths swallow persistence failures. Two services holding the same
session table, whatever their persistence backends do (one whose `Save` succeeds,
one whose `Save` fails), get the same result and the same table from
`ValidateToken` and from `ListSessions`, for every token and instant; the only
error `ValidateToken` returns is `ErrInvalidToken`, and `ListSessions` has no
error result. -/
theorem read_paths_ignore_save_outcome (s1 s2 : Service) (t : String) (now : Time)
    (h : s1.sessions = s2.sessions) :
    (ValidateToken s1 t now).1 = (ValidateToken s2 t now).1 ∧
      (ValidateToken s1 t now).2.sessions = (ValidateToken s2 t now).2.sessions ∧
      (ListSessions s1 now).1 = (ListSessions s2 now).1 ∧
      (ListSessions s1 now).2.sessions = (ListSessions s2 now).2.sessions ∧
      (∀ e, (ValidateToken s1 t now).1 = .error e → e = .ErrInvalidToken) := by
  refine ⟨ValidateToken_fst_congr s1 s2 t now (by rw [h]), ?_, ?_, ?_, ?_⟩
  · cases hl : s2.sessions.lookup t with
    | none =>
      rw [ValidateToken_absent s2 t now hl, ValidateToken_absent s1 t now (by rw [h]; exact hl)]
      exact h
    | some sess =>
      by_cases hn : sess.ExpiresAt < now
      · rw [ValidateToken_expired s2 t sess now hl hn,
          ValidateToken_expired s1 t sess now (by rw [h]; exact hl) hn]
        simp only
        rw [persist_sessions, persist_sessions]
        show s1.sessions.erase t = s2.sessions.erase t
        rw [h]
      · rw [ValidateToken_active s2 t sess now hl hn,
          ValidateToken_active s1 t sess now (by rw [h]; exact hl) hn]
        exact h
  · rw [ListSessions_fst, ListSessions_fst, h]
  · rw [ListSessions_sessions, ListSessions_sessions, h]
  · intro e he
    cases hl : s1.sessions.lookup t with
    | none =>
      rw [ValidateToken_absent s1 t now hl] at he
      exact (Except.error.inj he).symm
    | some sess =>
      by_cases hn : sess.ExpiresAt < now
      · rw [ValidateToken_expired s1 t sess now hl hn] at he
        exact (Except.error.inj he).symm
      · rw [ValidateToken_active s1 t sess now hl hn] at he
        exact Except.noConfusion he

/-- C12 at the sample table, instant 11 (both sessions expired), with a backend
whose save succeeds against one whose save fails. -/
theorem read_paths_ignore_save_outcome_witness :
    (ValidateToken (sampleService (some sampleStore) sampleTable) "t1" 11).1 =
        (ValidateToken (sampleService (some failingStore) sampleTable) "t1" 11).1 ∧
      (ListSessions (sampleService (some sampleStore) sampleTable) 11).2.sessions =
        (ListSessions (sampleService (some failingStore) sampleTable) 11).2.sessions :=
  have h := read_paths_ignore_save_outcome (sampleService (some sampleStore) sampleTable)
    (sampleService (some failingStore) sampleTable) "t1" 11 rfl
  ⟨h.1, h.2.2.2.1⟩

/-- C13: for every session table and instant, `ListSessions` returns the sessions
of the entries that are not expired (`now.After(ExpiresAt)` is false), one per
such entry, in the order of the scan; after the call a token maps to a session
exactly when it did before and that session is not expired; and with a session
store, `Save` receives exactly one snapshot, the table after eviction, if some
entry was expired, and none otherwise. -/
theorem ListSessions_returns_unexpired (s : Service) (now : Time) :
    (ListSessions s now).1 =
        (s.sessions.entries.filter fun e => decide (¬ e.2.ExpiresAt < now)).map
          (fun e => e.2) ∧
      (∀ k x, (ListSessions s now).2.sessions.lookup k = some x ↔
        s.sessions.lookup k = some x ∧ ¬ x.ExpiresAt < now) ∧
      (∀ store, s.sessionStore = some store →
        ∃ store1, (ListSessions s now).2.sessionStore = some store1 ∧
          store1.saves =
            if (∃ e ∈ s.sessions.entries, e.2.ExpiresAt < now) then
              (ListSessions s now).2.sessions :: store.saves
            else store.saves) := by
  refine ⟨ListSessions_fst s now, ListSessions_lookup s now, ?_⟩
  intro store hst
  have hany : (s.sessions.entries.any fun e => decide (e.2.ExpiresAt < now)) = true ↔
      ∃ e ∈ s.sessions.entries, e.2.ExpiresAt < now := by
    simp [List.any_eq_true]
  rw [ListSessions_sessions, ListSessions_snd]
  by_cases hd : ∃ e ∈ s.sessions.entries, e.2.ExpiresAt < now
  · rw [if_pos (hany.mpr hd), if_pos hd]
    exact persist_saves _ store hst
  · rw [if_neg (fun h => hd (hany.mp h)), if_neg hd]
    exact ⟨store, hst, rfl⟩

/-- C13 at the sample table: at instant 5 both sessions are listed and nothing is
saved; at instant 11 none is listed, the table is empty and one snapshot is
saved. -/
theorem ListSessions_returns_unexpired_witness :
    (ListSessions (sampleService (some sampleStore) sampleTable) 5).1 =
        [sampleSession "s1" "t1", sampleSession "s2" "t2"] ∧
      (ListSessions (sampleService (some sampleStore) sampleTable) 11).1 = [] ∧
      (∃ store1, (ListSessions (sampleService (some sampleStore) sampleTable) 11).2.sessionStore
          = some store1 ∧
        store1.saves = [(ListSessions (sampleService (some sampleStore) sampleTable)
          11).2.sessions]) :=
  ⟨(ListSessions_returns_unexpired (sampleService (some sampleStore) sampleTable) 5).1.trans
      (by decide),
    (ListSessions_returns_unexpired (sampleService (some sampleStore) sampleTable) 11).1.trans
      (by decide),
    by
      obtain ⟨store1, h1, h2⟩ :=
        (ListSessions_returns_unexpired (sampleService (some sampleStore) sampleTable) 11).2.2
          sampleStore rfl
      refine ⟨store1, h1, ?_⟩
      rw [h2, if_pos (by decide)]
      rfl⟩

theorem views_congr (now : Time) (l1 l2 : List (Σ _ : String, Session))
    (h : List.Forall₂ (fun e1 e2 => sameButToken e1.2 e2.2) l1 l2) :
    ((l1.filter fun e => decide (¬ e.2.ExpiresAt < now)).map fun e => sessionView e.2) =
      ((l2.filter fun e => decide (¬ e.2.ExpiresAt < now)).map fun e => sessionView e.2) := by
  induction h with
  | nil => rfl
  | @cons a b l1 l2 hab _ ih =>
    obtain ⟨h1, h2, h3, h4, h5, h6⟩ := hab
    have hv : sessionView a.2 = sessionView b.2 := by
      unfold sessionView
      rw [h1, h2, h3, h4, h5, h6]
    by_cases hn : a.2.ExpiresAt < now
    · have hn2 : b.2.ExpiresAt < now := h6 ▸ hn
      simp only [hn, hn2, not_true_eq_false, decide_False, Bool.false_eq_true,
        not_false_eq_true, List.filter_cons_of_neg]
      exact ih
    · have hn2 : ¬ b.2.ExpiresAt < now := h6 ▸ hn
      simp only [hn, hn2, not_false_eq_true, decide_True, List.filter_cons_of_pos,
        List.map_cons, hv, ih]

theorem ListSessionViews_fst (s : Service) (now : Time) :
    (ListSessionViews s now).1 = (ListSessions s now).1.map sessionView := by
  unfold ListSessionViews
  rfl

/-- C14: `ListSessionViews` returns one `SessionView` per session that
`ListSessions` returns for the same state and instant, in the same order, with
ID, UserID, Username, Roles, CreatedAt and ExpiresAt equal to that session's
fields; and two states whose tables differ only in the tokens (the keys and the
`Token` fields of their sessions) get the same output. -/
theorem ListSessionViews_redacts_token (s : Service) (now : Time) :
    (ListSessionViews s now).1.length = (ListSessions s now).1.length ∧
      List.Forall₂
        (fun (v : SessionView) (x : Session) => v.ID = x.ID ∧ v.UserID = x.UserID ∧
          v.Username = x.Username ∧ v.Roles = x.Roles ∧ v.CreatedAt = x.CreatedAt ∧
          v.ExpiresAt = x.ExpiresAt)
        (ListSessionViews s now).1 (ListSessions s now).1 ∧
      (∀ s2 : Service,
        List.Forall₂ (fun e1 e2 => sameButToken e1.2 e2.2) s.sessions.entries
          s2.sessions.entries →
        (ListSessionViews s2 now).1 = (ListSessionViews s now).1) := by
  refine ⟨?_, ?_, ?_⟩
  · rw [ListSessionViews_fst, List.length_map]
  · rw [ListSessionViews_fst, List.forall₂_map_left_iff]
    exact List.forall₂_same.mpr fun x _ => ⟨rfl, rfl, rfl, rfl, rfl, rfl⟩
  · intro s2 h
    rw [ListSessionViews_fst, ListSessionViews_fst, ListSessions_fst, ListSessions_fst,
      List.map_map, List.map_map]
    exact (views_congr now _ _ h).symm


/-- C14 at the sample tables: the same sessions under other tokens give the same
views. -/
theorem ListSessionViews_redacts_token_witness :
    (ListSessionViews (sampleService none sampleTableB) 5).1 =
      (ListSessionViews (sampleService none sampleTable) 5).1 :=
  (ListSessionViews_redacts_token (sampleService none sampleTable) 5).2.2
    (sampleService none sampleTableB)
    (List.Forall₂.cons ⟨rfl, rfl, rfl, rfl, rfl, rfl⟩
      (List.Forall₂.cons ⟨rfl, rfl, rfl, rfl, rfl, rfl⟩ List.Forall₂.nil))

/-! ## Changing the password -/

theorem ChangePassword_weak (U : Unicode) (Sum256 : String → List Byte) (s : Service)
    (token cur new : String) (now : Time) (h : validatePasswordPolicy U new ≠ none) :
    ChangePassword U Sum256 s token cur new now = (some .ErrWeakPassword, s) := by
  unfold ChangePassword
  cases hp : validatePasswordPolicy U new with
  | none => exact absurd hp h
  | some e => rfl

theorem ChangePassword_absent (U : Unicode) (Sum256 : String → List Byte) (s : Service)
    (token cur new : String) (now : Time) (hpol : validatePasswordPolicy U new = none)
    (h : s.sessions.lookup token = none) :
    ChangePassword U Sum256 s token cur new now = (some .ErrInvalidToken, s) := by
  unfold ChangePassword
  simp only [hpol, ValidateToken_absent s token now h]

theorem ChangePassword_expired (U : Unicode) (Sum256 : String → List Byte) (s : Service)
    (token cur new : String) (now : Time) (sess : Session)
    (hpol : validatePasswordPolicy U new = none)
    (h : s.sessions.lookup token = some sess) (hn : sess.ExpiresAt < now) :
    ChangePassword U Sum256 s token cur new now =
      (some .ErrInvalidToken,
        (persistSessionsLocked (s.setSessions (s.sessions.erase token))).2) := by
  unfold ChangePassword
  simp only [hpol, ValidateToken_expired s token sess now h hn]

theorem ChangePassword_active (U : Unicode) (Sum256 : String → List Byte) (s : Service)
    (token cur new : String) (now : Time) (sess : Session)
    (hpol : validatePasswordPolicy U new = none)
    (h : s.sessions.lookup token = some sess) (hn : ¬ sess.ExpiresAt < now) :
    ChangePassword U Sum256 s token cur new now =
      match s.users.GetByUsername sess.Username with
      | .error _ => (some .ErrInvalidCredentials, s)
      | .ok user =>
        if !VerifyPassword Sum256 s cur user.PasswordHash then
          (some .ErrInvalidCredentials, s)
        else
          match s.users.Put { user with PasswordHash := HashPassword Sum256 s new } with
          | (some err, st) => (some (.wrapped "store updated password" err), s.setUsers st)
          | (none, st) => (none, s.setUsers st) := by
  unfold ChangePassword
  simp only [hpol, ValidateToken_active s token sess now h hn]


theorem Login_wrong_password (Sum256 : String → List Byte) (s : Service) (n p : String)
    (now : Time) (rdToken rdID : RandRead) (unixNano : Int) (u : User)
    (hu : s.users.GetByUsername n = .ok u)
    (hv : VerifyPassword Sum256 s p u.PasswordHash = false) :
    Login Sum256 s n p now rdToken rdID unixNano = (.error .ErrInvalidCredentials, s) := by
  unfold Login
  rw [hu]
  simp only [hv, Bool.not_false, if_true]

theorem InMemoryUserStore_upserts (m : InMemoryUserStore) :
    (InMemoryUserStore.toUserStore m).Upserts := by
  intro u _
  show InMemoryUserStore.GetByUsername (m.insert u.Username u) u.Username = .ok u
  unfold InMemoryUserStore.GetByUsername
  rw [AList.lookup_insert]

/-- C15: for every new password that violates the policy, `ChangePassword`
returns `ErrWeakPassword` whatever the token and the current password are, and
the service (user store, session table, backends) is exactly as before, so every
`Login` afterwards behaves as it did before. -/
theorem ChangePassword_weak_password (U : Unicode) (Sum256 : String → List Byte)
    (s : Service) (token cur new : String) (now : Time)
    (h : validatePasswordPolicy U new ≠ none) :
    ChangePassword U Sum256 s token cur new now = (some .ErrWeakPassword, s) ∧
      (ChangePassword U Sum256 s token cur new now).2.users = s.users ∧
      (ChangePassword U Sum256 s token cur new now).2.sessions = s.sessions ∧
      (∀ n p now2 rdToken rdID unixNano,
        Login Sum256 (ChangePassword U Sum256 s token cur new now).2 n p now2 rdToken rdID
          unixNano = Login Sum256 s n p now2 rdToken rdID unixNano) := by
  have hc := ChangePassword_weak U Sum256 s token cur new now h
  refine ⟨hc, by rw [hc], by rw [hc], ?_⟩
  intro n p now2 rdToken rdID unixNano
  rw [hc]

/-- C15 at the sample service: the new password `short` is refused with
`ErrWeakPassword` for the absent token `nope` and for the expired token `t1`
(instant 11), and `admin` still logs in with `secret123` afterwards. -/
theorem ChangePassword_weak_password_witness :
    ChangePassword asciiUnicode sampleSum256 (sampleService none sampleTable) "nope" "x" "short"
        5 = (some .ErrWeakPassword, sampleService none sampleTable) ∧
      ChangePassword asciiUnicode sampleSum256 (sampleService none sampleTable) "t1"
        "secret123" "short" 11 = (some .ErrWeakPassword, sampleService none sampleTable) ∧
      (Login sampleSum256 (ChangePassword asciiUnicode sampleSum256
        (sampleService none sampleTable) "t1" "secret123" "short" 11).2 "admin" "secret123" 11
        sampleRead sampleRead 0).1 =
        .ok (loginSession (sampleService none sampleTable) sampleAdmin
          "000102030405060708090a0b0c0d0e0f101112131415161718191a1b1c1d1e1f"
          "000102030405060708090a0b0c0d0e0f" 11) :=
  ⟨(ChangePassword_weak_password asciiUnicode sampleSum256 (sampleService none sampleTable)
      "nope" "x" "short" 5 (by decide)).1,
    (ChangePassword_weak_password asciiUnicode sampleSum256 (sampleService none sampleTable)
      "t1" "secret123" "short" 11 (by decide)).1,
    (congrArg Prod.fst ((ChangePassword_weak_password asciiUnicode sampleSum256
      (sampleService none sampleTable) "t1" "secret123" "short" 11 (by decide)).2.2.2
      "admin" "secret123" 11 sampleRead sampleRead 0)).trans (by decide)⟩

/-- C16 as stated fails: with the active token `t1`, the right current password
and a policy-satisfying new password, a user store whose `Put` fails makes
`ChangePassword` fail although every condition of the claim holds. -/
theorem ChangePassword_put_failure_counterexample :
    ¬ (∀ (U : Unicode) (Sum256 : String → List Byte) (s : Service)
        (token cur new : String) (now : Time) (sess : Session) (user : User),
        validatePasswordPolicy U new = none →
        s.sessions.lookup token = some sess → now ≤ sess.ExpiresAt →
        s.users.GetByUsername sess.Username = .ok user →
        VerifyPassword Sum256 s cur user.PasswordHash = true →
        (ChangePassword U Sum256 s token cur new now).1 = none) := by
  intro h
  have h1 := h asciiUnicode sampleSum256 ((sampleService none sampleTable).setUsers failingUsers)
    "t1" "secret123" "NewPassword123!" 5 (sampleSession "s1" "t1") sampleAdmin
    (by decide) (by decide) (by decide) (by decide) (by decide)
  revert h1
  decide

/-- C16, amended: for an active token (a session stored under it, `now` not after
its expiry) whose session's username the store resolves to `user`, a current
password that verifies against `user.PasswordHash` and a policy-satisfying new
password, `ChangePassword` succeeds exactly when the `Put` of the updated record
succeeds; a failing `Put` is returned wrapped as "store updated password". When
it succeeds and the store upserts by username, the store then returns for
`user.Username` the record `user` with `PasswordHash = HashPassword(newPassword)`
and ID, Username and Roles unchanged; afterwards a `Login` with the new password
(token generation and persistence succeeding) returns a Session for that record,
and a `Login` with the old password returns `ErrInvalidCredentials` when the hash
function does not collide on the old and the new password. -/
theorem ChangePassword_updates_hash (U : Unicode) (Sum256 : String → List Byte)
    (s : Service) (token cur new : String) (now : Time) (sess : Session) (user : User)
    (hpol : validatePasswordPolicy U new = none)
    (hlook : s.sessions.lookup token = some sess) (hact : now ≤ sess.ExpiresAt)
    (huser : s.users.GetByUsername sess.Username = .ok user)
    (hver : VerifyPassword Sum256 s cur user.PasswordHash = true) :
    ((ChangePassword U Sum256 s token cur new now).1 = none ↔
      (s.users.Put { user with PasswordHash := HashPassword Sum256 s new }).1 = none) ∧
    (∀ e, (s.users.Put { user with PasswordHash := HashPassword Sum256 s new }).1 = some e →
      (ChangePassword U Sum256 s token cur new now).1 =
        some (.wrapped "store updated password" e)) ∧
    ((s.users.Put { user with PasswordHash := HashPassword Sum256 s new }).1 = none →
      s.users.Upserts →
      (∃ user1 : User,
        (ChangePassword U Sum256 s token cur new now).2.users.GetByUsername user.Username =
          .ok user1 ∧
        user1.PasswordHash = HashPassword Sum256 s new ∧ user1.ID = user.ID ∧
        user1.Username = user.Username ∧ user1.Roles = user.Roles ∧
        (∀ now2 rdToken rdID unixNano tok, generateToken 32 rdToken = .ok tok →
          (persistSessionsLocked ((ChangePassword U Sum256 s token cur new now).2.setSessions
            ((ChangePassword U Sum256 s token cur new now).2.sessions.insert tok
              (loginSession (ChangePassword U Sum256 s token cur new now).2 user1 tok
                (mustID 16 rdID unixNano) now2)))).1 = none →
          (Login Sum256 (ChangePassword U Sum256 s token cur new now).2 user.Username new
            now2 rdToken rdID unixNano).1 =
            .ok (loginSession (ChangePassword U Sum256 s token cur new now).2 user1 tok
              (mustID 16 rdID unixNano) now2))) ∧
      (Sum256 (hashInput s.pepper cur) ≠ Sum256 (hashInput s.pepper new) →
        ∀ now2 rdToken rdID unixNano,
          Login Sum256 (ChangePassword U Sum256 s token cur new now).2 user.Username cur now2
            rdToken rdID unixNano =
            (.error .ErrInvalidCredentials,
              (ChangePassword U Sum256 s token cur new now).2))) := by
  have hc := ChangePassword_active U Sum256 s token cur new now sess hpol hlook (not_lt.mpr hact)
  rw [huser] at hc
  simp only [hver, Bool.not_true, Bool.false_eq_true, if_false] at hc
  refine ⟨?_, ?_, ?_⟩
  · rcases hr : s.users.Put { user with PasswordHash := HashPassword Sum256 s new } with ⟨e, st⟩
    rw [hr] at hc
    rw [hc]
    cases e with
    | none => exact ⟨fun _ => rfl, fun _ => rfl⟩
    | some err => exact ⟨fun h => Option.noConfusion h, fun h => Option.noConfusion h⟩
  · intro e he
    rcases hr : s.users.Put { user with PasswordHash := HashPassword Sum256 s new } with ⟨e1, st⟩
    rw [hr] at hc he
    simp only at he
    subst he
    rw [hc]
  · intro hput hups
    have hget := hups _ hput
    rcases hr : s.users.Put { user with PasswordHash := HashPassword Sum256 s new } with ⟨e, st⟩
    rw [hr] at hc hput hget
    simp only at hput hget
    subst hput
    simp only at hc
    rw [hc]
    have hget2 : (s.setUsers st).users.GetByUsername user.Username =
        .ok { user with PasswordHash := HashPassword Sum256 s new } := hget
    refine ⟨⟨{ user with PasswordHash := HashPassword Sum256 s new }, hget2, rfl, rfl, rfl,
      rfl, ?_⟩, ?_⟩
    · intro now2 rdToken rdID unixNano tok htok hsave
      have hv : VerifyPassword Sum256 (s.setUsers st) new
          ({ user with PasswordHash := HashPassword Sum256 s new } : User).PasswordHash = true :=
        (VerifyPassword_iff Sum256 _ new _).mpr rfl
      rw [Login_ok Sum256 (s.setUsers st) user.Username new _ now2 rdToken rdID unixNano tok
        hget2 hv htok]
      rcases hp : persistSessionsLocked ((s.setUsers st).setSessions
        ((s.setUsers st).sessions.insert tok (loginSession (s.setUsers st)
          { user with PasswordHash := HashPassword Sum256 s new } tok
          (mustID 16 rdID unixNano) now2))) with ⟨e2, s3⟩
      rw [hp] at hsave
      simp only at hsave
      subst hsave
      rfl
    · intro hcol now2 rdToken rdID unixNano
      apply Login_wrong_password Sum256 (s.setUsers st) user.Username cur now2 rdToken rdID
        unixNano _ hget2
      rw [← Bool.not_eq_true, VerifyPassword_iff]
      intro he
      exact hcol (EncodeToString_inj he)


/-- C16 at the sample service: with the active token `t1`, `admin` changes
`secret123` to `NewPassword123!`; the call succeeds and the old password is
refused afterwards. -/
theorem ChangePassword_updates_hash_witness :
    (ChangePassword asciiUnicode sampleSum256 (sampleService none sampleTable) "t1"
        "secret123" "NewPassword123!" 5).1 = none ∧
      Login sampleSum256 (ChangePassword asciiUnicode sampleSum256
        (sampleService none sampleTable) "t1" "secret123" "NewPassword123!" 5).2 "admin"
        "secret123" 6 sampleRead sampleRead 0 =
        (.error .ErrInvalidCredentials, (ChangePassword asciiUnicode sampleSum256
          (sampleService none sampleTable) "t1" "secret123" "NewPassword123!" 5).2) :=
  have h := ChangePassword_updates_hash asciiUnicode sampleSum256
    (sampleService none sampleTable) "t1" "secret123" "NewPassword123!" 5
    (sampleSession "s1" "t1") sampleAdmin (by decide) (by decide) (by decide) (by decide)
    (by decide)
  ⟨h.1.mpr (by decide), (h.2.2 (by decide) (InMemoryUserStore_upserts _)).2 (by decide) 6
    sampleRead sampleRead 0⟩

theorem ChangePassword_success_state (U : Unicode) (Sum256 : String → List Byte) (s : Service)
    (token cur new : String) (now : Time)
    (h : (ChangePassword U Sum256 s token cur new now).1 = none) :
    ∃ st : UserStore, (ChangePassword U Sum256 s token cur new now).2 = s.setUsers st := by
  cases hpol : validatePasswordPolicy U new with
  | some e =>
    rw [ChangePassword_weak U Sum256 s token cur new now (by rw [hpol]; simp)] at h
    exact absurd h (by simp)
  | none =>
    cases hl : s.sessions.lookup token with
    | none =>
      rw [ChangePassword_absent U Sum256 s token cur new now hpol hl] at h
      exact absurd h (by simp)
    | some sess =>
      by_cases hn : sess.ExpiresAt < now
      · rw [ChangePassword_expired U Sum256 s token cur new now sess hpol hl hn] at h
        exact absurd h (by simp)
      · rw [ChangePassword_active U Sum256 s token cur new now sess hpol hl hn] at h ⊢
        cases hu : s.users.GetByUsername sess.Username with
        | error e => rw [hu] at h; exact absurd h (by simp)
        | ok user =>
          rw [hu] at h
          simp only at h ⊢
          by_cases hv : VerifyPassword Sum256 s cur user.PasswordHash = true
          · simp only [hv, Bool.not_true, Bool.false_eq_true, if_false] at h ⊢
            rcases hr : s.users.Put { user with PasswordHash := HashPassword Sum256 s new }
              with ⟨e, st⟩
            rw [hr] at h
            cases e with
            | some err => exact Option.noConfusion h
            | none => exact ⟨st, rfl⟩
          · simp only [hv, Bool.not_false, if_true] at h
            exact absurd h (by simp)

/-- C17: sessions are snapshots independent of the user store. A successful
`ChangePassword` leaves the session table unchanged, and so does any change of
the user store (in particular any `UserStore.Put`, whatever it changes in a
user's roles or hash); after either, every token validates at every instant to
the same result as before: the same Session, with the same Username and Roles. -/
theorem sessions_independent_of_user_store (U : Unicode) (Sum256 : String → List Byte)
    (s : Service) (token cur new : String) (now : Time) :
    ((ChangePassword U Sum256 s token cur new now).1 = none →
        (ChangePassword U Sum256 s token cur new now).2.sessions = s.sessions ∧
        ∀ t now2, (ValidateToken (ChangePassword U Sum256 s token cur new now).2 t now2).1 =
          (ValidateToken s t now2).1) ∧
      (∀ u : User, (s.setUsers (s.users.Put u).2).sessions = s.sessions ∧
        ∀ t now2, (ValidateToken (s.setUsers (s.users.Put u).2) t now2).1 =
          (ValidateToken s t now2).1) := by
  constructor
  · intro h
    obtain ⟨st, hst⟩ := ChangePassword_success_state U Sum256 s token cur new now h
    rw [hst]
    exact ⟨rfl, fun t now2 => ValidateToken_fst_congr _ _ t now2 rfl⟩
  · intro u
    exact ⟨rfl, fun t now2 => ValidateToken_fst_congr _ _ t now2 rfl⟩

/-- C17 at the sample service: after `admin` changes the password with token `t1`,
and after a `Put` that changes the roles of `admin`, token `t2` still validates to
its session with roles `admin`. -/
theorem sessions_independent_of_user_store_witness :
    (ValidateToken (ChangePassword asciiUnicode sampleSum256 (sampleService none sampleTable)
        "t1" "secret123" "NewPassword123!" 5).2 "t2" 6).1 = .ok (sampleSession "s2" "t2") ∧
      (ValidateToken ((sampleService none sampleTable).setUsers
        ((sampleService none sampleTable).users.Put
          { sampleAdmin with Roles := ["viewer"] }).2) "t2" 6).1 =
        .ok (sampleSession "s2" "t2") :=
  have h := sessions_independent_of_user_store asciiUnicode sampleSum256
    (sampleService none sampleTable) "t1" "secret123" "NewPassword123!" 5
  ⟨((h.1 (by decide)).2 "t2" 6).trans (by decide),
    ((h.2 { sampleAdmin with Roles := ["viewer"] }).2 "t2" 6).trans (by decide)⟩


theorem persist_users (s : Service) : (persistSessionsLocked s).2.users = s.users := by
  unfold persistSessionsLocked
  repeat' split
  all_goals rfl

/-- C18 as stated fails: with an active token, the right current password and a
policy-satisfying new password, a user store whose `Put` fails makes
`ChangePassword` return the wrapped storage error, which is none of
`ErrWeakPassword`, `ErrInvalidToken`, `ErrInvalidCredentials`. -/
theorem ChangePassword_storage_error_counterexample :
    ¬ (∀ (U : Unicode) (Sum256 : String → List Byte) (s : Service)
        (token cur new : String) (now : Time) (e : Error),
        validatePasswordPolicy U new = none →
        (ChangePassword U Sum256 s token cur new now).1 = some e →
        e = .ErrWeakPassword ∨ e = .ErrInvalidToken ∨ e = .ErrInvalidCredentials) := by
  intro h
  have h1 := h asciiUnicode sampleSum256 ((sampleService none sampleTable).setUsers failingUsers)
    "t1" "secret123" "NewPassword123!" 5
    (.wrapped "store updated password" (.other "disk full")) (by decide) (by decide)
  revert h1
  decide

/-- C18, amended: for a policy-satisfying new password, `ChangePassword` returns
`ErrInvalidToken` when the token is absent or expired (whatever the current
password), and `ErrInvalidCredentials` when the token is active but the store
does not return the session's user or the current password does not verify; in
each of these cases the user store is unchanged. Its only other failure is the
error of a failing `UserStore.Put`, wrapped as "store updated password", which
arises only after the token and the current password were accepted. -/
theorem ChangePassword_failure_order (U : Unicode) (Sum256 : String → List Byte)
    (s : Service) (token cur new : String) (now : Time)
    (hpol : validatePasswordPolicy U new = none) :
    (s.sessions.lookup token = none →
        ChangePassword U Sum256 s token cur new now = (some .ErrInvalidToken, s)) ∧
      (∀ sess, s.sessions.lookup token = some sess → sess.ExpiresAt < now →
        (ChangePassword U Sum256 s token cur new now).1 = some .ErrInvalidToken ∧
        (ChangePassword U Sum256 s token cur new now).2.users = s.users) ∧
      (∀ sess e, s.sessions.lookup token = some sess → ¬ sess.ExpiresAt < now →
        s.users.GetByUsername sess.Username = .error e →
        ChangePassword U Sum256 s token cur new now = (some .ErrInvalidCredentials, s)) ∧
      (∀ sess user, s.sessions.lookup token = some sess → ¬ sess.ExpiresAt < now →
        s.users.GetByUsername sess.Username = .ok user →
        VerifyPassword Sum256 s cur user.PasswordHash = false →
        ChangePassword U Sum256 s token cur new now = (some .ErrInvalidCredentials, s)) ∧
      (∀ e, (ChangePassword U Sum256 s token cur new now).1 = some e →
        e = .ErrInvalidToken ∨ e = .ErrInvalidCredentials ∨
        ∃ sess user err, s.sessions.lookup token = some sess ∧ ¬ sess.ExpiresAt < now ∧
          s.users.GetByUsername sess.Username = .ok user ∧
          VerifyPassword Sum256 s cur user.PasswordHash = true ∧
          (s.users.Put { user with PasswordHash := HashPassword Sum256 s new }).1 = some err ∧
          e = .wrapped "store updated password" err) := by
  refine ⟨ChangePassword_absent U Sum256 s token cur new now hpol, ?_, ?_, ?_, ?_⟩
  · intro sess hl hn
    rw [ChangePassword_expired U Sum256 s token cur new now sess hpol hl hn]
    exact ⟨rfl, persist_users _⟩
  · intro sess e hl hn hu
    rw [ChangePassword_active U Sum256 s token cur new now sess hpol hl hn, hu]
  · intro sess user hl hn hu hv
    rw [ChangePassword_active U Sum256 s token cur new now sess hpol hl hn, hu]
    simp only [hv, Bool.not_false, if_true]
  · intro e he
    cases hl : s.sessions.lookup token with
    | none =>
      rw [ChangePassword_absent U Sum256 s token cur new now hpol hl] at he
      exact Or.inl (Option.some.inj he).symm
    | some sess =>
      by_cases hn : sess.ExpiresAt < now
      · rw [ChangePassword_expired U Sum256 s token cur new now sess hpol hl hn] at he
        exact Or.inl (Option.some.inj he).symm
      · rw [ChangePassword_active U Sum256 s token cur new now sess hpol hl hn] at he
        cases hu : s.users.GetByUsername sess.Username with
        | error e0 =>
          rw [hu] at he
          exact Or.inr (Or.inl (Option.some.inj he).symm)
        | ok user =>
          rw [hu] at he
          simp only at he
          by_cases hv : VerifyPassword Sum256 s cur user.PasswordHash = true
          · simp only [hv, Bool.not_true, Bool.false_eq_true, if_false] at he
            rcases hr : s.users.Put { user with PasswordHash := HashPassword Sum256 s new }
              with ⟨e1, st⟩
            rw [hr] at he
            cases e1 with
            | none => exact Option.noConfusion he
            | some err =>
              refine Or.inr (Or.inr ⟨sess, user, err, rfl, hn, hu, hv, ?_,
                (Option.some.inj he).symm⟩)
              rw [hr]
          · simp only [hv, Bool.not_false, if_true] at he
            exact Or.inr (Or.inl (Option.some.inj he).symm)

/-- C18, amended, at the sample service with new password `NewPassword123!`: the
absent token `nope` and the expired `t1` (instant 11) give `ErrInvalidToken`, the
active `t1` with a wrong current password gives `ErrInvalidCredentials`. -/
theorem ChangePassword_failure_order_witness :
    ChangePassword asciiUnicode sampleSum256 (sampleService none sampleTable) "nope"
        "secret123" "NewPassword123!" 5 =
        (some .ErrInvalidToken, sampleService none sampleTable) ∧
      (ChangePassword asciiUnicode sampleSum256 (sampleService none sampleTable) "t1"
        "secret123" "NewPassword123!" 11).1 = some .ErrInvalidToken ∧
      ChangePassword asciiUnicode sampleSum256 (sampleService none sampleTable) "t1"
        "badpass" "NewPassword123!" 5 =
        (some .ErrInvalidCredentials, sampleService none sampleTable) :=
  ⟨(ChangePassword_failure_order asciiUnicode sampleSum256 (sampleService none sampleTable)
      "nope" "secret123" "NewPassword123!" 5 (by decide)).1 (by decide),
    ((ChangePassword_failure_order asciiUnicode sampleSum256 (sampleService none sampleTable)
      "t1" "secret123" "NewPassword123!" 11 (by decide)).2.1 (sampleSession "s1" "t1")
      (by decide) (by decide)).1,
    (ChangePassword_failure_order asciiUnicode sampleSum256 (sampleService none sampleTable)
      "t1" "badpass" "NewPassword123!" 5 (by decide)).2.2.2.1 (sampleSession "s1" "t1")
      sampleAdmin (by decide) (by decide) (by decide) (by decide)⟩


/-! ## Password policy -/

theorem flags_of_category (U : Unicode) (r : Char) :
    (U.IsUpper r, U.IsLower r, U.IsDigit r, U.IsPunct r, U.IsSymbol r) =
      match U.category r with
      | .Lu => (true, false, false, false, false)
      | .Ll => (false, true, false, false, false)
      | .Nd => (false, false, true, false, false)
      | .P => (false, false, false, true, false)
      | .S => (false, false, false, false, true)
      | .other => (false, false, false, false, false) := by
  unfold Unicode.IsUpper Unicode.IsLower Unicode.IsDigit Unicode.IsPunct Unicode.IsSymbol
  cases U.category r <;> rfl

theorem policyLoop_eq (U : Unicode) (l : List Char) (a b c d : Bool) :
    policyLoop U l (a, b, c, d) =
      (a || l.any U.IsUpper, b || l.any U.IsLower, c || l.any U.IsDigit,
        d || l.any fun r => U.IsPunct r || U.IsSymbol r) := by
  induction l generalizing a b c d with
  | nil => simp [policyLoop]
  | cons r rest ih =>
    unfold policyLoop
    simp only [List.any_cons, ih]
    have h := flags_of_category U r
    cases hc : U.category r <;> rw [hc] at h <;> simp only [Prod.mk.injEq] at h <;>
      obtain ⟨h1, h2, h3, h4, h5⟩ := h <;> simp [h1, h2, h3, h4, h5]

theorem trim_eq_self_iff (p : Char → Bool) (l : List Char) :
    (l.dropWhile p).rdropWhile p = l ↔
      (∀ c ∈ l.head?, p c = false) ∧ (∀ c ∈ l.getLast?, p c = false) := by
  cases l with
  | nil => simp
  | cons a t =>
    by_cases ha : p a = true
    · have hlen : ((List.dropWhile p (a :: t)).rdropWhile p).length < (a :: t).length := by
        rw [List.dropWhile_cons_of_pos ha]
        have h1 := (List.rdropWhile_prefix p (List.dropWhile p t)).length_le
        have h2 := (List.dropWhile_suffix p (l := t)).length_le
        simp only [List.length_cons]
        omega
      constructor
      · intro h
        rw [h] at hlen
        exact absurd hlen (lt_irrefl _)
      · intro h
        have := h.1 a (by simp)
        rw [ha] at this
        exact Bool.noConfusion this
    · have hd : List.dropWhile p (a :: t) = a :: t := List.dropWhile_cons_of_neg ha
      rw [hd, List.rdropWhile_eq_self_iff]
      constructor
      · intro h
        refine ⟨?_, ?_⟩
        · intro c hc
          simp only [List.head?_cons, Option.mem_def, Option.some.injEq] at hc
          subst hc
          simpa using ha
        · intro c hc
          have := h (List.cons_ne_nil a t)
          rw [List.getLast?_eq_getLast _ (List.cons_ne_nil a t)] at hc
          simp only [Option.mem_def, Option.some.injEq] at hc
          rw [hc] at this
          simpa using this
      · rintro ⟨_, h2⟩ hl
        have := h2 ((a :: t).getLast hl) (by
          rw [List.getLast?_eq_getLast _ hl]; simp)
        simp [this]


theorem TrimSpace_eq_self_iff (U : Unicode) (p : String) :
    TrimSpace U p = p ↔
      (∀ c ∈ p.data.head?, U.IsSpace c = false) ∧
        (∀ c ∈ p.data.getLast?, U.IsSpace c = false) := by
  unfold TrimSpace
  rw [String.ext_iff]
  exact trim_eq_self_iff _ _

/-- C19: `validatePasswordPolicy(p)` succeeds if and only if `p` has no leading
and no trailing white space, the length of `p` (Go `len`, the bytes of its UTF-8
encoding) is between 12 and 128 inclusive, and `p` contains at least one
uppercase letter, one lowercase letter, one digit and one punctuation or symbol
character; otherwise it returns `ErrWeakPassword`. -/
theorem validatePasswordPolicy_iff (U : Unicode) (p : String) :
    (validatePasswordPolicy U p = none ↔
        (∀ c ∈ p.data.head?, U.IsSpace c = false) ∧
        (∀ c ∈ p.data.getLast?, U.IsSpace c = false) ∧
        12 ≤ p.utf8ByteSize ∧ p.utf8ByteSize ≤ 128 ∧
        (∃ r ∈ p.data, U.IsUpper r = true) ∧ (∃ r ∈ p.data, U.IsLower r = true) ∧
        (∃ r ∈ p.data, U.IsDigit r = true) ∧
        (∃ r ∈ p.data, U.IsPunct r = true ∨ U.IsSymbol r = true)) ∧
      (validatePasswordPolicy U p = none ∨
        validatePasswordPolicy U p = some .ErrWeakPassword) := by
  have ht := TrimSpace_eq_self_iff U p
  unfold validatePasswordPolicy
  rw [policyLoop_eq]
  dsimp only [minPasswordLength, maxPasswordLength]
  by_cases h1 : TrimSpace U p = p
  · have h1a := ht.mp h1
    rw [if_neg (not_not_intro h1)]
    by_cases h2 : p.utf8ByteSize < 12 ∨ p.utf8ByteSize > 128
    · rw [if_pos h2]
      refine ⟨⟨fun h => Option.noConfusion h, ?_⟩, Or.inr rfl⟩
      rintro ⟨_, _, h3, h4, _⟩
      omega
    · rw [if_neg h2]
      have h3 : 12 ≤ p.utf8ByteSize ∧ p.utf8ByteSize ≤ 128 := by omega
      by_cases h4 : (!(false || p.data.any U.IsUpper) || !(false || p.data.any U.IsLower) ||
          !(false || p.data.any U.IsDigit) ||
          !(false || p.data.any fun r => U.IsPunct r || U.IsSymbol r)) = true
      · rw [if_pos h4]
        refine ⟨⟨fun h => Option.noConfusion h, ?_⟩, Or.inr rfl⟩
        rintro ⟨_, _, _, _, ⟨r1, m1, u1⟩, ⟨r2, m2, u2⟩, ⟨r3, m3, u3⟩, ⟨r4, m4, u4⟩⟩
        have a1 : p.data.any U.IsUpper = true := List.any_eq_true.mpr ⟨r1, m1, u1⟩
        have a2 : p.data.any U.IsLower = true := List.any_eq_true.mpr ⟨r2, m2, u2⟩
        have a3 : p.data.any U.IsDigit = true := List.any_eq_true.mpr ⟨r3, m3, u3⟩
        have a4 : (p.data.any fun r => U.IsPunct r || U.IsSymbol r) = true :=
          List.any_eq_true.mpr ⟨r4, m4, by simpa using u4⟩
        rw [a1, a2, a3, a4] at h4
        exact Bool.noConfusion h4
      · rw [if_neg h4]
        refine ⟨⟨fun _ => ?_, fun _ => rfl⟩, Or.inl rfl⟩
        simp only [Bool.false_or, Bool.or_eq_true, Bool.not_eq_true', not_or,
          Bool.not_eq_false] at h4
        obtain ⟨⟨⟨a1, a2⟩, a3⟩, a4⟩ := h4
        obtain ⟨r1, m1, u1⟩ := List.any_eq_true.mp a1
        obtain ⟨r2, m2, u2⟩ := List.any_eq_true.mp a2
        obtain ⟨r3, m3, u3⟩ := List.any_eq_true.mp a3
        obtain ⟨r4, m4, u4⟩ := List.any_eq_true.mp a4
        exact ⟨h1a.1, h1a.2, h3.1, h3.2, ⟨r1, m1, u1⟩, ⟨r2, m2, u2⟩, ⟨r3, m3, u3⟩,
          ⟨r4, m4, by simpa using u4⟩⟩
  · rw [if_pos h1]
    refine ⟨⟨fun h => Option.noConfusion h, ?_⟩, Or.inr rfl⟩
    rintro ⟨h3, h4, _⟩
    exact absurd (ht.mpr ⟨h3, h4⟩) h1

/-- C19 at sample passwords under the ASCII tables: `NewPassword123!` is
accepted; `short` and a password with a leading space are refused. -/
theorem validatePasswordPolicy_iff_witness :
    validatePasswordPolicy asciiUnicode "NewPassword123!" = none ∧
      validatePasswordPolicy asciiUnicode "short" = some .ErrWeakPassword ∧
      validatePasswordPolicy asciiUnicode " NewPassword123!" = some .ErrWeakPassword :=
  ⟨(validatePasswordPolicy_iff asciiUnicode "NewPassword123!").1.mpr (by decide),
    ((validatePasswordPolicy_iff asciiUnicode "short").2).resolve_left (by decide),
    ((validatePasswordPolicy_iff asciiUnicode " NewPassword123!").2).resolve_left (by decide)⟩


/-! ## Session state across restarts -/

theorem Login_success_shape (Sum256 : String → List Byte) (s : Service) (n p : String)
    (now : Time) (rdToken rdID : RandRead) (unixNano : Int) (sess : Session)
    (h : (Login Sum256 s n p now rdToken rdID unixNano).1 = .ok sess) :
    (persistSessionsLocked (s.setSessions (s.sessions.insert sess.Token sess))).1 = none ∧
      (Login Sum256 s n p now rdToken rdID unixNano).2 =
        (persistSessionsLocked (s.setSessions (s.sessions.insert sess.Token sess))).2 := by
  unfold Login at h ⊢
  cases hu : s.users.GetByUsername n with
  | error e => simp [hu] at h
  | ok u =>
    simp only [hu] at h ⊢
    by_cases hv : VerifyPassword Sum256 s p u.PasswordHash = true
    · simp only [hv, Bool.not_true, Bool.false_eq_true, if_false] at h ⊢
      cases ht : generateToken 32 rdToken with
      | error e => simp [ht] at h
      | ok token =>
        simp only [ht] at h ⊢
        rcases hr : persistSessionsLocked (s.setSessions (s.sessions.insert token
          (loginSession s u token (mustID 16 rdID unixNano) now))) with ⟨e, s2⟩
        rw [hr] at h
        cases e with
        | some err => simp at h
        | none =>
          simp only [Except.ok.injEq] at h
          subst h
          show (persistSessionsLocked (s.setSessions (s.sessions.insert token
            (loginSession s u token (mustID 16 rdID unixNano) now)))).1 = none ∧
            s2 = (persistSessionsLocked (s.setSessions (s.sessions.insert token
              (loginSession s u token (mustID 16 rdID unixNano) now)))).2
          rw [hr]
          exact ⟨rfl, rfl⟩
    · simp [hv] at h

theorem persist_backend (s : Service) :
    (persistSessionsLocked s).2.stateFile = s.stateFile ∧
      ((persistSessionsLocked s).2.sessionStore = none ↔ s.sessionStore = none) := by
  unfold persistSessionsLocked
  cases hst : s.sessionStore with
  | some store =>
    simp only
    rcases store.Save s.sessions with ⟨e, store1⟩
    cases e <;> simp
  | none =>
    simp only
    repeat' split
    all_goals exact ⟨rfl, by simp [hst]⟩

theorem stored_lookup_list (st : SessionStore) (l : List (Sigma fun _ : String => Session))
    (k : String) :
    (l.foldr (fun e (out : SessionMap) => out.insert e.1 (st.row e.1 e.2)) ∅).lookup k =
      (l.dlookup k).map (st.row k) := by
  induction l with
  | nil => rfl
  | cons e l ih =>
    obtain ⟨a, b⟩ := e
    simp only [List.foldr_cons]
    by_cases h : a = k
    · subst h
      rw [AList.lookup_insert, List.dlookup_cons_eq]
      rfl
    · rw [AList.lookup_insert_ne (Ne.symm h), ih, List.dlookup_cons_ne _ _ (Ne.symm h)]

theorem stored_lookup (st : SessionStore) (m : SessionMap) (k : String) :
    (st.stored m).lookup k = (m.lookup k).map (st.row k) :=
  stored_lookup_list st m.entries k

theorem persist_kept (s : Service) (t : Time) :
    (persistSessionsLocked s).2.kept t = s.kept t := by
  cases hst : s.sessionStore with
  | some store =>
    unfold persistSessionsLocked Service.kept
    simp only [hst]
    unfold SessionStore.Save
    cases store.saveErr s.sessions <;> rfl
  | none =>
    have hn := (persist_backend s).2.mpr hst
    unfold Service.kept
    rw [hn, hst]

theorem LoadSessionState_error_state (s : Service) (h : (LoadSessionState s).1 ≠ none) :
    (LoadSessionState s).2 = s := by
  unfold LoadSessionState at h ⊢
  repeat' split
  all_goals first | rfl | (exfalso; simp_all)

theorem NewService_sessions (userStore : Option UserStore) (cfg : ServiceConfig) (disk : Disk)
    (s : Service) (h : NewService userStore cfg disk = .ok s) :
    s.sessions = ∅ ∧ s.sessionStore = cfg.SessionStore ∧ s.stateFile = cfg.SessionStateFile ∧
      s.disk = disk := by
  unfold NewService at h
  cases userStore with
  | none => exact Except.noConfusion h
  | some st =>
    simp only at h
    split at h
    · exact Except.noConfusion h
    · split at h
      · exact Except.noConfusion h
      · simp only [Except.ok.injEq] at h
        subst h
        exact ⟨rfl, rfl, rfl, rfl⟩

theorem round_trip_lookup (Sum256 : String → List Byte) (s : Service) (n p : String)
    (now : Time) (rdToken rdID : RandRead) (unixNano : Int) (sess : Session)
    (users2 : Option UserStore) (pepper2 : String) (ttl2 : Duration) (s2 : Service)
    (hback : s.sessionStore ≠ none ∨ s.stateFile ≠ "")
    (hlogin : (Login Sum256 s n p now rdToken rdID unixNano).1 = .ok sess)
    (hnew : NewService users2
      { PasswordPepper := pepper2, SessionTTL := ttl2,
        SessionStateFile := (Login Sum256 s n p now rdToken rdID unixNano).2.stateFile,
        SessionStore := (Login Sum256 s n p now rdToken rdID unixNano).2.sessionStore }
      (Login Sum256 s n p now rdToken rdID unixNano).2.disk = .ok s2)
    (hload : (LoadSessionState s2).1 = none) :
    (LoadSessionState s2).2.sessions.lookup sess.Token =
      some { sess with
        CreatedAt := s.kept sess.CreatedAt
        ExpiresAt := s.kept sess.ExpiresAt } := by
  obtain ⟨hp1, hp2⟩ := Login_success_shape Sum256 s n p now rdToken rdID unixNano sess hlogin
  have hmir := persist_mirrored _ hp1
  have hsess := persist_sessions (s.setSessions (s.sessions.insert sess.Token sess))
  have hkept : ∀ t, (persistSessionsLocked
      (s.setSessions (s.sessions.insert sess.Token sess))).2.kept t = s.kept t :=
    fun t => persist_kept _ t
  obtain ⟨hfile, hnone⟩ := persist_backend (s.setSessions (s.sessions.insert sess.Token sess))
  rw [← hp2] at hmir hsess hfile hnone hkept
  obtain ⟨_, h2store, h2file, h2disk⟩ := NewService_sessions _ _ _ _ hnew
  generalize Login Sum256 s n p now rdToken rdID unixNano = r at *
  obtain ⟨res, s1⟩ := r
  simp only at hmir hsess hfile hnone hkept h2store h2file h2disk
  have hlook : s1.sessions.lookup sess.Token = some sess := by
    rw [hsess]
    exact AList.lookup_insert _
  rw [← hkept sess.CreatedAt, ← hkept sess.ExpiresAt]
  unfold Mirrored at hmir
  unfold LoadSessionState at hload ⊢
  unfold Service.kept
  rw [h2store] at hload ⊢
  cases hst : s1.sessionStore with
  | some store =>
    simp only [hst] at hmir hload ⊢
    unfold SessionStore.Load at hload ⊢
    cases hle : store.loadErr with
    | some e => simp [hle] at hload
    | none =>
      simp only [hle]
      show store.rows.lookup sess.Token = _
      rw [hmir.2, stored_lookup, hlook]
      rfl
  | none =>
    simp only [hst] at hmir hload ⊢
    have hsf : s1.stateFile ≠ "" := by
      rw [hfile]
      rcases hback with hb | hb
      · exact absurd (hnone.mp hst) hb
      · exact hb
    have hf := hmir hsf
    rw [h2file, h2disk] at hload ⊢
    simp only [hsf, if_false, hf] at hload ⊢
    cases hre : s1.disk.readErr with
    | some e => simp [hre] at hload
    | none => exact hlook

/-- C20 as stated fails: on a session store whose timestamp columns hold
microseconds, a login at instant 1400 with a TTL of 5000 returns a Session created
at 1400 and expiring at 6400; the fresh service loads it as created at 1000 and
expiring at 6000, so at instant 2000 the Session it returns has another
`CreatedAt`. -/
theorem session_state_round_trip_counterexample :
    ¬ (∀ (Sum256 : String → List Byte) (s : Service) (n p : String) (now : Time)
        (rdToken rdID : RandRead) (unixNano : Int) (sess : Session)
        (users2 : Option UserStore) (pepper2 : String) (ttl2 : Duration) (s2 : Service),
        (s.sessionStore ≠ none ∨ s.stateFile ≠ "") →
        (Login Sum256 s n p now rdToken rdID unixNano).1 = .ok sess →
        NewService users2
          { PasswordPepper := pepper2, SessionTTL := ttl2,
            SessionStateFile := (Login Sum256 s n p now rdToken rdID unixNano).2.stateFile,
            SessionStore := (Login Sum256 s n p now rdToken rdID unixNano).2.sessionStore }
          (Login Sum256 s n p now rdToken rdID unixNano).2.disk = .ok s2 →
        ∀ now2, now2 < sess.ExpiresAt →
          ∃ sess2, (ValidateToken (LoadSessionState s2).2 sess.Token now2).1 = .ok sess2 ∧
            sameButToken sess sess2) := by
  intro h
  obtain ⟨sess2, h1, h2⟩ := h sampleSum256 microService "admin" "secret123" 1400 sampleRead
    sampleRead 0
    (loginSession microService sampleAdmin
      "000102030405060708090a0b0c0d0e0f101112131415161718191a1b1c1d1e1f"
      "000102030405060708090a0b0c0d0e0f" 1400)
    (some (InMemoryUserStore.toUserStore ∅)) "pepper2" 5
    (freshService (Login sampleSum256 microService "admin" "secret123" 1400 sampleRead
      sampleRead 0).2)
    (Or.inl (by simp [microService])) (by decide) rfl 2000 (by decide)
  have hv : (ValidateToken (LoadSessionState (freshService (Login sampleSum256 microService
      "admin" "secret123" 1400 sampleRead sampleRead 0).2)).2
      "000102030405060708090a0b0c0d0e0f101112131415161718191a1b1c1d1e1f" 2000).1 =
      .ok { loginSession microService sampleAdmin
        "000102030405060708090a0b0c0d0e0f101112131415161718191a1b1c1d1e1f"
        "000102030405060708090a0b0c0d0e0f" 1400 with CreatedAt := 1000, ExpiresAt := 6000 } := by
    decide
  have h1b : (ValidateToken (LoadSessionState (freshService (Login sampleSum256 microService
      "admin" "secret123" 1400 sampleRead sampleRead 0).2)).2
      "000102030405060708090a0b0c0d0e0f101112131415161718191a1b1c1d1e1f" 2000).1 =
      .ok sess2 := h1
  rw [hv] at h1b
  injection h1b with h1b
  subst h1b
  exact absurd h2.2.2.2.2.1 (by decide)

/-- C20, amended: if `Login` succeeds with Session `sess` on a service with a
persistence backend (a session store or a state file) and a fresh service is
constructed by `NewService` on the same backend, then: when its
`LoadSessionState` succeeds, `ValidateToken` of the token returns, at every
instant up to the kept expiry, the Session `sess` with `CreatedAt` and
`ExpiresAt` as the backend keeps them (same ID, Token, UserID, Username, Roles),
and refuses the token after the kept expiry; the state file keeps every instant
as it is, a session store keeps what its timestamp columns hold, and where the
two instants are kept as they are the Session returned is `sess` itself; when
`LoadSessionState` fails, the fresh service is left with its empty table and
refuses the token. -/
theorem session_state_round_trip (Sum256 : String → List Byte) (s : Service) (n p : String)
    (now : Time) (rdToken rdID : RandRead) (unixNano : Int) (sess : Session)
    (users2 : Option UserStore) (pepper2 : String) (ttl2 : Duration) (s2 : Service)
    (hback : s.sessionStore ≠ none ∨ s.stateFile ≠ "")
    (hlogin : (Login Sum256 s n p now rdToken rdID unixNano).1 = .ok sess)
    (hnew : NewService users2
      { PasswordPepper := pepper2, SessionTTL := ttl2,
        SessionStateFile := (Login Sum256 s n p now rdToken rdID unixNano).2.stateFile,
        SessionStore := (Login Sum256 s n p now rdToken rdID unixNano).2.sessionStore }
      (Login Sum256 s n p now rdToken rdID unixNano).2.disk = .ok s2) :
    ((LoadSessionState s2).1 = none →
      (∀ now2, now2 ≤ s.kept sess.ExpiresAt →
        ValidateToken (LoadSessionState s2).2 sess.Token now2 =
          (.ok { sess with
              CreatedAt := s.kept sess.CreatedAt
              ExpiresAt := s.kept sess.ExpiresAt },
            (LoadSessionState s2).2)) ∧
      (∀ now2, s.kept sess.ExpiresAt < now2 →
        (ValidateToken (LoadSessionState s2).2 sess.Token now2).1 =
          .error .ErrInvalidToken) ∧
      (s.kept sess.CreatedAt = sess.CreatedAt → s.kept sess.ExpiresAt = sess.ExpiresAt →
        ∀ now2, now2 ≤ sess.ExpiresAt →
          ValidateToken (LoadSessionState s2).2 sess.Token now2 =
            (.ok sess, (LoadSessionState s2).2))) ∧
    (s.sessionStore = none → ∀ t, s.kept t = t) ∧
    (∀ store, s.sessionStore = some store → ∀ t, s.kept t = store.column t) ∧
    ((LoadSessionState s2).1 ≠ none →
      (LoadSessionState s2).2 = s2 ∧
      ∀ now2, ValidateToken (LoadSessionState s2).2 sess.Token now2 =
        (.error .ErrInvalidToken, (LoadSessionState s2).2)) := by
  refine ⟨fun hload => ?_, ?_, ?_, fun hload => ?_⟩
  · have hlook := round_trip_lookup Sum256 s n p now rdToken rdID unixNano sess users2 pepper2
      ttl2 s2 hback hlogin hnew hload
    refine ⟨?_, ?_, ?_⟩
    · intro now2 hn
      exact ValidateToken_active _ _ _ _ hlook (not_lt.mpr hn)
    · intro now2 hn
      rw [ValidateToken_expired _ _ _ _ hlook hn]
    · intro hc he now2 hn
      rw [hc, he] at hlook
      exact ValidateToken_active _ _ _ _ hlook (not_lt.mpr hn)
  · intro hst t
    unfold Service.kept
    rw [hst]
  · intro store hst t
    unfold Service.kept
    rw [hst]
  · have hs := LoadSessionState_error_state s2 hload
    refine ⟨hs, fun now2 => ?_⟩
    rw [hs]
    apply ValidateToken_absent
    rw [(NewService_sessions _ _ _ _ hnew).1]
    rfl


/-- C20 at the sample service, with a session store that keeps instants as they
are, with a state file, and with a session store whose columns hold
microseconds: the token of a login at instant 100 validates to the same Session
on a fresh service at instant 105; the token of a login at instant 1400 validates
at instant 2000 to the Session created at 1000 and expiring at 6000. -/
theorem session_state_round_trip_witness :
    ValidateToken (LoadSessionState (freshService (Login sampleSum256
        (sampleService (some sampleStore) ∅) "admin" "secret123" 100 sampleRead sampleRead
        0).2)).2 "000102030405060708090a0b0c0d0e0f101112131415161718191a1b1c1d1e1f" 105 =
        (.ok (loginSession (sampleService (some sampleStore) ∅) sampleAdmin
          "000102030405060708090a0b0c0d0e0f101112131415161718191a1b1c1d1e1f"
          "000102030405060708090a0b0c0d0e0f" 100),
          (LoadSessionState (freshService (Login sampleSum256
            (sampleService (some sampleStore) ∅) "admin" "secret123" 100 sampleRead sampleRead
            0).2)).2) ∧
      ValidateToken (LoadSessionState (freshService (Login sampleSum256 fileService "admin"
        "secret123" 100 sampleRead sampleRead 0).2)).2
        "000102030405060708090a0b0c0d0e0f101112131415161718191a1b1c1d1e1f" 105 =
        (.ok (loginSession fileService sampleAdmin
          "000102030405060708090a0b0c0d0e0f101112131415161718191a1b1c1d1e1f"
          "000102030405060708090a0b0c0d0e0f" 100),
          (LoadSessionState (freshService (Login sampleSum256 fileService "admin"
            "secret123" 100 sampleRead sampleRead 0).2)).2) ∧
      ValidateToken (LoadSessionState (freshService (Login sampleSum256 microService "admin"
        "secret123" 1400 sampleRead sampleRead 0).2)).2
        "000102030405060708090a0b0c0d0e0f101112131415161718191a1b1c1d1e1f" 2000 =
        (.ok { loginSession microService sampleAdmin
            "000102030405060708090a0b0c0d0e0f101112131415161718191a1b1c1d1e1f"
            "000102030405060708090a0b0c0d0e0f" 1400 with
            CreatedAt := 1000, ExpiresAt := 6000 },
          (LoadSessionState (freshService (Login sampleSum256 microService "admin"
            "secret123" 1400 sampleRead sampleRead 0).2)).2) :=
  ⟨((session_state_round_trip sampleSum256 (sampleService (some sampleStore) ∅) "admin"
      "secret123" 100 sampleRead sampleRead 0
      (loginSession (sampleService (some sampleStore) ∅) sampleAdmin
        "000102030405060708090a0b0c0d0e0f101112131415161718191a1b1c1d1e1f"
        "000102030405060708090a0b0c0d0e0f" 100)
      (some (InMemoryUserStore.toUserStore ∅)) "pepper2" 5 _
      (Or.inl (by simp [sampleService])) (by decide) rfl).1 (by decide)).2.2 rfl rfl 105
        (by decide),
    ((session_state_round_trip sampleSum256 fileService "admin"
      "secret123" 100 sampleRead sampleRead 0
      (loginSession fileService sampleAdmin
        "000102030405060708090a0b0c0d0e0f101112131415161718191a1b1c1d1e1f"
        "000102030405060708090a0b0c0d0e0f" 100)
      (some (InMemoryUserStore.toUserStore ∅)) "pepper2" 5 _
      (Or.inr (by decide)) (by decide) rfl).1 (by decide)).2.2 rfl rfl 105 (by decide),
    ((session_state_round_trip sampleSum256 microService "admin"
      "secret123" 1400 sampleRead sampleRead 0
      (loginSession microService sampleAdmin
        "000102030405060708090a0b0c0d0e0f101112131415161718191a1b1c1d1e1f"
        "000102030405060708090a0b0c0d0e0f" 1400)
      (some (InMemoryUserStore.toUserStore ∅)) "pepper2" 5 _
      (Or.inl (by simp [microService])) (by decide) rfl).1 (by decide)).1 2000 (by decide)⟩


/-! ## Construction and loading -/

theorem ListSessions_empty (s : Service) (now : Time) (h : s.sessions = ∅) :
    (ListSessions s now).1 = [] ∧ (ListSessions s now).2.sessions = ∅ := by
  have he : s.sessions.entries = [] := by rw [h]; rfl
  constructor
  · rw [ListSessions_fst, he]; rfl
  · rw [ListSessions_sessions, he]
    exact h

/-- C30: `NewService` fails if and only if the user store is nil, the password
pepper is empty, or the session TTL is `<= 0`; on success the new service has an
empty session table, so `ListSessions` returns no sessions and leaves the table
empty, and `ValidateToken` returns `ErrInvalidToken` for every token and leaves
the service as it is. -/
theorem NewService_fails_iff (userStore : Option UserStore) (cfg : ServiceConfig)
    (disk : Disk) :
    ((∃ e, NewService userStore cfg disk = .error e) ↔
        userStore = none ∨ cfg.PasswordPepper = "" ∨ cfg.SessionTTL ≤ 0) ∧
      (∀ s, NewService userStore cfg disk = .ok s →
        s.sessions = ∅ ∧
        (∀ now, (ListSessions s now).1 = [] ∧ (ListSessions s now).2.sessions = ∅) ∧
        (∀ t now, ValidateToken s t now = (.error .ErrInvalidToken, s))) := by
  unfold NewService
  cases userStore with
  | none =>
    refine ⟨⟨fun _ => Or.inl rfl, fun _ => ⟨_, rfl⟩⟩, ?_⟩
    intro s h
    exact Except.noConfusion h
  | some st =>
    simp only
    by_cases h1 : cfg.PasswordPepper = ""
    · rw [if_pos h1]
      refine ⟨⟨fun _ => Or.inr (Or.inl h1), fun _ => ⟨_, rfl⟩⟩, ?_⟩
      intro s h
      exact Except.noConfusion h
    · rw [if_neg h1]
      by_cases h2 : cfg.SessionTTL ≤ 0
      · rw [if_pos h2]
        refine ⟨⟨fun _ => Or.inr (Or.inr h2), fun _ => ⟨_, rfl⟩⟩, ?_⟩
        intro s h
        exact Except.noConfusion h
      · rw [if_neg h2]
        constructor
        · constructor
          · rintro ⟨e, he⟩
            exact Except.noConfusion he
          · rintro (h | h | h)
            · exact Option.noConfusion h
            · exact absurd h h1
            · exact absurd h h2
        · intro s h
          have hs : s.sessions = ∅ := by
            rw [← Except.ok.inj h]
          refine ⟨hs, fun now => ListSessions_empty s now hs, ?_⟩
          intro t now
          apply ValidateToken_absent
          rw [hs]
          rfl

/-- C30 at sample configurations: an empty pepper and a TTL of 0 are refused, and
the service built for pepper `pepper`, TTL 10 lists nothing and knows no token. -/
theorem NewService_fails_iff_witness :
    (∃ e, NewService (some (InMemoryUserStore.toUserStore ∅))
        { PasswordPepper := "", SessionTTL := 10, SessionStateFile := "",
          SessionStore := none } sampleDisk = .error e) ∧
      (∃ e, NewService (some (InMemoryUserStore.toUserStore ∅))
        { PasswordPepper := "pepper", SessionTTL := 0, SessionStateFile := "",
          SessionStore := none } sampleDisk = .error e) ∧
      (ListSessions (sampleService none ∅) 5).1 = [] ∧
      ValidateToken (sampleService none ∅) "t1" 5 =
        (.error .ErrInvalidToken, sampleService none ∅) :=
  ⟨(NewService_fails_iff (some (InMemoryUserStore.toUserStore ∅))
      { PasswordPepper := "", SessionTTL := 10, SessionStateFile := "",
        SessionStore := none } sampleDisk).1.mpr (Or.inr (Or.inl rfl)),
    (NewService_fails_iff (some (InMemoryUserStore.toUserStore ∅))
      { PasswordPepper := "pepper", SessionTTL := 0, SessionStateFile := "",
        SessionStore := none } sampleDisk).1.mpr (Or.inr (Or.inr (by decide))),
    (((NewService_fails_iff (some (InMemoryUserStore.toUserStore (AList.insert "admin"
      sampleAdmin ∅)))
      { PasswordPepper := "pepper", SessionTTL := 10, SessionStateFile := "",
        SessionStore := none } sampleDisk).2 (sampleService none ∅) rfl).2.1 5).1,
    ((NewService_fails_iff (some (InMemoryUserStore.toUserStore (AList.insert "admin"
      sampleAdmin ∅)))
      { PasswordPepper := "pepper", SessionTTL := 10, SessionStateFile := "",
        SessionStore := none } sampleDisk).2 (sampleService none ∅) rfl).2.2 "t1" 5⟩

/-- C21 as stated fails: on a service that holds sessions and has neither a
session store nor a state file, `LoadSessionState` succeeds and the table is not
the empty table: the session under `t1` is still there. -/
theorem LoadSessionState_keeps_table_counterexample :
    ¬ (∀ s : Service, s.sessionStore = none → s.stateFile = "" →
        (LoadSessionState s).1 = none ∧ ∀ k, (LoadSessionState s).2.sessions.lookup k = none) := by
  intro h
  have h1 := (h (sampleService none sampleTable) rfl rfl).2 "t1"
  revert h1
  decide

/-- C21, amended: after a successful `LoadSessionState` the session table equals
exactly what the backend's `Load` returns (the table decoded from the state file
when there is no session store), whatever was in memory before; when no
persisted state exists yet (no state file configured, missing file or empty
file) the call succeeds and leaves the table as it was, which is the empty table
on a service fresh from `NewService`. -/
theorem LoadSessionState_replaces_table (s : Service) :
    (∀ store state, s.sessionStore = some store → store.Load = .ok state →
        LoadSessionState s = (none, s.setSessions state)) ∧
      (∀ state, s.sessionStore = none → s.stateFile ≠ "" →
        s.disk.file = some (.json state) → s.disk.readErr = none →
        LoadSessionState s = (none, s.setSessions state)) ∧
      (s.sessionStore = none →
        s.stateFile = "" ∨ s.disk.file = none ∨
          (s.disk.file = some .empty ∧ s.disk.readErr = none) →
        LoadSessionState s = (none, s)) ∧
      ((LoadSessionState s).1 = none →
        (∃ store, s.sessionStore = some store ∧
          store.Load = .ok (LoadSessionState s).2.sessions) ∨
        (s.sessionStore = none ∧ s.disk.file = some (.json (LoadSessionState s).2.sessions)) ∨
        (s.sessionStore = none ∧ (LoadSessionState s).2 = s)) := by
  refine ⟨?_, ?_, ?_, ?_⟩
  · intro store state hst hl
    unfold LoadSessionState
    simp only [hst, hl]
  · intro state hst hf hfile hre
    unfold LoadSessionState
    simp only [hst, hf, if_false, hfile, hre]
  · intro hst h
    unfold LoadSessionState
    simp only [hst]
    by_cases hf : s.stateFile = ""
    · rw [if_pos hf]
    · rw [if_neg hf]
      rcases h with h | h | ⟨h, hre⟩
      · exact absurd h hf
      · simp only [h]
      · simp only [h, hre]
  · intro h
    unfold LoadSessionState at h ⊢
    cases hst : s.sessionStore with
    | some store =>
      simp only [hst] at h ⊢
      cases hl : store.Load with
      | error e => simp [hl] at h
      | ok state => exact Or.inl ⟨store, rfl, by simpa [Service.setSessions] using hl⟩
    | none =>
      simp only [hst] at h ⊢
      refine Or.inr ?_
      by_cases hf : s.stateFile = ""
      · rw [if_pos hf]
        exact Or.inr ⟨trivial, rfl⟩
      · rw [if_neg hf] at h ⊢
        cases hfile : s.disk.file with
        | none => exact Or.inr ⟨trivial, rfl⟩
        | some data =>
          simp only [hfile] at h ⊢
          cases hre : s.disk.readErr with
          | some e => simp [hre] at h
          | none =>
            simp only [hre] at h ⊢
            cases data with
            | empty => exact Or.inr ⟨trivial, rfl⟩
            | malformed => simp at h
            | json state => exact Or.inl ⟨trivial, by simp [Service.setSessions]⟩


/-- C21, amended, at the sample service: loading from a session store that holds
the table with tokens `x1`, `x2` drops the in-memory `t1`; without a state file
the table stays as it was. -/
theorem LoadSessionState_replaces_table_witness :
    (LoadSessionState (sampleService (some { sampleStore with rows := sampleTableB })
        sampleTable)).2.sessions = sampleTableB ∧
      LoadSessionState (sampleService none sampleTable) =
        (none, sampleService none sampleTable) :=
  ⟨congrArg (fun r => r.2.sessions)
      ((LoadSessionState_replaces_table (sampleService
        (some { sampleStore with rows := sampleTableB }) sampleTable)).1
        { sampleStore with rows := sampleTableB } sampleTableB rfl rfl),
    (LoadSessionState_replaces_table (sampleService none sampleTable)).2.2.1 rfl
      (Or.inl rfl)⟩

/-! ## Tokens and identifiers -/

theorem hexDigit_mem (i : Nat) (h : i < 16) : hexDigit i ∈ hextable := by
  interval_cases i <;> decide

theorem EncodeToString_length (b : List Byte) : (EncodeToString b).length = 2 * b.length := by
  unfold EncodeToString
  show (b.flatMap fun v => [hexDigit (v.val / 16), hexDigit (v.val % 16)]).length = _
  induction b with
  | nil => rfl
  | cons x xs ih =>
    rw [List.flatMap_cons, List.length_append, ih, List.length_cons]
    simp only [List.length_cons, List.length_nil]
    omega

theorem EncodeToString_chars (b : List Byte) : ∀ c ∈ (EncodeToString b).data, c ∈ hextable := by
  unfold EncodeToString
  intro c hc
  simp only [List.mem_flatMap, List.mem_cons, List.mem_singleton, List.not_mem_nil,
    or_false] at hc
  obtain ⟨v, _, h | h⟩ := hc
  · rw [h]; exact hexDigit_mem _ (by have := v.isLt; omega)
  · rw [h]; exact hexDigit_mem _ (Nat.mod_lt _ (by decide))

theorem generateToken_ok (n : Int) (f : Nat → Byte) (h : 16 ≤ n) :
    generateToken n (.ok f) = .ok (EncodeToString ((List.range n.toNat).map f)) := by
  unfold generateToken
  rw [if_neg (not_lt.mpr h)]

theorem Login_success_session (Sum256 : String → List Byte) (s : Service) (n p : String)
    (now : Time) (rdToken rdID : RandRead) (unixNano : Int) (sess : Session)
    (h : (Login Sum256 s n p now rdToken rdID unixNano).1 = .ok sess) :
    ∃ u token, generateToken 32 rdToken = .ok token ∧
      sess = loginSession s u token (mustID 16 rdID unixNano) now := by
  unfold Login at h
  cases hu : s.users.GetByUsername n with
  | error e => simp [hu] at h
  | ok u =>
    simp only [hu] at h
    by_cases hv : VerifyPassword Sum256 s p u.PasswordHash = true
    · simp only [hv, Bool.not_true, Bool.false_eq_true, if_false] at h
      cases ht : generateToken 32 rdToken with
      | error e => simp [ht] at h
      | ok token =>
        simp only [ht] at h
        rcases hr : persistSessionsLocked (s.setSessions (s.sessions.insert token
          (loginSession s u token (mustID 16 rdID unixNano) now))) with ⟨e, s2⟩
        rw [hr] at h
        cases e with
        | some err => simp at h
        | none =>
          simp only [Except.ok.injEq] at h
          exact ⟨u, token, rfl, h.symm⟩
    · simp [hv] at h

/-- C25: `generateToken(n)` fails for every `n < 16`; for `n >= 16`, when the
random source delivers the bytes, it returns their lowercase hex encoding, a
string of exactly `2n` characters drawn from `0-9a-f` (and it returns the error of
the random source when that fails). Consequently every Session returned by
`Login` carries a token of 64 hex characters and, when the random source succeeds
for the session ID, an ID of 32 hex characters. -/
theorem generateToken_hex (n : Int) :
    (n < 16 → ∀ rd, ∃ e, generateToken n rd = .error e) ∧
      (16 ≤ n → ∀ f : Nat → Byte,
        generateToken n (.ok f) = .ok (EncodeToString ((List.range n.toNat).map f)) ∧
        ((EncodeToString ((List.range n.toNat).map f)).length : Int) = 2 * n ∧
        ∀ c ∈ (EncodeToString ((List.range n.toNat).map f)).data, c ∈ hextable) ∧
      (16 ≤ n → ∀ e, generateToken n (.error e) = .error e) ∧
      (∀ (Sum256 : String → List Byte) (s : Service) (u p : String) (now : Time)
        (rdToken rdID : RandRead) (unixNano : Int) (sess : Session),
        (Login Sum256 s u p now rdToken rdID unixNano).1 = .ok sess →
        sess.Token.length = 64 ∧ (∀ c ∈ sess.Token.data, c ∈ hextable) ∧
        (∀ f, rdID = .ok f → sess.ID.length = 32 ∧ ∀ c ∈ sess.ID.data, c ∈ hextable)) := by
  refine ⟨?_, ?_, ?_, ?_⟩
  · intro h rd
    unfold generateToken
    rw [if_pos h]
    exact ⟨_, rfl⟩
  · intro h f
    refine ⟨generateToken_ok n f h, ?_, EncodeToString_chars _⟩
    rw [EncodeToString_length, List.length_map, List.length_range]
    push_cast
    rw [Int.toNat_of_nonneg (by omega)]
  · intro h e
    unfold generateToken
    rw [if_neg (not_lt.mpr h)]
  · intro Sum256 s u p now rdToken rdID unixNano sess h
    obtain ⟨usr, token, htok, hs⟩ :=
      Login_success_session Sum256 s u p now rdToken rdID unixNano sess h
    subst hs
    have key : ∀ (m : Nat) (rd : RandRead) (t : String), generateToken (m : Int) rd = .ok t →
        16 ≤ m → t.length = 2 * m ∧ ∀ c ∈ t.data, c ∈ hextable := by
      intro m rd t ht hm
      cases rd with
      | error e =>
        unfold generateToken at ht
        rw [if_neg (by omega)] at ht
        exact Except.noConfusion ht
      | ok f =>
        rw [generateToken_ok _ f (by omega)] at ht
        rw [← Except.ok.inj ht]
        refine ⟨?_, EncodeToString_chars _⟩
        rw [EncodeToString_length, List.length_map, List.length_range]
        simp
    have h1 := key 32 rdToken token htok (by decide)
    refine ⟨h1.1, h1.2, ?_⟩
    intro f hf
    subst hf
    have h2 : mustID 16 (.ok f) unixNano = EncodeToString ((List.range 16).map f) := by
      unfold mustID
      rw [generateToken_ok 16 f (by decide)]
      rfl
    show (mustID 16 (.ok f) unixNano).length = 32 ∧ ∀ c ∈ (mustID 16 (.ok f) unixNano).data, _
    rw [h2]
    refine ⟨?_, EncodeToString_chars _⟩
    rw [EncodeToString_length, List.length_map, List.length_range]

/-- C25 at the sample random source: 15 bytes are refused, 16 bytes give 32 hex
characters, and the sample login returns a token of 64 characters. -/
theorem generateToken_hex_witness :
    (∃ e, generateToken 15 sampleRead = .error e) ∧
      generateToken 16 sampleRead = .ok "000102030405060708090a0b0c0d0e0f" ∧
      (loginSession (sampleService (some sampleStore) ∅) sampleAdmin
        "000102030405060708090a0b0c0d0e0f101112131415161718191a1b1c1d1e1f"
        "000102030405060708090a0b0c0d0e0f" 100).Token.length = 64 :=
  ⟨(generateToken_hex 15).1 (by decide) sampleRead,
    ((generateToken_hex 16).2.1 (by decide) (fun i => Fin.ofNat i)).1.trans (by decide),
    ((generateToken_hex 0).2.2.2 sampleSum256 (sampleService (some sampleStore) ∅) "admin"
      "secret123" 100 sampleRead sampleRead 0 _ (by decide)).1⟩


/-! ## The length bounds of the password policy -/

theorem validatePasswordPolicy_accepts (U : Unicode) (p : String)
    (h1 : ∀ c ∈ p.data.head?, U.IsSpace c = false)
    (h2 : ∀ c ∈ p.data.getLast?, U.IsSpace c = false)
    (h3 : 12 ≤ p.utf8ByteSize) (h4 : p.utf8ByteSize ≤ 128)
    (hu : p.data.any U.IsUpper = true) (hl : p.data.any U.IsLower = true)
    (hd : p.data.any U.IsDigit = true)
    (hs : (p.data.any fun r => U.IsPunct r || U.IsSymbol r) = true) :
    validatePasswordPolicy U p = none := by
  have ht := (TrimSpace_eq_self_iff U p).mpr ⟨h1, h2⟩
  unfold validatePasswordPolicy
  rw [policyLoop_eq, hu, hl, hd, hs]
  dsimp only [minPasswordLength, maxPasswordLength]
  rw [if_neg (not_not_intro ht), if_neg (by omega)]
  rfl

theorem validatePasswordPolicy_too_long (U : Unicode) (p : String)
    (h : 128 < p.utf8ByteSize) : validatePasswordPolicy U p = some .ErrWeakPassword := by
  unfold validatePasswordPolicy
  dsimp only [minPasswordLength, maxPasswordLength]
  by_cases ht : TrimSpace U p = p
  · rw [if_neg (not_not_intro ht), if_pos (Or.inr h)]
  · rw [if_pos ht]

theorem any_of_mem_category {U : Unicode} {l : List Char} {c : Char} (hc : c ∈ l) :
    (U.category c = .Lu → l.any U.IsUpper = true) ∧
      (U.category c = .Ll → l.any U.IsLower = true) ∧
      (U.category c = .Nd → l.any U.IsDigit = true) ∧
      (U.category c = .P → (l.any fun r => U.IsPunct r || U.IsSymbol r) = true) := by
  refine ⟨fun h => List.any_eq_true.mpr ⟨c, hc, ?_⟩, fun h => List.any_eq_true.mpr ⟨c, hc, ?_⟩,
    fun h => List.any_eq_true.mpr ⟨c, hc, ?_⟩, fun h => List.any_eq_true.mpr ⟨c, hc, ?_⟩⟩
  · unfold Unicode.IsUpper; rw [h]; rfl
  · unfold Unicode.IsLower; rw [h]; rfl
  · unfold Unicode.IsDigit; rw [h]; rfl
  · unfold Unicode.IsPunct; rw [h]; rfl

/-- C28: `validatePasswordPolicy` measures the bounds 12 and 128 in UTF-8 bytes,
not in characters. With `A`, `a`, `1`, `!` classed as upper, lower, digit and
punctuation and `A`, `é` not white space (as in package `unicode`): the password
`Aa1!éééé` of 8 characters and 12 bytes is accepted; and `Aa1!` followed by 64
times `é`, 68 characters and 132 bytes, without outer white space and with a
character of every class, is rejected. -/
theorem validatePasswordPolicy_counts_bytes (U : Unicode)
    (hA : U.category 'A' = .Lu) (ha : U.category 'a' = .Ll) (h1 : U.category '1' = .Nd)
    (hb : U.category '!' = .P) (hsA : U.IsSpace 'A' = false) (hse : U.IsSpace 'é' = false) :
    ("Aa1!éééé".length = 8 ∧ "Aa1!éééé".utf8ByteSize = 12 ∧
        validatePasswordPolicy U "Aa1!éééé" = none) ∧
      (longPassword.length = 68 ∧ longPassword.utf8ByteSize = 132 ∧
        (∀ c ∈ longPassword.data.head?, U.IsSpace c = false) ∧
        (∀ c ∈ longPassword.data.getLast?, U.IsSpace c = false) ∧
        (∃ r ∈ longPassword.data, U.IsUpper r = true) ∧
        (∃ r ∈ longPassword.data, U.IsLower r = true) ∧
        (∃ r ∈ longPassword.data, U.IsDigit r = true) ∧
        (∃ r ∈ longPassword.data, U.IsPunct r = true) ∧
        validatePasswordPolicy U longPassword = some .ErrWeakPassword) := by
  have mA : 'A' ∈ "Aa1!éééé".data := by decide
  have ma : 'a' ∈ "Aa1!éééé".data := by decide
  have m1 : '1' ∈ "Aa1!éééé".data := by decide
  have mb : '!' ∈ "Aa1!éééé".data := by decide
  have lA : 'A' ∈ longPassword.data := by decide
  have la : 'a' ∈ longPassword.data := by decide
  have l1 : '1' ∈ longPassword.data := by decide
  have lb : '!' ∈ longPassword.data := by decide
  refine ⟨⟨by decide, by decide, ?_⟩, by decide, by decide, ?_, ?_, ?_, ?_, ?_, ?_, ?_⟩
  · apply validatePasswordPolicy_accepts
    · intro c hc
      have : c = 'A' := by
        have h0 : "Aa1!éééé".data.head? = some 'A' := by decide
        rw [h0] at hc
        exact (Option.some.inj hc).symm
      rw [this]; exact hsA
    · intro c hc
      have : c = 'é' := by
        have h0 : "Aa1!éééé".data.getLast? = some 'é' := by decide
        rw [h0] at hc
        exact (Option.some.inj hc).symm
      rw [this]; exact hse
    · decide
    · decide
    · exact (any_of_mem_category mA).1 hA
    · exact (any_of_mem_category ma).2.1 ha
    · exact (any_of_mem_category m1).2.2.1 h1
    · exact (any_of_mem_category mb).2.2.2 hb
  · intro c hc
    have : c = 'A' := by
      have h0 : longPassword.data.head? = some 'A' := by decide
      rw [h0] at hc
      exact (Option.some.inj hc).symm
    rw [this]; exact hsA
  · intro c hc
    have : c = 'é' := by
      have h0 : longPassword.data.getLast? = some 'é' := by decide
      rw [h0] at hc
      exact (Option.some.inj hc).symm
    rw [this]; exact hse
  · exact ⟨'A', lA, by unfold Unicode.IsUpper; rw [hA]; rfl⟩
  · exact ⟨'a', la, by unfold Unicode.IsLower; rw [ha]; rfl⟩
  · exact ⟨'1', l1, by unfold Unicode.IsDigit; rw [h1]; rfl⟩
  · exact ⟨'!', lb, by unfold Unicode.IsPunct; rw [hb]; rfl⟩
  · exact validatePasswordPolicy_too_long U _ (by decide)

/-- C28 under the ASCII sample tables. -/
theorem validatePasswordPolicy_counts_bytes_witness :
    validatePasswordPolicy asciiUnicode "Aa1!éééé" = none ∧
      validatePasswordPolicy asciiUnicode longPassword = some .ErrWeakPassword :=
  have h := validatePasswordPolicy_counts_bytes asciiUnicode (by decide) (by decide)
    (by decide) (by decide) (by decide) (by decide)
  ⟨h.1.2.2, h.2.2.2.2.2.2.2.2.2⟩


/-! ## User stores -/

theorem insert_length_of_mem {β : Type} (m : AList (fun _ : String => β)) (k : String) (v : β)
    (h : k ∈ m) : (m.insert k v).entries.length = m.entries.length := by
  have h1 : (m.insert k v).keys.length = m.keys.length := by
    rw [AList.keys_insert, List.length_cons, List.length_erase_of_mem (AList.mem_keys.mp h)]
    have : 0 < m.keys.length := List.length_pos_of_mem (AList.mem_keys.mp h)
    omega
  simpa [AList.keys, List.keys] using h1

theorem FileUserStore_persist_users (s : FileUserStore) :
    (FileUserStore.persistLocked s).2.users = s.users := by
  unfold FileUserStore.persistLocked
  dsimp only
  cases s.disk.encodeErr (s.users.entries.map fun e => e.2) with
  | some e => rfl
  | none =>
    cases s.disk.mkdirErr with
    | some e => rfl
    | none =>
      cases s.disk.writeErr with
      | some e => rfl
      | none => rfl

/-- C23: for the in-memory and the file-backed user store, `Put` is an upsert
keyed by the exact username. After `Put(u)` (for the file-backed store whether or
not the file could be written) `GetByUsername(u.Username)` returns `u`; when the
username was already stored the number of records is unchanged (the record is
replaced, not added); and `GetByUsername` of every other username, also one that
differs only in letter case, answers as before, `ErrUserNotFound` if it was not
stored. -/
theorem Put_upserts_by_username (m : InMemoryUserStore) (s : FileUserStore) (u : User) :
    ((InMemoryUserStore.Put m u).1 = none ∧
        (InMemoryUserStore.Put m u).2.GetByUsername u.Username = .ok u ∧
        (u.Username ∈ m →
          (InMemoryUserStore.Put m u).2.entries.length = m.entries.length) ∧
        (∀ n, n ≠ u.Username →
          (InMemoryUserStore.Put m u).2.GetByUsername n = m.GetByUsername n) ∧
        (∀ n, n ≠ u.Username → n ∉ m →
          (InMemoryUserStore.Put m u).2.GetByUsername n = .error .ErrUserNotFound)) ∧
      ((FileUserStore.Put s u).2.GetByUsername u.Username = .ok u ∧
        (u.Username ∈ s.users →
          (FileUserStore.Put s u).2.users.entries.length = s.users.entries.length) ∧
        (∀ n, n ≠ u.Username →
          (FileUserStore.Put s u).2.GetByUsername n = s.GetByUsername n) ∧
        (∀ n, n ≠ u.Username → n ∉ s.users →
          (FileUserStore.Put s u).2.GetByUsername n = .error .ErrUserNotFound)) := by
  have hfile : (FileUserStore.Put s u).2.users = s.users.insert u.Username u := by
    unfold FileUserStore.Put
    rw [FileUserStore_persist_users]
  refine ⟨⟨rfl, ?_, ?_, ?_, ?_⟩, ?_, ?_, ?_, ?_⟩
  · unfold InMemoryUserStore.Put InMemoryUserStore.GetByUsername
    simp only [AList.lookup_insert]
  · intro h
    exact insert_length_of_mem m _ u h
  · intro n hn
    unfold InMemoryUserStore.Put InMemoryUserStore.GetByUsername
    simp only [AList.lookup_insert_ne hn]
  · intro n hn hm
    unfold InMemoryUserStore.Put InMemoryUserStore.GetByUsername
    simp only [AList.lookup_insert_ne hn, AList.lookup_eq_none.mpr hm]
  · unfold FileUserStore.GetByUsername
    rw [hfile]
    simp only [AList.lookup_insert]
  · intro h
    rw [hfile]
    exact insert_length_of_mem _ _ u h
  · intro n hn
    unfold FileUserStore.GetByUsername
    rw [hfile]
    simp only [AList.lookup_insert_ne hn]
  · intro n hn hm
    unfold FileUserStore.GetByUsername
    rw [hfile]
    simp only [AList.lookup_insert_ne hn, AList.lookup_eq_none.mpr hm]

/-- C23 at sample stores holding `admin`: a `Put` of `admin` with another ID
replaces the record (still one record), and `Admin` stays unknown; on the
file-backed store this holds although the write to the file fails. -/
theorem Put_upserts_by_username_witness :
    (InMemoryUserStore.Put (AList.insert "admin" sampleAdmin ∅)
        { sampleAdmin with ID := "u-2" }).2.GetByUsername "admin" =
        .ok { sampleAdmin with ID := "u-2" } ∧
      (InMemoryUserStore.Put (AList.insert "admin" sampleAdmin ∅)
        { sampleAdmin with ID := "u-2" }).2.entries.length = 1 ∧
      (FileUserStore.Put (FileUserStore.Put (sampleFileStore failingUserDisk) sampleAdmin).2
        { sampleAdmin with ID := "u-2" }).2.GetByUsername "Admin" =
        .error .ErrUserNotFound :=
  have h := Put_upserts_by_username (AList.insert "admin" sampleAdmin ∅)
    (FileUserStore.Put (sampleFileStore failingUserDisk) sampleAdmin).2
    { sampleAdmin with ID := "u-2" }
  ⟨h.1.2.1, (h.1.2.2.1 (by decide)).trans (by decide),
    h.2.2.2.2 "Admin" (by decide) (by decide)⟩

/-- C22 fails on the code: on a file system without failures, `Put` of the user
`admin` (whose hash verifies `secret123`) on a fresh file-backed store succeeds
and the store returns the user with its hash; a fresh `FileUserStore` on the same
path is constructed without error and returns for `admin` a user with the same
ID, Username and Roles but an empty `PasswordHash`, against which `secret123` no
longer verifies. -/
theorem FileUserStore_restart_loses_hash :
    NewFileUserStore asciiUnicode "users.json" sampleUserDisk =
        .ok (sampleFileStore sampleUserDisk) ∧
      (FileUserStore.Put (sampleFileStore sampleUserDisk) sampleAdmin).1 = none ∧
      (FileUserStore.Put (sampleFileStore sampleUserDisk) sampleAdmin).2.GetByUsername "admin"
        = .ok sampleAdmin ∧
      VerifyPassword sampleSum256 (sampleService none ∅) "secret123"
        sampleAdmin.PasswordHash = true ∧
      (NewFileUserStore asciiUnicode "users.json"
          (FileUserStore.Put (sampleFileStore sampleUserDisk) sampleAdmin).2.disk).bind
        (fun s2 => s2.GetByUsername "admin") =
        .ok { ID := "u-1", Username := "admin", PasswordHash := "", Roles := ["admin"] } ∧
      VerifyPassword sampleSum256 (sampleService none ∅) "secret123" "" = false := by
  refine ⟨rfl, by decide, by decide, by decide, by decide, by decide⟩


/-! ## The invariant of the session table -/

theorem persist_ttl (s : Service) : (persistSessionsLocked s).2.ttl = s.ttl := by
  unfold persistSessionsLocked
  repeat' split
  all_goals rfl

theorem lookup_of_erase (m : SessionMap) (t k : String) (y : Session)
    (h : (m.erase t).lookup k = some y) : m.lookup k = some y := by
  by_cases hk : k = t
  · rw [hk, AList.lookup_erase] at h
    exact Option.noConfusion h
  · rw [AList.lookup_erase_ne hk] at h
    exact h

theorem persist_erase_entries (s : Service) (t : String) :
    (persistSessionsLocked (s.setSessions (s.sessions.erase t))).2.ttl = s.ttl ∧
      ∀ k y, (persistSessionsLocked (s.setSessions (s.sessions.erase t))).2.sessions.lookup k =
        some y → s.sessions.lookup k = some y := by
  refine ⟨persist_ttl _, ?_⟩
  intro k y h
  rw [persist_sessions] at h
  exact lookup_of_erase _ _ _ _ h

theorem Login_entries (Sum256 : String → List Byte) (s : Service) (n p : String)
    (now : Time) (rdToken rdID : RandRead) (unixNano : Int)
    (fresh : ∀ token, generateToken 32 rdToken = .ok token → token ∉ s.sessions) :
    (Login Sum256 s n p now rdToken rdID unixNano).2.ttl = s.ttl ∧
      ∀ k y, (Login Sum256 s n p now rdToken rdID unixNano).2.sessions.lookup k = some y →
        s.sessions.lookup k = some y ∨
        (s.sessions.lookup k = none ∧ y.Token = k ∧ y.ExpiresAt = y.CreatedAt + s.ttl) := by
  unfold Login
  cases hu : s.users.GetByUsername n with
  | error e => exact ⟨rfl, fun k y h => Or.inl h⟩
  | ok u =>
    simp only
    by_cases hv : VerifyPassword Sum256 s p u.PasswordHash = true
    · simp only [hv, Bool.not_true, Bool.false_eq_true, if_false]
      cases ht : generateToken 32 rdToken with
      | error e => exact ⟨rfl, fun k y h => Or.inl h⟩
      | ok token =>
        simp only
        have hs := persist_sessions (s.setSessions (s.sessions.insert token
          (loginSession s u token (mustID 16 rdID unixNano) now)))
        have htl := persist_ttl (s.setSessions (s.sessions.insert token
          (loginSession s u token (mustID 16 rdID unixNano) now)))
        rcases hr : persistSessionsLocked (s.setSessions (s.sessions.insert token
          (loginSession s u token (mustID 16 rdID unixNano) now))) with ⟨e, s2⟩
        rw [hr] at hs htl
        simp only at hs htl
        have hs2 : s2.sessions = s.sessions.insert token
            (loginSession s u token (mustID 16 rdID unixNano) now) := hs
        have htl2 : s2.ttl = s.ttl := htl
        cases e with
        | some err =>
          refine ⟨htl2, ?_⟩
          intro k y h
          have h1 : (s2.sessions.erase token).lookup k = some y := h
          have h2 := lookup_of_erase _ _ _ _ h1
          by_cases hk : k = token
          · rw [hk, AList.lookup_erase] at h1
            exact Option.noConfusion h1
          · rw [hs2, AList.lookup_insert_ne hk] at h2
            exact Or.inl h2
        | none =>
          refine ⟨htl2, ?_⟩
          intro k y h
          have h1 : s2.sessions.lookup k = some y := h
          rw [hs2] at h1
          by_cases hk : k = token
          · rw [hk, AList.lookup_insert] at h1
            have hy := Option.some.inj h1
            refine Or.inr ⟨?_, ?_, ?_⟩
            · rw [hk]; exact AList.lookup_eq_none.mpr (fresh token ht)
            · rw [← hy, hk]; rfl
            · rw [← hy]; rfl
          · rw [AList.lookup_insert_ne hk] at h1
            exact Or.inl h1
    · rw [Bool.not_eq_true] at hv
      rw [hv]
      exact ⟨rfl, fun k y h => Or.inl h⟩

theorem ValidateToken_entries (s : Service) (t : String) (now : Time) :
    (ValidateToken s t now).2.ttl = s.ttl ∧
      ∀ k y, (ValidateToken s t now).2.sessions.lookup k = some y →
        s.sessions.lookup k = some y := by
  cases hl : s.sessions.lookup t with
  | none =>
    rw [ValidateToken_absent s t now hl]
    exact ⟨rfl, fun k y h => h⟩
  | some sess =>
    by_cases hn : sess.ExpiresAt < now
    · rw [ValidateToken_expired s t sess now hl hn]
      exact persist_erase_entries s t
    · rw [ValidateToken_active s t sess now hl hn]
      exact ⟨rfl, fun k y h => h⟩

theorem Logout_entries (s : Service) (t : String) :
    (Logout s t).2.ttl = s.ttl ∧
      ∀ k y, (Logout s t).2.sessions.lookup k = some y → s.sessions.lookup k = some y := by
  cases hl : s.sessions.lookup t with
  | none =>
    rw [Logout_absent s t hl]
    exact ⟨rfl, fun k y h => h⟩
  | some sess =>
    rw [Logout_present s t sess hl]
    exact persist_erase_entries s t

theorem RevokeSessionByID_entries (s : Service) (id : String) :
    (RevokeSessionByID s id).2.ttl = s.ttl ∧
      ∀ k y, (RevokeSessionByID s id).2.sessions.lookup k = some y →
        s.sessions.lookup k = some y := by
  by_cases hf : findTokenByID s.sessions.entries id = ""
  · have : RevokeSessionByID s id = (some .ErrInvalidToken, s) := by
      unfold RevokeSessionByID
      simp only [hf, if_true]
    rw [this]
    exact ⟨rfl, fun k y h => h⟩
  · rw [RevokeSessionByID_found s id _ rfl hf]
    exact persist_erase_entries s _

theorem ListSessions_entries (s : Service) (now : Time) :
    (ListSessions s now).2.ttl = s.ttl ∧
      ∀ k y, (ListSessions s now).2.sessions.lookup k = some y →
        s.sessions.lookup k = some y := by
  constructor
  · rw [ListSessions_snd]
    split
    · exact persist_ttl _
    · rfl
  · intro k y h
    exact ((ListSessions_lookup s now k y).mp h).1

theorem ChangePassword_entries (U : Unicode) (Sum256 : String → List Byte) (s : Service)
    (token cur new : String) (now : Time) :
    (ChangePassword U Sum256 s token cur new now).2.ttl = s.ttl ∧
      ∀ k y, (ChangePassword U Sum256 s token cur new now).2.sessions.lookup k = some y →
        s.sessions.lookup k = some y := by
  cases hpol : validatePasswordPolicy U new with
  | some e =>
    rw [ChangePassword_weak U Sum256 s token cur new now (by rw [hpol]; simp)]
    exact ⟨rfl, fun k y h => h⟩
  | none =>
    cases hl : s.sessions.lookup token with
    | none =>
      rw [ChangePassword_absent U Sum256 s token cur new now hpol hl]
      exact ⟨rfl, fun k y h => h⟩
    | some sess =>
      by_cases hn : sess.ExpiresAt < now
      · rw [ChangePassword_expired U Sum256 s token cur new now sess hpol hl hn]
        exact persist_erase_entries s token
      · rw [ChangePassword_active U Sum256 s token cur new now sess hpol hl hn]
        cases s.users.GetByUsername sess.Username with
        | error e => exact ⟨rfl, fun k y h => h⟩
        | ok user =>
          simp only
          split
          · exact ⟨rfl, fun k y h => h⟩
          · rcases s.users.Put { user with PasswordHash := HashPassword Sum256 s new }
              with ⟨e, st⟩
            cases e <;> exact ⟨rfl, fun k y h => h⟩

theorem Step_entries (U : Unicode) (Sum256 : String → List Byte) (s s1 : Service)
    (h : Step U Sum256 s s1) :
    s1.ttl = s.ttl ∧
      ∀ k y, s1.sessions.lookup k = some y →
        s.sessions.lookup k = some y ∨
        (s.sessions.lookup k = none ∧ y.Token = k ∧ y.ExpiresAt = y.CreatedAt + s.ttl) := by
  cases h with
  | login n p now rdToken rdID unixNano fresh =>
    exact Login_entries Sum256 s n p now rdToken rdID unixNano fresh
  | validateToken t now =>
    exact ⟨(ValidateToken_entries s t now).1,
      fun k y h => Or.inl ((ValidateToken_entries s t now).2 k y h)⟩
  | logout t =>
    exact ⟨(Logout_entries s t).1, fun k y h => Or.inl ((Logout_entries s t).2 k y h)⟩
  | revokeToken t =>
    exact ⟨(Logout_entries s t).1, fun k y h => Or.inl ((Logout_entries s t).2 k y h)⟩
  | revokeSessionByID id =>
    exact ⟨(RevokeSessionByID_entries s id).1,
      fun k y h => Or.inl ((RevokeSessionByID_entries s id).2 k y h)⟩
  | listSessions now =>
    exact ⟨(ListSessions_entries s now).1,
      fun k y h => Or.inl ((ListSessions_entries s now).2 k y h)⟩
  | changePassword token cur new now =>
    exact ⟨(ChangePassword_entries U Sum256 s token cur new now).1,
      fun k y h => Or.inl ((ChangePassword_entries U Sum256 s token cur new now).2 k y h)⟩

/-- C24: in every state reachable from an empty session table through `Login`
(each generating a token that is not yet in the table), `ValidateToken`,
`Logout`, `RevokeToken`, `RevokeSessionByID`, `ListSessions` and `ChangePassword`,
every entry `(k, x)` of the table has `x.Token = k` and
`x.ExpiresAt = x.CreatedAt + TTL`; and no operation changes the TTL or the
Session stored under an existing token: after it the token maps to the same
Session or is absent, so an expiry is never extended. -/
theorem session_table_invariant (U : Unicode) (Sum256 : String → List Byte) :
    (∀ s, Reachable U Sum256 s → ∀ k x, s.sessions.lookup k = some x →
        x.Token = k ∧ x.ExpiresAt = x.CreatedAt + s.ttl) ∧
      (∀ s s1, Step U Sum256 s s1 →
        s1.ttl = s.ttl ∧
        ∀ k x, s.sessions.lookup k = some x →
          s1.sessions.lookup k = some x ∨ s1.sessions.lookup k = none) := by
  constructor
  · intro s hs
    induction hs with
    | init s h =>
      intro k x hx
      rw [h] at hx
      exact Option.noConfusion hx
    | step s s1 _ st ih =>
      obtain ⟨httl, hent⟩ := Step_entries U Sum256 s s1 st
      intro k x hx
      rcases hent k x hx with h | ⟨_, h1, h2⟩
      · rw [httl]; exact ih k x h
      · rw [httl]; exact ⟨h1, h2⟩
  · intro s s1 st
    obtain ⟨httl, hent⟩ := Step_entries U Sum256 s s1 st
    refine ⟨httl, ?_⟩
    intro k x hx
    cases h1 : s1.sessions.lookup k with
    | none => exact Or.inr rfl
    | some y =>
      rcases hent k y h1 with h | ⟨h, _⟩
      · rw [hx] at h
        rw [Option.some.inj h]
        exact Or.inl rfl
      · rw [hx] at h
        exact Option.noConfusion h

/-- C24 at the sample service: after a login on the empty table and a logout of
another token, the entry under the generated token carries that token and
expires at its creation plus the TTL of 10. -/
theorem session_table_invariant_witness :
    (loginSession (sampleService (some sampleStore) ∅) sampleAdmin
        "000102030405060708090a0b0c0d0e0f101112131415161718191a1b1c1d1e1f"
        "000102030405060708090a0b0c0d0e0f" 100).Token =
        "000102030405060708090a0b0c0d0e0f101112131415161718191a1b1c1d1e1f" ∧
      (loginSession (sampleService (some sampleStore) ∅) sampleAdmin
        "000102030405060708090a0b0c0d0e0f101112131415161718191a1b1c1d1e1f"
        "000102030405060708090a0b0c0d0e0f" 100).ExpiresAt =
        (loginSession (sampleService (some sampleStore) ∅) sampleAdmin
          "000102030405060708090a0b0c0d0e0f101112131415161718191a1b1c1d1e1f"
          "000102030405060708090a0b0c0d0e0f" 100).CreatedAt +
          (Logout (Login sampleSum256 (sampleService (some sampleStore) ∅) "admin" "secret123"
            100 sampleRead sampleRead 0).2 "t9").2.ttl :=
  (session_table_invariant asciiUnicode sampleSum256).1 _
    (Reachable.step _ _
      (Reachable.step _ _ (Reachable.init (sampleService (some sampleStore) ∅) rfl)
        (Step.login _ "admin" "secret123" 100 sampleRead sampleRead 0
          (fun _ _ => AList.not_mem_empty _)))
      (Step.logout _ "t9"))
    "000102030405060708090a0b0c0d0e0f101112131415161718191a1b1c1d1e1f" _ (by decide)

end Auth

namespace HttpServer

/-! ## internal/httpserver: `extractBearerToken` -/

theorem SplitN2_no_space (s : String) (h : ' ' ∉ s.data) : SplitN2 s = [s] := by
  have hd : s.data.dropWhile (fun c => c != ' ') = [] := by
    rw [List.dropWhile_eq_nil_iff]
    intro c hc
    have : c ≠ ' ' := fun e => h (e ▸ hc)
    simpa using this
  unfold SplitN2
  rw [hd]

theorem SplitN2_of_split (scheme rest : List Char) (h : ' ' ∉ scheme) :
    SplitN2 (String.mk (scheme ++ ' ' :: rest)) = [String.mk scheme, String.mk rest] := by
  have hp : ∀ c ∈ scheme, (c != ' ') = true := by
    intro c hc
    have : c ≠ ' ' := fun e => h (e ▸ hc)
    simpa using this
  have hd : (scheme ++ ' ' :: rest).dropWhile (fun c => c != ' ') = ' ' :: rest := by
    rw [List.dropWhile_append_of_pos hp]
    simp
  have ht : (scheme ++ ' ' :: rest).takeWhile (fun c => c != ' ') = scheme := by
    rw [List.takeWhile_append_of_pos hp]
    simp
  unfold SplitN2
  show (match (scheme ++ ' ' :: rest).dropWhile (fun c => c != ' ') with
    | [] => [String.mk (scheme ++ ' ' :: rest)]
    | _ :: r => [String.mk ((scheme ++ ' ' :: rest).takeWhile fun c => c != ' '),
        String.mk r]) = _
  rw [hd, ht]

theorem SplitN2_cases (s : String) :
    (' ' ∉ s.data ∧ SplitN2 s = [s]) ∨
      ∃ scheme rest, s.data = scheme ++ ' ' :: rest ∧ ' ' ∉ scheme ∧
        SplitN2 s = [String.mk scheme, String.mk rest] := by
  by_cases h : ' ' ∈ s.data
  · right
    obtain ⟨a, b, hab⟩ := List.append_of_mem h
    clear h
    induction a generalizing s with
    | nil =>
      refine ⟨[], b, by simpa using hab, by simp, ?_⟩
      have : s = String.mk ([] ++ ' ' :: b) := by rw [String.ext_iff]; simpa using hab
      rw [this]
      exact SplitN2_of_split [] b (by simp)
    | cons x a ih =>
      by_cases hx : x = ' '
      · refine ⟨[], a ++ ' ' :: b, by simpa [hx] using hab, by simp, ?_⟩
        have : s = String.mk ([] ++ ' ' :: (a ++ ' ' :: b)) := by
          rw [String.ext_iff]; simpa [hx] using hab
        rw [this]
        exact SplitN2_of_split [] _ (by simp)
      · obtain ⟨scheme, rest, h1, h2, _⟩ := ih (String.mk (a ++ ' ' :: b)) rfl
        have h1 : a ++ ' ' :: b = scheme ++ ' ' :: rest := h1
        refine ⟨x :: scheme, rest, by rw [hab, List.cons_append, h1, List.cons_append], ?_, ?_⟩
        · intro hm
          rcases List.mem_cons.mp hm with e | e
          · exact hx e.symm
          · exact h2 e
        · have : s = String.mk ((x :: scheme) ++ ' ' :: rest) := by
            rw [String.ext_iff]
            show s.data = x :: scheme ++ ' ' :: rest
            rw [hab, List.cons_append, h1, List.cons_append]
          rw [this]
          refine SplitN2_of_split (x :: scheme) rest ?_
          intro hm
          rcases List.mem_cons.mp hm with e | e
          · exact hx e.symm
          · exact h2 e
  · exact Or.inl ⟨h, SplitN2_no_space s h⟩

theorem trimmed_ends (p : Char → Bool) (l : List Char) :
    (∀ c ∈ ((l.dropWhile p).rdropWhile p).head?, p c = false) ∧
      (∀ c ∈ ((l.dropWhile p).rdropWhile p).getLast?, p c = false) := by
  constructor
  · intro c hc
    obtain ⟨t, ht⟩ := List.rdropWhile_prefix p (l.dropWhile p)
    cases hr : (l.dropWhile p).rdropWhile p with
    | nil => rw [hr] at hc; simp at hc
    | cons x xs =>
      rw [hr] at hc ht
      have hxc : x = c := by simpa using hc
      have hh := List.head?_dropWhile_not p l
      rw [← ht] at hh
      simpa [hxc] using hh
  · intro c hc
    cases hr : (l.dropWhile p).rdropWhile p with
    | nil => rw [hr] at hc; simp at hc
    | cons x xs =>
      have hne : (l.dropWhile p).rdropWhile p ≠ [] := by rw [hr]; simp
      have hl := List.rdropWhile_last_not p (l.dropWhile p) hne
      rw [List.getLast?_eq_getLast _ hne] at hc
      have hcc : ((l.dropWhile p).rdropWhile p).getLast hne = c := by simpa using hc
      rw [hcc] at hl
      simpa using hl

theorem extractBearerToken_no_space (U : Auth.Unicode) (EqualFold : String → String → Bool)
    (h : String) (hs : ' ' ∉ h.data) :
    extractBearerToken U EqualFold h = .error "invalid authorization header" := by
  unfold extractBearerToken
  rw [SplitN2_no_space h hs]

theorem extractBearerToken_split (U : Auth.Unicode) (EqualFold : String → String → Bool)
    (scheme rest : List Char) (hs : ' ' ∉ scheme) :
    extractBearerToken U EqualFold (String.mk (scheme ++ ' ' :: rest)) =
      if EqualFold (String.mk scheme) "Bearer" = true ∧
          Auth.TrimSpace U (String.mk rest) ≠ "" then
        .ok (Auth.TrimSpace U (String.mk rest))
      else .error "invalid authorization header" := by
  unfold extractBearerToken
  rw [SplitN2_of_split scheme rest hs]
  by_cases h1 : EqualFold (String.mk scheme) "Bearer" = true <;>
    by_cases h2 : Auth.TrimSpace U (String.mk rest) = "" <;> simp [h1, h2]

/-- C29: `extractBearerToken(h)` succeeds if and only if `h` is a scheme without
a space, one space, and a remainder, where the scheme equals "Bearer" ignoring
letter case and the remainder is not blank; the token returned is that remainder
with the surrounding white space trimmed, so it is never empty and neither its
first nor its last character is white space; a header without a space and a
header whose scheme is not "Bearer" are rejected. -/
theorem extractBearerToken_iff (U : Auth.Unicode) (EqualFold : String → String → Bool)
    (h : String) :
    (∀ tok, extractBearerToken U EqualFold h = .ok tok ↔
      ∃ scheme rest, h.data = scheme ++ ' ' :: rest ∧ ' ' ∉ scheme ∧
        EqualFold (String.mk scheme) "Bearer" = true ∧
        Auth.TrimSpace U (String.mk rest) ≠ "" ∧
        tok = Auth.TrimSpace U (String.mk rest)) ∧
    (∀ tok, extractBearerToken U EqualFold h = .ok tok →
      tok ≠ "" ∧ (∀ c ∈ tok.data.head?, U.IsSpace c = false) ∧
        (∀ c ∈ tok.data.getLast?, U.IsSpace c = false)) ∧
    (' ' ∉ h.data →
      extractBearerToken U EqualFold h = .error "invalid authorization header") ∧
    (∀ scheme rest, h.data = scheme ++ ' ' :: rest → ' ' ∉ scheme →
      EqualFold (String.mk scheme) "Bearer" = false →
      extractBearerToken U EqualFold h = .error "invalid authorization header") ∧
    ((∀ tok, extractBearerToken U EqualFold h ≠ .ok tok) →
      extractBearerToken U EqualFold h = .error "invalid authorization header") := by
  have key : ∀ tok, extractBearerToken U EqualFold h = .ok tok ↔
      ∃ scheme rest, h.data = scheme ++ ' ' :: rest ∧ ' ' ∉ scheme ∧
        EqualFold (String.mk scheme) "Bearer" = true ∧
        Auth.TrimSpace U (String.mk rest) ≠ "" ∧
        tok = Auth.TrimSpace U (String.mk rest) := by
    intro tok
    constructor
    · intro hok
      rcases SplitN2_cases h with ⟨hs, _⟩ | ⟨scheme, rest, hd, hs, _⟩
      · rw [extractBearerToken_no_space U EqualFold h hs] at hok
        cases hok
      · have hh : h = String.mk (scheme ++ ' ' :: rest) := by rw [String.ext_iff]; exact hd
        rw [hh, extractBearerToken_split U EqualFold scheme rest hs] at hok
        by_cases hc : EqualFold (String.mk scheme) "Bearer" = true ∧
            Auth.TrimSpace U (String.mk rest) ≠ ""
        · rw [if_pos hc] at hok
          injection hok with hok
          exact ⟨scheme, rest, hd, hs, hc.1, hc.2, hok.symm⟩
        · rw [if_neg hc] at hok
          cases hok
    · rintro ⟨scheme, rest, hd, hs, he, ht, rfl⟩
      have hh : h = String.mk (scheme ++ ' ' :: rest) := by rw [String.ext_iff]; exact hd
      rw [hh, extractBearerToken_split U EqualFold scheme rest hs, if_pos ⟨he, ht⟩]
  refine ⟨key, ?_, extractBearerToken_no_space U EqualFold h, ?_, ?_⟩
  · intro tok hok
    obtain ⟨scheme, rest, _, _, _, ht, rfl⟩ := (key tok).mp hok
    exact ⟨ht, trimmed_ends U.IsSpace rest⟩
  · intro scheme rest hd hs he
    have hh : h = String.mk (scheme ++ ' ' :: rest) := by rw [String.ext_iff]; exact hd
    rw [hh, extractBearerToken_split U EqualFold scheme rest hs, if_neg]
    rw [he]
    simp
  · intro hno
    rcases SplitN2_cases h with ⟨hs, _⟩ | ⟨scheme, rest, hd, hs, _⟩
    · exact extractBearerToken_no_space U EqualFold h hs
    · have hh : h = String.mk (scheme ++ ' ' :: rest) := by rw [String.ext_iff]; exact hd
      have hn := hno (Auth.TrimSpace U (String.mk rest))
      rw [hh, extractBearerToken_split U EqualFold scheme rest hs] at hn ⊢
      by_cases hc : EqualFold (String.mk scheme) "Bearer" = true ∧
          Auth.TrimSpace U (String.mk rest) ≠ ""
      · rw [if_pos hc] at hn
        exact absurd rfl hn
      · rw [if_neg hc]

theorem extractBearerToken_iff_witness :
    extractBearerToken Auth.asciiUnicode asciiEqualFold "bearer  abc " = .ok "abc" ∧
      extractBearerToken Auth.asciiUnicode asciiEqualFold "Bearer" =
        .error "invalid authorization header" ∧
      extractBearerToken Auth.asciiUnicode asciiEqualFold "Basic abc" =
        .error "invalid authorization header" :=
  ⟨((extractBearerToken_iff Auth.asciiUnicode asciiEqualFold "bearer  abc ").1 "abc").mpr
      ⟨"bearer".data, " abc ".data, by decide, by decide, by decide, by decide, by decide⟩,
    (extractBearerToken_iff Auth.asciiUnicode asciiEqualFold "Bearer").2.2.1 (by decide),
    (extractBearerToken_iff Auth.asciiUnicode asciiEqualFold "Basic abc").2.2.2.1
      "Basic".data "abc".data (by decide) (by decide) (by decide)⟩

end HttpServer

namespace SqlProfile

/-! ## internal/sqlprofile: validation and CRUD -/

theorem validate_eq_none_iff (U : Auth.Unicode) (ToLower : String → String) (p : Profile) :
    validate U ToLower p = none ↔ ¬ Invalid U ToLower p := by
  unfold validate Invalid
  dsimp only
  by_cases h1 : Auth.TrimSpace U p.Name = ""
  · rw [if_pos h1]
    exact ⟨fun h => Option.noConfusion h, fun h => absurd (Or.inl h1) h⟩
  rw [if_neg h1]
  by_cases h2 : ToLower (Auth.TrimSpace U p.DBType) ∉ allowedDBTypes
  · rw [if_pos h2]
    exact ⟨fun h => Option.noConfusion h, fun h => absurd (Or.inr (Or.inl h2)) h⟩
  rw [if_neg h2]
  by_cases h3 : Auth.TrimSpace U p.Host = ""
  · rw [if_pos h3]
    exact ⟨fun h => Option.noConfusion h, fun h => absurd (Or.inr (Or.inr (Or.inl h3))) h⟩
  rw [if_neg h3]
  by_cases h4 : p.Port ≤ 0 ∨ p.Port > 65535
  · rw [if_pos h4]
    have h4b : ¬ (1 ≤ p.Port ∧ p.Port ≤ 65535) := by omega
    exact ⟨fun h => Option.noConfusion h, fun h => absurd (Or.inr (Or.inr (Or.inr (Or.inl h4b)))) h⟩
  rw [if_neg h4]
  by_cases h5 : Auth.TrimSpace U p.Database = ""
  · rw [if_pos h5]
    exact ⟨fun h => Option.noConfusion h,
      fun h => absurd (Or.inr (Or.inr (Or.inr (Or.inr (Or.inl h5))))) h⟩
  rw [if_neg h5]
  by_cases h6 : Auth.TrimSpace U p.Commands = ""
  · rw [if_pos h6]
    exact ⟨fun h => Option.noConfusion h,
      fun h => absurd (Or.inr (Or.inr (Or.inr (Or.inr (Or.inr h6))))) h⟩
  rw [if_neg h6]
  refine ⟨fun _ => ?_, fun _ => rfl⟩
  have h4b : 1 ≤ p.Port ∧ p.Port ≤ 65535 := by omega
  rintro (h | h | h | h | h | h)
  · exact h1 h
  · exact h2 h
  · exact h3 h
  · exact h h4b
  · exact h5 h
  · exact h6 h

theorem validate_some_Is (U : Auth.Unicode) (ToLower : String → String) (p : Profile)
    (e : Error) (h : validate U ToLower p = some e) : e.Is .ErrInvalidInput = true := by
  unfold validate at h
  dsimp only at h
  split_ifs at h <;> (injection h with h; subst h; rfl)

theorem persistLocked_memory (s : Service) (h : s.stateFile = "") :
    persistLocked s = (none, s) := by
  unfold persistLocked
  rw [if_pos h]

theorem persistLocked_profiles (s : Service) : (persistLocked s).2.profiles = s.profiles := by
  unfold persistLocked
  dsimp only
  split_ifs
  · rfl
  · cases s.disk.encodeErr _ with
    | some m => rfl
    | none =>
      cases s.disk.mkdirErr with
      | some m => rfl
      | none =>
        cases s.disk.writeErr with
        | some m => rfl
        | none => rfl

theorem persistLocked_stateFile (s : Service) :
    (persistLocked s).2.stateFile = s.stateFile := by
  unfold persistLocked
  dsimp only
  split_ifs
  · rfl
  · cases s.disk.encodeErr _ with
    | some m => rfl
    | none =>
      cases s.disk.mkdirErr with
      | some m => rfl
      | none =>
        cases s.disk.writeErr with
        | some m => rfl
        | none => rfl

theorem persistLocked_error_Is (s : Service) (e : Error) (h : (persistLocked s).1 = some e) :
    e.Is .ErrInvalidInput = false := by
  unfold persistLocked at h
  dsimp only at h
  by_cases hf : s.stateFile = ""
  · rw [if_pos hf] at h
    cases h
  · rw [if_neg hf] at h
    cases he : s.disk.encodeErr
        ((s.profiles.entries.map fun e => e.2).insertionSort
          fun a b => a.CreatedAt ≤ b.CreatedAt) with
    | some m => rw [he] at h; injection h with h; subst h; rfl
    | none =>
      rw [he] at h
      cases hm : s.disk.mkdirErr with
      | some m => rw [hm] at h; injection h with h; subst h; rfl
      | none =>
        rw [hm] at h
        cases hw : s.disk.writeErr with
        | some m => rw [hw] at h; injection h with h; subst h; rfl
        | none => rw [hw] at h; cases h

theorem generateID_error_Is (n : Int) (rd : RandRead) (e : Error)
    (h : generateID n rd = .error e) : e.Is .ErrInvalidInput = false := by
  unfold generateID at h
  split_ifs at h
  · injection h with h; subst h; rfl
  · cases rd with
    | error m => injection h with h; subst h; rfl
    | ok f => cases h

theorem Create_invalid (U : Auth.Unicode) (ToLower : String → String) (s : Service)
    (p : Profile) (rd : RandRead) (now : Auth.Time) (e : Error)
    (h : validate U ToLower p = some e) : Create U ToLower s p rd now = (.error e, s) := by
  unfold Create
  rw [h]

theorem Update_invalid (U : Auth.Unicode) (ToLower : String → String) (s : Service)
    (id : String) (p : Profile) (now : Auth.Time) (e : Error)
    (h : validate U ToLower p = some e) : Update U ToLower s id p now = (.error e, s) := by
  unfold Update
  rw [h]

theorem Create_valid_error_Is (U : Auth.Unicode) (ToLower : String → String) (s : Service)
    (p : Profile) (rd : RandRead) (now : Auth.Time) (e : Error)
    (hv : validate U ToLower p = none)
    (h : (Create U ToLower s p rd now).1 = .error e) : e.Is .ErrInvalidInput = false := by
  unfold Create at h
  rw [hv] at h
  dsimp only at h
  cases hg : generateID 12 rd with
  | error err =>
    rw [hg] at h
    injection h with h
    subst h
    have := generateID_error_Is 12 rd err hg
    simp [Error.Is, this]
  | ok id =>
    rw [hg] at h
    dsimp only at h
    rcases hp : persistLocked
      (s.setProfiles (s.profiles.insert (createdProfile U ToLower p id now).ID
        (createdProfile U ToLower p id now))) with ⟨o, s2⟩
    rw [hp] at h
    cases o with
    | none => cases h
    | some err =>
      injection h with h
      subst h
      exact persistLocked_error_Is _ _ (by rw [hp])

theorem Update_valid_error_Is (U : Auth.Unicode) (ToLower : String → String) (s : Service)
    (id : String) (p : Profile) (now : Auth.Time) (e : Error)
    (hv : validate U ToLower p = none)
    (h : (Update U ToLower s id p now).1 = .error e) : e.Is .ErrInvalidInput = false := by
  unfold Update at h
  rw [hv] at h
  dsimp only at h
  cases hl : s.profiles.lookup id with
  | none =>
    rw [hl] at h
    injection h with h
    subst h
    rfl
  | some existing =>
    rw [hl] at h
    dsimp only at h
    rcases hp : persistLocked
      (s.setProfiles (s.profiles.insert id (updatedProfile U ToLower existing p now)))
      with ⟨o, s2⟩
    rw [hp] at h
    cases o with
    | none => cases h
    | some err =>
      injection h with h
      subst h
      exact persistLocked_error_Is _ _ (by rw [hp])

/-- C26: `Create` returns an error that wraps `ErrInvalidInput` exactly when the
profile is invalid (name blank after trimming, trimmed lower-cased db_type not
one of mysql, mssql, pgsql, host blank, port outside 1..65535, database blank or
commands blank), and then the service is left as it was; `Update` runs the same
validation before it looks the id up: for an invalid profile it returns the same
error as `Create` whatever the id, leaving the service as it was, and its error
wraps `ErrInvalidInput` exactly when the profile is invalid. -/
theorem Create_invalid_input_iff (U : Auth.Unicode) (ToLower : String → String)
    (s : Service) (p : Profile) (rd : RandRead) (now : Auth.Time) :
    ((∃ e, (Create U ToLower s p rd now).1 = .error e ∧ e.Is .ErrInvalidInput = true) ↔
      Invalid U ToLower p) ∧
    (Invalid U ToLower p → ∃ e, validate U ToLower p = some e ∧
      e.Is .ErrInvalidInput = true ∧ Create U ToLower s p rd now = (.error e, s) ∧
      ∀ id, Update U ToLower s id p now = (.error e, s)) ∧
    (∀ id, (∃ e, (Update U ToLower s id p now).1 = .error e ∧
      e.Is .ErrInvalidInput = true) ↔ Invalid U ToLower p) := by
  have hinv : Invalid U ToLower p → ∃ e, validate U ToLower p = some e ∧
      e.Is .ErrInvalidInput = true ∧ Create U ToLower s p rd now = (.error e, s) ∧
      ∀ id, Update U ToLower s id p now = (.error e, s) := by
    intro hi
    cases hv : validate U ToLower p with
    | none => exact absurd hi ((validate_eq_none_iff U ToLower p).mp hv)
    | some e =>
      exact ⟨e, rfl, validate_some_Is U ToLower p e hv, Create_invalid U ToLower s p rd now e hv,
        fun id => Update_invalid U ToLower s id p now e hv⟩
  refine ⟨⟨?_, ?_⟩, hinv, fun id => ⟨?_, ?_⟩⟩
  · rintro ⟨e, he, hIs⟩
    by_contra hn
    have hv := (validate_eq_none_iff U ToLower p).mpr hn
    rw [Create_valid_error_Is U ToLower s p rd now e hv he] at hIs
    cases hIs
  · intro hi
    obtain ⟨e, _, hIs, hc, _⟩ := hinv hi
    exact ⟨e, by rw [hc], hIs⟩
  · rintro ⟨e, he, hIs⟩
    by_contra hn
    have hv := (validate_eq_none_iff U ToLower p).mpr hn
    rw [Update_valid_error_Is U ToLower s id p now e hv he] at hIs
    cases hIs
  · intro hi
    obtain ⟨e, _, hIs, _, hu⟩ := hinv hi
    exact ⟨e, by rw [hu id], hIs⟩

theorem Create_invalid_input_iff_witness :
    Invalid Auth.asciiUnicode asciiToLower { sampleProfile with DBType := "invalid" } ∧
      ∃ e, validate Auth.asciiUnicode asciiToLower
          { sampleProfile with DBType := "invalid" } = some e ∧
        e.Is .ErrInvalidInput = true ∧
        Create Auth.asciiUnicode asciiToLower (NewService sampleDisk)
          { sampleProfile with DBType := "invalid" } sampleRead 7 =
          (.error e, NewService sampleDisk) ∧
        ∀ id, Update Auth.asciiUnicode asciiToLower (NewService sampleDisk) id
          { sampleProfile with DBType := "invalid" } 7 = (.error e, NewService sampleDisk) :=
  ⟨by decide,
    (Create_invalid_input_iff Auth.asciiUnicode asciiToLower (NewService sampleDisk)
      { sampleProfile with DBType := "invalid" } sampleRead 7).2.1 (by decide)⟩

end SqlProfile

namespace SqlProfile

theorem persistLocked_setProfiles (s : Service) (hmem : s.stateFile = "") (m : ProfileMap) :
    persistLocked (s.setProfiles m) = (none, s.setProfiles m) :=
  persistLocked_memory (s.setProfiles m) hmem

theorem Create_memory (U : Auth.Unicode) (ToLower : String → String) (s : Service)
    (hmem : s.stateFile = "") (p : Profile) (rd : RandRead) (now : Auth.Time) :
    Create U ToLower s p rd now =
      match validate U ToLower p with
      | some err => (.error err, s)
      | none =>
        match generateID 12 rd with
        | .error err => (.error (.wrapped "generate id" err), s)
        | .ok id =>
          (.ok (createdProfile U ToLower p id now),
            s.setProfiles (s.profiles.insert id (createdProfile U ToLower p id now))) := by
  unfold Create
  cases validate U ToLower p with
  | some err => rfl
  | none =>
    cases generateID 12 rd with
    | error err => rfl
    | ok id =>
      dsimp only
      rw [persistLocked_setProfiles s hmem]
      rfl

theorem Update_memory (U : Auth.Unicode) (ToLower : String → String) (s : Service)
    (hmem : s.stateFile = "") (id : String) (p : Profile) (now : Auth.Time) :
    Update U ToLower s id p now =
      match validate U ToLower p with
      | some err => (.error err, s)
      | none =>
        match s.profiles.lookup id with
        | none => (.error .ErrNotFound, s)
        | some existing =>
          (.ok (updatedProfile U ToLower existing p now),
            s.setProfiles (s.profiles.insert id (updatedProfile U ToLower existing p now))) := by
  unfold Update
  cases validate U ToLower p with
  | some err => rfl
  | none =>
    dsimp only
    cases s.profiles.lookup id with
    | none => rfl
    | some existing =>
      dsimp only
      rw [persistLocked_setProfiles s hmem]

theorem Delete_memory (s : Service) (hmem : s.stateFile = "") (id : String) :
    Delete s id =
      match s.profiles.lookup id with
      | none => (some .ErrNotFound, s)
      | some _ => (none, s.setProfiles (s.profiles.erase id)) := by
  unfold Delete
  dsimp only
  cases s.profiles.lookup id with
  | none => rfl
  | some existing =>
    dsimp only
    rw [persistLocked_setProfiles s hmem]

/-- C27: for the in-memory service (no state file). A valid profile is created
when an id is generated; after a successful `Create(p)`, `Get` of the created id
returns the created profile, whose name is `p`'s trimmed, whose db_type is `p`'s
trimmed and lower-cased, and whose other fields are `p`'s. `Update(id, q)` with a
valid `q` succeeds on a stored id; a successful `Update` returns the stored
profile with the editable fields replaced by `q`'s, the same ID and CreatedAt,
and `Get(id)` returns it afterwards; with a valid `q` and an unknown id it
returns `ErrNotFound` and changes nothing. `Delete(id)` succeeds exactly on a
stored id, and afterwards `Get(id)` and a second `Delete(id)` return
`ErrNotFound`. Every resulting service is again in-memory. -/
theorem in_memory_CRUD (U : Auth.Unicode) (ToLower : String → String) (s : Service)
    (hmem : s.stateFile = "") :
    (∀ p rd now id, ¬ Invalid U ToLower p → generateID 12 rd = .ok id →
      (Create U ToLower s p rd now).1 = .ok (createdProfile U ToLower p id now)) ∧
    (∀ p rd now created, (Create U ToLower s p rd now).1 = .ok created →
      ¬ Invalid U ToLower p ∧
      Get (Create U ToLower s p rd now).2 created.ID = .ok created ∧
      created.Name = Auth.TrimSpace U p.Name ∧
      created.DBType = ToLower (Auth.TrimSpace U p.DBType) ∧
      created.Host = p.Host ∧ created.Port = p.Port ∧ created.Username = p.Username ∧
      created.Database = p.Database ∧ created.Commands = p.Commands ∧
      created.UseSSL = p.UseSSL ∧
      (Create U ToLower s p rd now).2.stateFile = "") ∧
    (∀ id q now existing, ¬ Invalid U ToLower q → s.profiles.lookup id = some existing →
      ∃ updated, (Update U ToLower s id q now).1 = .ok updated) ∧
    (∀ id q now updated, (Update U ToLower s id q now).1 = .ok updated →
      ∃ existing, s.profiles.lookup id = some existing ∧
        updated.ID = existing.ID ∧ updated.CreatedAt = existing.CreatedAt ∧
        updated.Name = Auth.TrimSpace U q.Name ∧
        updated.DBType = ToLower (Auth.TrimSpace U q.DBType) ∧
        updated.Host = q.Host ∧ updated.Port = q.Port ∧ updated.Username = q.Username ∧
        updated.Database = q.Database ∧ updated.Commands = q.Commands ∧
        updated.UseSSL = q.UseSSL ∧ updated.ModifiedAt = now ∧
        Get (Update U ToLower s id q now).2 id = .ok updated ∧
        (Update U ToLower s id q now).2.stateFile = "") ∧
    (∀ id q now, ¬ Invalid U ToLower q → s.profiles.lookup id = none →
      Update U ToLower s id q now = (.error .ErrNotFound, s)) ∧
    (∀ id, (Delete s id).1 = none ↔ ∃ p, s.profiles.lookup id = some p) ∧
    (∀ id, (Delete s id).1 = none →
      Get (Delete s id).2 id = .error .ErrNotFound ∧
      Delete (Delete s id).2 id = (some .ErrNotFound, (Delete s id).2) ∧
      (Delete s id).2.stateFile = "") := by
  refine ⟨?_, ?_, ?_, ?_, ?_, ?_, ?_⟩
  · intro p rd now id hv hg
    rw [Create_memory U ToLower s hmem, (validate_eq_none_iff U ToLower p).mpr hv]
    dsimp only
    rw [hg]
  · intro p rd now created hc
    have hcm := Create_memory U ToLower s hmem p rd now
    cases hv : validate U ToLower p with
    | some err =>
      rw [hv] at hcm
      rw [hcm] at hc
      cases hc
    | none =>
      rw [hv] at hcm
      dsimp only at hcm
      cases hg : generateID 12 rd with
      | error err =>
        rw [hg] at hcm
        rw [hcm] at hc
        cases hc
      | ok id =>
        rw [hg] at hcm
        dsimp only at hcm
        rw [hcm] at hc ⊢
        injection hc with hc
        subst hc
        refine ⟨(validate_eq_none_iff U ToLower p).mp hv, ?_, rfl, rfl, rfl, rfl, rfl, rfl, rfl,
          rfl, hmem⟩
        show Get (s.setProfiles (s.profiles.insert id (createdProfile U ToLower p id now))) id = _
        unfold Get
        show (match (s.profiles.insert id (createdProfile U ToLower p id now)).lookup id with
          | none => Except.error Error.ErrNotFound
          | some p => Except.ok p) = _
        rw [AList.lookup_insert]
  · intro id q now existing hv hl
    rw [Update_memory U ToLower s hmem, (validate_eq_none_iff U ToLower q).mpr hv]
    dsimp only
    rw [hl]
    exact ⟨_, rfl⟩
  · intro id q now updated hu
    have hum := Update_memory U ToLower s hmem id q now
    cases hv : validate U ToLower q with
    | some err =>
      rw [hv] at hum
      rw [hum] at hu
      cases hu
    | none =>
      rw [hv] at hum
      dsimp only at hum
      cases hl : s.profiles.lookup id with
      | none =>
        rw [hl] at hum
        rw [hum] at hu
        cases hu
      | some existing =>
        rw [hl] at hum
        dsimp only at hum
        rw [hum] at hu ⊢
        injection hu with hu
        subst hu
        refine ⟨existing, rfl, rfl, rfl, rfl, rfl, rfl, rfl, rfl, rfl, rfl, rfl, rfl, ?_, hmem⟩
        show Get (s.setProfiles (s.profiles.insert id (updatedProfile U ToLower existing q now)))
          id = _
        unfold Get
        show (match (s.profiles.insert id (updatedProfile U ToLower existing q now)).lookup id with
          | none => Except.error Error.ErrNotFound
          | some p => Except.ok p) = _
        rw [AList.lookup_insert]
  · intro id q now hv hl
    rw [Update_memory U ToLower s hmem, (validate_eq_none_iff U ToLower q).mpr hv]
    dsimp only
    rw [hl]
  · intro id
    have hdm := Delete_memory s hmem id
    cases hl : s.profiles.lookup id with
    | none =>
      rw [hl] at hdm
      rw [hdm]
      exact ⟨fun h => Option.noConfusion h, fun ⟨p, hp⟩ => Option.noConfusion hp⟩
    | some existing =>
      rw [hl] at hdm
      rw [hdm]
      exact ⟨fun _ => ⟨existing, rfl⟩, fun _ => rfl⟩
  · intro id hd
    have hdm := Delete_memory s hmem id
    cases hl : s.profiles.lookup id with
    | none =>
      rw [hl] at hdm
      rw [hdm] at hd
      cases hd
    | some existing =>
      rw [hl] at hdm
      dsimp only at hdm
      rw [hdm]
      have he : (s.setProfiles (s.profiles.erase id)).profiles.lookup id = none := by
        show (s.profiles.erase id).lookup id = none
        exact AList.lookup_erase id s.profiles
      refine ⟨?_, ?_, hmem⟩
      · unfold Get
        rw [he]
      · rw [Delete_memory (s.setProfiles (s.profiles.erase id)) hmem, he]

theorem in_memory_CRUD_witness :
    (NewService sampleDisk).stateFile = "" ∧
      (Create Auth.asciiUnicode asciiToLower (NewService sampleDisk) sampleProfile sampleRead
        7).1 = .ok
          { sampleProfile with
            ID := "000102030405060708090a0b", Name := "Primary Export", DBType := "mysql",
            CreatedAt := 7, ModifiedAt := 7 } :=
  ⟨rfl, (in_memory_CRUD Auth.asciiUnicode asciiToLower (NewService sampleDisk) rfl).1
    sampleProfile sampleRead 7 "000102030405060708090a0b" (by decide) (by decide)⟩

end SqlProfile
